import Mathlib

/-!
# itcsimlib: the statistical-mechanical binding engine

A shallow embedding of `itc_model.c`, `itc_sim.c`, `model_trap/itc_calc.c`,
`library_2par.c` and the energy models, followed by the properties proved about
them.

Conventions of the embedding.

* A C `double` is an element of a field `α`; the theorems about Boltzmann
  weights take `α = ℝ`.  The library function `exp` is the parameter `expf`
  (`Real.exp` in those theorems), and `pow (x, k)` for an `int` exponent `k` is
  `x ^ k` with an integer exponent, so that `pow (0, 0) = 1`.
* A C `int` that is used as a loop counter or as the lattice size is a natural
  number; the contents of the `int` arrays are integers.  No counter is reduced
  modulo `2 ^ 32`: the loops run `i` up to `2 ^ size`, which fits an `int` when
  `size ≤ 30`.
* An array obtained from `malloc` is a list of the requested length; a read
  outside the list yields `0` and a write outside the list is dropped.
* The GSL root solver is outside the repository and enters through a record of
  uninterpreted primitives (`RootSolver`); its interval test is also written out
  as the GSL documents it (`gsl_root_test_interval`).
* Where overflow matters, a `double` is a `Dbl`: a finite value, an infinity or
  NaN, without rounding.
-/

namespace Itcsim

/-! ## Loops and arrays -/

/-- The loop `for (int i = 0; i < n; i++) s = body i s`. -/
def forLoop {σ : Type} (n : Nat) (body : Nat → σ → σ) (s : σ) : σ :=
  match n with
  | 0 => s
  | k + 1 => body k (forLoop k body s)

/-- The loop `for (int j = n - 1; j >= 0; --j) s = body j s`. -/
def forDown {σ : Type} (n : Nat) (body : Nat → σ → σ) (s : σ) : σ :=
  match n with
  | 0 => s
  | k + 1 => forDown k body (body k s)

/-- The loop `for (int i = 0; i < n; i++)` whose body may execute `return r`
(`Except.error r`); the iterations after a `return` are not executed. -/
def forLoopRet {σ ρ : Type} (n : Nat) (body : Nat → σ → Except ρ σ) (s : σ) : Except ρ σ :=
  match n with
  | 0 => Except.ok s
  | k + 1 =>
    match forLoopRet k body s with
    | Except.error r => Except.error r
    | Except.ok s1 => body k s1

/-- The loop `for (int j = a; j < n; j++) s = body j s`. -/
def forFrom {σ : Type} (a n : Nat) (body : Nat → σ → σ) (s : σ) : σ :=
  forLoop (n - a) (fun k => body (a + k)) s

/-- The read `xs[i]`. -/
def rd {β : Type} [Zero β] (xs : List β) (i : Nat) : β := xs.getD i 0

/-- The read `cf[i][j]` of a two-dimensional `int` array. -/
def rd2 (cf : List (List Int)) (i j : Nat) : Int := (cf.getD i []).getD j 0

/-- The write `cf[i][j] = v` of a two-dimensional `int` array. -/
def wr2 (cf : List (List Int)) (i j : Nat) (v : Int) : List (List Int) :=
  cf.set i ((cf.getD i []).set j v)

/-! ## Workspaces (`itc_model.h`, `itc_sim.h`) -/

/-- The record `struct mWorkspace`, without the solver handle `fsolver_s` and the
function record `fsolver_F`: the solver state is passed next to the workspace. -/
structure mWorkspace (α : Type) where
  size : Nat
  temp : α
  Ptot : α
  Ltot : α
  Pfree : α
  Lfree : α
  cyclic : Int
  configs : List (List Int)
  bound : List Int
  energies : List α
  probs : List α

/-- The record `struct sWorkspace`.  Its pointer `model` is set by
`setupSimWorkspace` to the address of a by-value argument and is never read. -/
structure sWorkspace (α : Type) where
  enthalpies : List α

/-- The allocator as seen by the program: `ok k` tells whether the `k`-th call of
`malloc` returns a block, `dbls k j` and `ints k j` are the indeterminate initial
contents of the block returned by call `k`. -/
structure Heap (α : Type) where
  ok : Nat → Bool
  dbls : Nat → Nat → α
  ints : Nat → Nat → Int

/-- The call `malloc (n * sizeof (T))`: `none` is `NULL`. -/
def malloc {β : Type} (ok : Bool) (n : Nat) (junk : Nat → β) : Option (List β) :=
  if ok then some ((List.range n).map junk) else none

/-! ## `itc_model.c` -/

/-- Lines 34-38 of `setupModelWorkspace`: one row of `size` ints per configuration;
the first failing `malloc` makes the function return. -/
def allocRows {α : Type} (h : Heap α) (size : Nat) (n : Nat) (cf : List (List Int)) :
    Except (List (List Int)) (List (List Int)) :=
  forLoopRet n (fun i cf =>
    match malloc (h.ok (4 + i)) size (h.ints (4 + i)) with
    | none => Except.error (cf.set i [])
    | some row => Except.ok (cf.set i row)) cf

/-- The body of the loop at lines 41-57 of `setupModelWorkspace`, for configuration `i`. -/
def fillConfig {α : Type} [Zero α] (i : Nat) (w : mWorkspace α) : mWorkspace α :=
  let energies := w.energies.set i 0
  let bound := w.bound.set i 0
  /- use the binary representation of the number to describe the config -/
  let cc := forDown w.size (fun j (s : List (List Int) × Nat) =>
    (wr2 s.1 i j ((s.2 % 2 : Nat) : Int), s.2 / 2)) (w.configs, i)
  let configs := cc.1
  /- determine the number of occupied sites in each configuration -/
  let bound := forLoop w.size (fun j bd =>
    if rd2 configs i j > 0 then bd.set i (rd bd i + 1) else bd) bound
  { w with energies := energies, bound := bound, configs := configs }

/-- The function `setupModelWorkspace` of `itc_model.c`: the returned integer is
its status (`1` when a `malloc` failed, `0` otherwise).  Its last two statements,
which create the root solver and store the address of `getFree`, act on the fields
that `mWorkspace` leaves out. -/
def setupModelWorkspace {α : Type} [Zero α] (h : Heap α) (w : mWorkspace α) :
    Int × mWorkspace α :=
  match malloc (h.ok 0) (2 ^ w.size) (h.dbls 0) with
  | none => (1, { w with energies := [] })
  | some e =>
    let w := { w with energies := e }
    match malloc (h.ok 1) (2 ^ w.size) (h.dbls 1) with
    | none => (1, { w with probs := [] })
    | some p =>
      let w := { w with probs := p }
      match malloc (h.ok 2) (2 ^ w.size) (h.ints 2) with
      | none => (1, { w with bound := [] })
      | some b =>
        let w := { w with bound := b }
        match malloc (h.ok 3) (2 ^ w.size) (fun _ => ([] : List Int)) with
        | none => (1, { w with configs := [] })
        | some c =>
          let w := { w with configs := c }
          match allocRows h w.size (2 ^ w.size) w.configs with
          | Except.error c1 => (1, { w with configs := c1 })
          | Except.ok c1 =>
            let w := { w with configs := c1 }
            (0, forLoop (2 ^ w.size) fillConfig w)

/-- The right-hand side of line 88 of `setProbabilities`: the weight
`exp ((-1 * energies[i]) / (R * temp)) * pow (Lfree, bound[i])` of configuration `i`. -/
def weight {α : Type} [Field α] (expf : α → α) (w : mWorkspace α) (i : Nat) : α :=
  let R : α := 83144621 / 10000000
  expf ((-1 * rd w.energies i) / (R * w.temp)) * w.Lfree ^ (rd w.bound i)

/-- The function `setProbabilities` of `itc_model.c`. -/
def setProbabilities {α : Type} [Field α] (expf : α → α) (w : mWorkspace α) : mWorkspace α :=
  let ps := forLoop (2 ^ w.size) (fun i (s : List α × α) =>
    let probs := s.1.set i (weight expf w i)
    (probs, s.2 + rd probs i)) (w.probs, 0)
  let sum := ps.2
  let probs := forLoop (2 ^ w.size) (fun i probs => probs.set i (rd probs i / sum)) ps.1
  { w with probs := probs }

/-- The function `setProbabilities` of `itc_model.c` once more, with the division of
`w->probs[i] /= sum` left open as the parameter `divf`, so that nothing is assumed
about the quotient by a sum that is zero. -/
def setProbabilitiesWith {α : Type} [Field α] (expf : α → α) (divf : α → α → α)
    (w : mWorkspace α) : mWorkspace α :=
  let ps := forLoop (2 ^ w.size) (fun i (s : List α × α) =>
    let probs := s.1.set i (weight expf w i)
    (probs, s.2 + rd probs i)) (w.probs, 0)
  let sum := ps.2
  let probs := forLoop (2 ^ w.size) (fun i probs => probs.set i (divf (rd probs i) sum)) ps.1
  { w with probs := probs }

/-- The function `getFree` of `itc_model.c`: the returned pair is the residual and
the workspace `params` points to, as the call leaves it. -/
def getFree {α : Type} [Field α] (expf : α → α) (Lfree : α) (w : mWorkspace α) :
    α × mWorkspace α :=
  let w := { w with Lfree := Lfree }
  let w := setProbabilities expf w
  let bound := forLoop (2 ^ w.size) (fun i (b : α) =>
    b + rd w.probs i * w.Ptot * ((rd w.bound i : Int) : α)) 0
  (w.Ltot - (bound + w.Lfree), w)

/-! ## The root solver -/

/-- The status `GSL_SUCCESS` of `gsl_errno.h`. -/
def GSL_SUCCESS : Int := 0

/-- The status `GSL_CONTINUE` of `gsl_errno.h`. -/
def GSL_CONTINUE : Int := -2

/-- The status `GSL_EINVAL` of `gsl_errno.h` (invalid argument supplied by user). -/
def GSL_EINVAL : Int := 4

/-- The status `GSL_EBADTOL` of `gsl_errno.h` (user specified an invalid tolerance). -/
def GSL_EBADTOL : Int := 13

/-- The function `gsl_root_test_interval` of the GSL, which is outside the
repository, as the GSL documents it: an error for a negative tolerance or for a
lower bound above the upper bound, `GSL_SUCCESS` when
`|x_upper - x_lower| < epsabs + epsrel * min (|x_lower|, |x_upper|)`, the minimum
being taken as `0` when the interval contains the origin, and `GSL_CONTINUE`
otherwise. -/
def gsl_root_test_interval {α : Type} [LinearOrderedField α]
    (x_lower x_upper epsabs epsrel : α) : Int :=
  if epsrel < 0 then GSL_EBADTOL
  else if epsabs < 0 then GSL_EBADTOL
  else if x_lower > x_upper then GSL_EINVAL
  else
    let min_abs : α :=
      if (x_lower > 0 ∧ x_upper > 0) ∨ (x_lower < 0 ∧ x_upper < 0) then
        min |x_lower| |x_upper|
      else 0
    let tolerance := epsabs + epsrel * min_abs
    if |x_upper - x_lower| < tolerance then GSL_SUCCESS else GSL_CONTINUE

/-- The primitives of the GSL root solver, uninterpreted.  `set` and `iterate`
receive the objective as a function of the trial value and return their status,
the next solver state and the trial values at which they called the objective,
in the order of the calls. -/
structure RootSolver (σ α : Type) where
  set : σ → (α → α) → α → α → Int × σ × List α
  iterate : σ → (α → α) → Int × σ × List α
  root : σ → α
  x_lower : σ → α
  x_upper : σ → α
  test_interval : α → α → α → α → Int

/-- The effect on the workspace of the solver calling the objective `getFree` at
the trial values `xs`, one after the other. -/
def replay {α : Type} [Field α] (expf : α → α) (xs : List α) (w : mWorkspace α) :
    mWorkspace α :=
  xs.foldl (fun w x => (getFree expf x w).2) w

/-- The result of `setFree`: the returned status, the number of passes through the
loop body, the solver state and the workspace. -/
structure SolveResult (σ α : Type) where
  status : Int
  iter : Nat
  solver : σ
  model : mWorkspace α

/-- The `do ... while` loop of `setFree`, entered with the counter `iter`.  The
status of `gsl_root_fsolver_iterate` is overwritten by that of the interval test
before it is read, and the root `r` is computed but not used. -/
def setFreeLoop {σ α : Type} [Field α] (sv : RootSolver σ α) (expf : α → α)
    (max_iter iter : Nat) (st : σ) (w : mWorkspace α) : SolveResult σ α :=
  let iter1 := iter + 1
  let it := sv.iterate st (fun x => (getFree expf x w).1)
  let st1 := it.2.1
  let w1 := replay expf it.2.2 w
  let a := sv.x_lower st1
  let b := sv.x_upper st1
  let status := sv.test_interval a b 0 0
  if status = GSL_CONTINUE ∧ iter1 < max_iter then
    setFreeLoop sv expf max_iter iter1 st1 w1
  else
    { status := status, iter := iter1, solver := st1, model := w1 }
termination_by max_iter - iter
decreasing_by omega

/-- The function `setFree` of `itc_model.c`. -/
def setFree {σ α : Type} [Field α] (sv : RootSolver σ α) (expf : α → α)
    (st : σ) (w : mWorkspace α) : SolveResult σ α :=
  let max_iter := 100
  let s := sv.set st (fun x => (getFree expf x w).1) 0 w.Ltot
  setFreeLoop sv expf max_iter 0 s.2.1 (replay expf s.2.2 w)

/-- The solver state and the workspace after `gsl_root_fsolver_set` on the bracket
`[0, Ltot]` followed by `k` calls of `gsl_root_fsolver_iterate`, every call with the
objective `getFree` on the workspace as the calls before it left it. -/
def solverAfter {σ α : Type} [Field α] (sv : RootSolver σ α) (expf : α → α)
    (st : σ) (w : mWorkspace α) : Nat → σ × mWorkspace α
  | 0 =>
    let s := sv.set st (fun x => (getFree expf x w).1) 0 w.Ltot
    (s.2.1, replay expf s.2.2 w)
  | k + 1 =>
    let p := solverAfter sv expf st w k
    let it := sv.iterate p.1 (fun x => (getFree expf x p.2).1)
    (it.2.1, replay expf it.2.2 p.2)

/-! ## `itc_sim.c` -/

/-- The function `setupSimWorkspace` of `itc_sim.c`; `k` is the number of calls of
`malloc` made before. -/
def setupSimWorkspace {α : Type} [Zero α] (h : Heap α) (k : Nat) (model : mWorkspace α) :
    Int × sWorkspace α :=
  match malloc (h.ok k) (2 ^ model.size) (h.dbls k) with
  | none => (1, { enthalpies := [] })
  | some e => (0, { enthalpies := forLoop (2 ^ model.size) (fun i en => en.set i 0) e })

/-- The function `getQ` of `itc_sim.c` (the copy in `model_trap/itc_sim.c` has the
same body). -/
def getQ {α : Type} [Field α] (sim : sWorkspace α) (model : mWorkspace α) : α :=
  forLoop (2 ^ model.size) (fun i (Q : α) => Q + rd sim.enthalpies i * rd model.probs i) 0

/-! ## The titration drivers -/

/-- What a titration driver leaves behind: the returned status, the solver state,
both workspaces and the output array `Q`. -/
structure CalcResult (σ α : Type) where
  status : Int
  solver : σ
  model : mWorkspace α
  sim : sWorkspace α
  Q : List α

/-- The function `setup` of `model_trap/itc_calc.c`: the returned integer is its
status.  `model` and `sim` are the file-level workspaces on entry;
`setupSimWorkspace` is reached only after a `setupModelWorkspace` that made all its
`4 + 2 ^ size` calls of `malloc`. -/
def setup {α : Type} [Zero α] (h : Heap α) (model : mWorkspace α) (sim : sWorkspace α)
    (size : Nat) (cyclic : Int) : Int × mWorkspace α × sWorkspace α :=
  let model := { model with size := size }
  let model := { model with cyclic := cyclic }
  let m := setupModelWorkspace h model
  if m.1 > 0 then (0, m.2, sim)
  else
    let s := setupSimWorkspace h (4 + 2 ^ size) m.2
    if s.1 > 0 then (0, m.2, s.2)
    else (0, m.2, s.2)

/-- The body of the loop of `calc` in `model_trap/itc_calc.c` for point `i`;
`Except.error` is the `return status` inside the loop. -/
def calcStep {σ α : Type} [Field α] (sv : RootSolver σ α) (expf : α → α)
    (P L : List α) (i : Nat) (s : CalcResult σ α) :
    Except (CalcResult σ α) (CalcResult σ α) :=
  let model := { s.model with Ptot := rd P i }
  let model := { model with Ltot := rd L i }
  let r := setFree sv expf s.solver model
  if r.status ≠ 0 then
    Except.error { s with status := r.status, solver := r.solver, model := r.model }
  else
    Except.ok { status := r.status, solver := r.solver, model := r.model, sim := s.sim,
                Q := s.Q.set i (getQ s.sim r.model) }

/-- One titration point solved: the conditions of point `i` are stored in the
model, `setFree` runs and the heat is written to `Q[i]`.  This is the body of the
loops of both drivers on the path that reaches the assignment to `Q[i]`. -/
def solvePoint {σ α : Type} [Field α] (sv : RootSolver σ α) (expf : α → α)
    (P L : List α) (i : Nat) (s : CalcResult σ α) : CalcResult σ α :=
  let model := { s.model with Ptot := rd P i }
  let model := { model with Ltot := rd L i }
  let r := setFree sv expf s.solver model
  { status := r.status, solver := r.solver, model := r.model, sim := s.sim,
    Q := s.Q.set i (getQ s.sim r.model) }

/-- Lines 23-35 of `calc` in `model_trap/itc_calc.c`, up to the loop: the status
is `0`, the temperature is stored and the energy model is applied.  `model`, `sim`
and `st` are the file-level workspaces and the solver state on entry;
`assignEnergies` is the energy model the file is linked with. -/
def trapStart {σ α : Type}
    (assignEnergies : mWorkspace α → sWorkspace α → List α → mWorkspace α × sWorkspace α)
    (st : σ) (model : mWorkspace α) (sim : sWorkspace α)
    (temp : α) (Q : List α) (params : List α) : CalcResult σ α :=
  let status : Int := 0
  let model := { model with temp := temp }
  let ms := assignEnergies model sim params
  { status := status, solver := st, model := ms.1, sim := ms.2, Q := Q }

/-- The function `calc` of `model_trap/itc_calc.c` (`calc` is a reserved word of
Lean): `trapStart`, then the loop over the `n` points, which returns the status of
`setFree` as soon as it is not `0`, then `return status`. -/
def calc_trap {σ α : Type} [Field α] (sv : RootSolver σ α) (expf : α → α)
    (assignEnergies : mWorkspace α → sWorkspace α → List α → mWorkspace α × sWorkspace α)
    (st : σ) (model : mWorkspace α) (sim : sWorkspace α)
    (n : Int) (temp : α) (P L Q : List α) (params : List α) : CalcResult σ α :=
  match forLoopRet n.toNat (calcStep sv expf P L)
      (trapStart assignEnergies st model sim temp Q params) with
  | Except.error r => r
  | Except.ok r => r

/-- Lines 18-25 of `calc` in `library_2par.c`, up to the loop.  `model0` holds the
indeterminate initial contents of the local `struct mWorkspace`, `st` is the solver
state that `gsl_root_fsolver_alloc` returns, and `assignEnergies` is the
two-parameter energy model of `energies_2par.h`.  The statuses of
`setupModelWorkspace` and `setupSimWorkspace` are discarded, as in the source; the
call of `malloc` in `setupSimWorkspace` is numbered as it is after a
`setupModelWorkspace` that made all its `4 + 2 ^ size` calls. -/
def twoParStart {σ α : Type} [Field α]
    (assignEnergies : mWorkspace α → sWorkspace α → α → α → mWorkspace α × sWorkspace α)
    (h : Heap α) (st : σ) (model0 : mWorkspace α)
    (Q : List α) (size : Nat) (cyclic : Int) (temp : α) (params : List α) :
    CalcResult σ α :=
  let model := { model0 with size := size }
  let model := { model with cyclic := cyclic }
  let model := { model with temp := temp }
  let model := (setupModelWorkspace h model).2
  let sim := (setupSimWorkspace h (4 + 2 ^ size) model).2
  let ms := assignEnergies model sim (rd params 0) (rd params 1)
  { status := 0, solver := st, model := ms.1, sim := ms.2, Q := Q }

/-- The function `calc` of `library_2par.c`: `twoParStart`, then the loop over the
`n` points, then `return 0`.  The status of `setFree` is discarded, as in the
source; the field `status` of the loop state is the constant that is returned. -/
def calc_2par {σ α : Type} [Field α] (sv : RootSolver σ α) (expf : α → α)
    (assignEnergies : mWorkspace α → sWorkspace α → α → α → mWorkspace α × sWorkspace α)
    (h : Heap α) (st : σ) (model0 : mWorkspace α)
    (P L Q : List α) (n : Int) (size : Nat) (cyclic : Int) (temp : α) (params : List α) :
    CalcResult σ α :=
  let r := forLoop n.toNat (fun i (s : CalcResult σ α) =>
    let model := { s.model with Ptot := rd P i }
    let model := { model with Ltot := rd L i }
    let f := setFree sv expf s.solver model
    { s with solver := f.solver, model := f.model, Q := s.Q.set i (getQ s.sim f.model) })
    (twoParStart assignEnergies h st model0 Q size cyclic temp params)
  { r with status := 0 }

/-! ## `energies_simple.c` -/

namespace Simple

/-- The function `assignEnergies` of `energies_simple.c`. -/
def assignEnergies {α : Type} [Field α] (w : mWorkspace α) (sim : sWorkspace α)
    (Gbind Hbind : α) : mWorkspace α × sWorkspace α :=
  forLoop (2 ^ w.size) (fun i (s : mWorkspace α × sWorkspace α) =>
    let w1 := { s.1 with energies := s.1.energies.set i 0 }
    let sim1 : sWorkspace α := { enthalpies := s.2.enthalpies.set i 0 }
    /- start w/ presence of ligand dG -/
    forLoop w1.size (fun j (t : mWorkspace α × sWorkspace α) =>
      if rd2 t.1.configs i j > 0 then
        ({ t.1 with energies := t.1.energies.set i (rd t.1.energies i + Gbind) },
         { enthalpies := t.2.enthalpies.set i (rd t.2.enthalpies i + Hbind) })
      else t) (w1, sim1)) (w, sim)

end Simple

/-! ## The neighbour models -/

/-- The statement `w->energies[i] += v`. -/
def addEnergy {α : Type} [Field α] (i : Nat) (v : α) (t : mWorkspace α × sWorkspace α) :
    mWorkspace α × sWorkspace α :=
  ({ t.1 with energies := t.1.energies.set i (rd t.1.energies i + v) }, t.2)

/-- The statement `sim->enthalpies[i] += v`. -/
def addEnthalpy {α : Type} [Field α] (i : Nat) (v : α) (t : mWorkspace α × sWorkspace α) :
    mWorkspace α × sWorkspace α :=
  (t.1, { enthalpies := t.2.enthalpies.set i (rd t.2.enthalpies i + v) })

/-- The read `cf[i][k]` for an `int` index `k`: a negative index is outside the row. -/
def rdI (cf : List (List Int)) (i : Nat) (k : Int) : Int :=
  if k < 0 then 0 else rd2 cf i k.toNat

/-- The function `permute` of `energies_sk.c`; `model_trap/energies_sk.c`,
`energies_ab.c`, `energies_nn.c`, `energies_ik.c`, `energies_ian.c` and
`energies_jump.c` define it with the same text.  The operator `%` of C truncates. -/
def permute (i n : Int) : Int :=
  if i < 0 then i + n
  else if i ≥ n then Int.tmod i n
  else i

namespace Sk

/-- The function `assignEnergies` of `energies_sk.c`. -/
def assignEnergies {α : Type} [Field α] (w : mWorkspace α) (sim : sWorkspace α)
    (Ga Gb Gc Ha Hb Hc : α) : mWorkspace α × sWorkspace α :=
  forLoop (2 ^ w.size) (fun i (s : mWorkspace α × sWorkspace α) =>
    let w1 := { s.1 with energies := s.1.energies.set i 0 }
    let sim1 : sWorkspace α := { enthalpies := s.2.enthalpies.set i 0 }
    forLoop w1.size (fun j (t : mWorkspace α × sWorkspace α) =>
      if rd2 t.1.configs i j > 0 then
        let t1 := addEnthalpy i Ha (addEnergy i Ga t)
        let t2 :=
          if rdI t1.1.configs i (permute ((j : Int) + 1) t1.1.size) > 0 then
            /- coupling to an occupied site -/
            addEnthalpy i Hc (addEnergy i Gc t1)
          else
            /- coupling to an unoccupied site -/
            addEnthalpy i Hb (addEnergy i Gb t1)
        if rdI t2.1.configs i (permute ((j : Int) - 1) t2.1.size) > 0 then
          addEnthalpy i Hc (addEnergy i Gc t2)
        else
          addEnthalpy i Hb (addEnergy i Gb t2)
      else t) (w1, sim1)) (w, sim)

end Sk

namespace SkTrap

/-- The function `assignEnergies` of `itcsimlib/model_trap/energies_sk.c`. -/
def assignEnergies {α : Type} [Field α] (w : mWorkspace α) (sim : sWorkspace α)
    (params : List α) : mWorkspace α × sWorkspace α :=
  forLoop (2 ^ w.size) (fun i (s : mWorkspace α × sWorkspace α) =>
    let w1 := { s.1 with energies := s.1.energies.set i 0 }
    let sim1 : sWorkspace α := { enthalpies := s.2.enthalpies.set i 0 }
    forLoop w1.size (fun j (t : mWorkspace α × sWorkspace α) =>
      if rd2 t.1.configs i j > 0 then
        let t1 := addEnthalpy i (rd params 3) (addEnergy i (rd params 0) t)
        let t2 :=
          if rdI t1.1.configs i (permute ((j : Int) + 1) t1.1.size) > 0 then
            addEnthalpy i (rd params 5) (addEnergy i (rd params 2) t1)
          else
            addEnthalpy i (rd params 4) (addEnergy i (rd params 1) t1)
        if rdI t2.1.configs i (permute ((j : Int) - 1) t2.1.size) > 0 then
          addEnthalpy i (rd params 5) (addEnergy i (rd params 2) t2)
        else
          addEnthalpy i (rd params 4) (addEnergy i (rd params 1) t2)
      else t) (w1, sim1)) (w, sim)

end SkTrap

namespace Ab

/-- The function `assignEnergies` of `src/model_trap/energies_ab.c`.  The test
`i % 2 == 0` is on the loop counter `i` of the configurations, as in the source. -/
def assignEnergies {α : Type} [Field α] (w : mWorkspace α) (sim : sWorkspace α)
    (params : List α) : mWorkspace α × sWorkspace α :=
  forLoop (2 ^ w.size) (fun i (s : mWorkspace α × sWorkspace α) =>
    let w1 := { s.1 with energies := s.1.energies.set i 0 }
    let sim1 : sWorkspace α := { enthalpies := s.2.enthalpies.set i 0 }
    forLoop w1.size (fun j (t : mWorkspace α × sWorkspace α) =>
      if rd2 t.1.configs i j > 0 then
        /- Set the intrinsic energy of the binding site. -/
        let t1 :=
          if i % 2 = 0 then
            addEnthalpy i (rd params 3) (addEnergy i (rd params 0) t)
          else
            addEnthalpy i (rd params 4) (addEnergy i (rd params 1) t)
        /- Add any coupling energies. -/
        let t2 :=
          if rdI t1.1.configs i (permute ((j : Int) + 1) t1.1.size) > 0 then
            addEnthalpy i (rd params 5) (addEnergy i (rd params 2) t1)
          else t1
        /- Coupling energies are not exclusive! -/
        if rdI t2.1.configs i (permute ((j : Int) - 1) t2.1.size) > 0 then
          addEnthalpy i (rd params 5) (addEnergy i (rd params 2) t2)
        else t2
      else t) (w1, sim1)) (w, sim)

end Ab

namespace Nn

/-- The function `assignEnergies` of `model_trap/energies_nn.c`. -/
def assignEnergies {α : Type} [Field α] (w : mWorkspace α) (sim : sWorkspace α)
    (params : List α) : mWorkspace α × sWorkspace α :=
  forLoop (2 ^ w.size) (fun i (s : mWorkspace α × sWorkspace α) =>
    let w1 := { s.1 with energies := s.1.energies.set i 0 }
    let sim1 : sWorkspace α := { enthalpies := s.2.enthalpies.set i 0 }
    forLoop w1.size (fun j (t : mWorkspace α × sWorkspace α) =>
      if rd2 t.1.configs i j > 0 then
        let t1 := addEnthalpy i (rd params 4) (addEnergy i (rd params 0) t)
        if rdI t1.1.configs i (permute ((j : Int) - 1) t1.1.size) = 0
            ∧ rdI t1.1.configs i (permute ((j : Int) + 1) t1.1.size) = 0 then
          /- 010 -/
          addEnthalpy i (rd params 5) (addEnergy i (rd params 1) t1)
        else if rdI t1.1.configs i (permute ((j : Int) - 1) t1.1.size) = 1
            ∧ rdI t1.1.configs i (permute ((j : Int) + 1) t1.1.size) = 0 then
          /- 110 -/
          addEnthalpy i (rd params 6) (addEnergy i (rd params 2) t1)
        else if rdI t1.1.configs i (permute ((j : Int) - 1) t1.1.size) = 0
            ∧ rdI t1.1.configs i (permute ((j : Int) + 1) t1.1.size) = 1 then
          /- 011 -/
          addEnthalpy i (rd params 6) (addEnergy i (rd params 2) t1)
        else if rdI t1.1.configs i (permute ((j : Int) - 1) t1.1.size) = 1
            ∧ rdI t1.1.configs i (permute ((j : Int) + 1) t1.1.size) = 1 then
          /- 111 -/
          addEnthalpy i (rd params 7) (addEnergy i (rd params 3) t1)
        else t1
      else t) (w1, sim1)) (w, sim)

end Nn

namespace Ik

/-- The function `assignEnergies` of `src/model_trap/energies_ik.c`. -/
def assignEnergies {α : Type} [Field α] (w : mWorkspace α) (sim : sWorkspace α)
    (params : List α) : mWorkspace α × sWorkspace α :=
  forLoop (2 ^ w.size) (fun i (s : mWorkspace α × sWorkspace α) =>
    let w1 := { s.1 with energies := s.1.energies.set i 0 }
    let sim1 : sWorkspace α := { enthalpies := s.2.enthalpies.set i 0 }
    /- start w/ presence of ligand dG -/
    forLoop w1.size (fun j (t : mWorkspace α × sWorkspace α) =>
      if rd2 t.1.configs i j > 0 then
        if rdI t.1.configs i (permute ((j : Int) + 1) t.1.size) > 0
            ∧ rdI t.1.configs i (permute ((j : Int) - 1) t.1.size) > 0 then
          addEnthalpy i (rd params 5) (addEnergy i (rd params 2) t)
        else if rdI t.1.configs i (permute ((j : Int) + 1) t.1.size) > 0
            ∨ rdI t.1.configs i (permute ((j : Int) - 1) t.1.size) > 0 then
          addEnthalpy i (rd params 4) (addEnergy i (rd params 1) t)
        else
          addEnthalpy i (rd params 3) (addEnergy i (rd params 0) t)
      else t) (w1, sim1)) (w, sim)

end Ik

namespace Ian

/-- The function `assignEnergies` of `energies_ian.c`. -/
def assignEnergies {α : Type} [Field α] (w : mWorkspace α) (sim : sWorkspace α)
    (Gbind Gone Gtwo Hnone Hone Htwo : α) : mWorkspace α × sWorkspace α :=
  forLoop (2 ^ w.size) (fun i (s : mWorkspace α × sWorkspace α) =>
    let w1 := { s.1 with energies := s.1.energies.set i 0 }
    let sim1 : sWorkspace α := { enthalpies := s.2.enthalpies.set i 0 }
    /- start w/ presence of ligand dG -/
    forLoop w1.size (fun j (t : mWorkspace α × sWorkspace α) =>
      if rd2 t.1.configs i j > 0 then
        if rdI t.1.configs i (permute ((j : Int) + 1) t.1.size) > 0
            ∧ rdI t.1.configs i (permute ((j : Int) - 1) t.1.size) > 0 then
          addEnthalpy i Htwo (addEnergy i Gtwo t)
        else if rdI t.1.configs i (permute ((j : Int) + 1) t.1.size) > 0
            ∨ rdI t.1.configs i (permute ((j : Int) - 1) t.1.size) > 0 then
          addEnthalpy i Hone (addEnergy i Gone t)
        else
          addEnthalpy i Hnone (addEnergy i Gbind t)
      else t) (w1, sim1)) (w, sim)

end Ian

namespace Combined

/-- The statements of `energies_.c` between `tmp1 = Gbind; tmp2 = Hnone;` and the
two `+=`, for a site whose two neighbour tests came out as `r` (the one tested
first) and `l`: the final values of `tmp1` and `tmp2`. -/
def couple {α : Type} [Field α] (Gbind Ga Gb Gc Hnone Ha Hb Hc : α) (r l : Bool) : α × α :=
  let tmp1 := Gbind /- presence of ligand dG -/
  let tmp2 := Hnone /- binding to site enthalpy -/
  if r && l then /- both neighboring sites are occupied -/
    (tmp1 * Gc, tmp2 * Hc)
  else
    let t : α × α := if r then (tmp1 * Gb, tmp2 * Hb) else (tmp1 * Ga, tmp2 * Ha)
    if l then (t.1 * Gb, t.2 * Hb) else (t.1 * Ga, t.2 * Ha)

/-- The function `assignEnergies` of `energies_.c`.  The last block tests
`w->configs[i][0]` for being nonzero, the other blocks test `> 0`. -/
def assignEnergies {α : Type} [Field α] (w : mWorkspace α) (sim : sWorkspace α)
    (Gbind Ga Gb Gc Hnone Ha Hb Hc : α) : mWorkspace α × sWorkspace α :=
  forLoop (2 ^ w.size) (fun i (s : mWorkspace α × sWorkspace α) =>
    let w1 := { s.1 with energies := s.1.energies.set i 0 }
    let sim1 : sWorkspace α := { enthalpies := s.2.enthalpies.set i 0 }
    let t := forFrom 1 (w1.size - 1) (fun j (t : mWorkspace α × sWorkspace α) =>
      if rd2 t.1.configs i j > 0 then
        let tmp := couple Gbind Ga Gb Gc Hnone Ha Hb Hc
          (decide (rd2 t.1.configs i (j + 1) > 0)) (decide (rd2 t.1.configs i (j - 1) > 0))
        addEnthalpy i tmp.2 (addEnergy i tmp.1 t)
      else t) (w1, sim1)
    if t.1.cyclic > 0 then
      let t :=
        if rd2 t.1.configs i 0 > 0 then
          let tmp := couple Gbind Ga Gb Gc Hnone Ha Hb Hc
            (decide (rd2 t.1.configs i 1 > 0))
            (decide (rdI t.1.configs i ((t.1.size : Int) - 1) > 0))
          addEnthalpy i tmp.2 (addEnergy i tmp.1 t)
        else t
      if rdI t.1.configs i ((t.1.size : Int) - 1) > 0 then
        let tmp := couple Gbind Ga Gb Gc Hnone Ha Hb Hc
          (decide (rd2 t.1.configs i 0 ≠ 0))
          (decide (rdI t.1.configs i ((t.1.size : Int) - 2) > 0))
        addEnthalpy i tmp.2 (addEnergy i tmp.1 t)
      else t
    else t) (w, sim)

end Combined

namespace Hybrid

/-- The function `permute` of `energies_hybrid.c`; `energies_jump2.c` defines it
with the same text.  The operator `%` of C truncates. -/
def permute (i n : Int) : Int :=
  if i < 0 then i + Int.tmod i n
  else if i ≥ n then Int.tmod i n
  else i

end Hybrid

/-! ## The common shape of the neighbour models -/

/-- Both accumulations of one occupied site at once: `energies[i] += e` and
`enthalpies[i] += h`. -/
def bump {α : Type} [Field α] (i : Nat) (e h : α) (t : mWorkspace α × sWorkspace α) :
    mWorkspace α × sWorkspace α :=
  addEnthalpy i h (addEnergy i e t)

/-- The loops shared by the neighbour models: for every configuration `i` both
entries are reset, and every occupied site `j` adds `gE cf size i j` to
`energies[i]` and `gH cf size i j` to `enthalpies[i]`. -/
def accumEnergies {α : Type} [Field α] (gE gH : List (List Int) → Nat → Nat → Nat → α)
    (w : mWorkspace α) (sim : sWorkspace α) : mWorkspace α × sWorkspace α :=
  forLoop (2 ^ w.size) (fun i (s : mWorkspace α × sWorkspace α) =>
    let w1 := { s.1 with energies := s.1.energies.set i 0 }
    let sim1 : sWorkspace α := { enthalpies := s.2.enthalpies.set i 0 }
    forLoop w1.size (fun j (t : mWorkspace α × sWorkspace α) =>
      if rd2 t.1.configs i j > 0 then
        bump i (gE t.1.configs t.1.size i j) (gH t.1.configs t.1.size i j) t
      else t) (w1, sim1)) (w, sim)

/-- The sum of `g cf n i j` over the occupied sites `j < n` of configuration `i`. -/
def siteSum {α : Type} [Field α] (g : List (List Int) → Nat → Nat → Nat → α)
    (cf : List (List Int)) (n i : Nat) : α :=
  ∑ j in Finset.range n, if rd2 cf i j > 0 then g cf n i j else 0

/-- What one occupied site `j` of configuration `i` adds in the additive
3-parameter model: `a`, plus `c` or `b` for the right neighbour, plus `c` or `b`
for the left neighbour. -/
def skTerm {α : Type} (a b c : α) [Add α] (cf : List (List Int)) (n i j : Nat) : α :=
  a + (if rdI cf i (permute ((j : Int) + 1) n) > 0 then c else b)
    + (if rdI cf i (permute ((j : Int) - 1) n) > 0 then c else b)

/-- What one occupied site `j` of configuration `i` adds in the AB model: `a` or
`b` by the parity of `i`, plus `c` for an occupied right neighbour, plus `c` for an
occupied left neighbour. -/
def abTerm {α : Type} (a b c : α) [Add α] [Zero α] (cf : List (List Int)) (n i j : Nat) : α :=
  (if i % 2 = 0 then a else b)
    + (if rdI cf i (permute ((j : Int) + 1) n) > 0 then c else 0)
    + (if rdI cf i (permute ((j : Int) - 1) n) > 0 then c else 0)

/-- The pattern term of the NN model for a site whose left neighbour reads `l` and
whose right neighbour reads `r`: the `if ... else if` chain of lines 53-65. -/
def nnPattern {α : Type} [Zero α] (a b c : α) (l r : Int) : α :=
  if l = 0 ∧ r = 0 then a
  else if l = 1 ∧ r = 0 then b
  else if l = 0 ∧ r = 1 then b
  else if l = 1 ∧ r = 1 then c
  else 0

/-- What one occupied site `j` of configuration `i` adds in the NN model. -/
def nnTerm {α : Type} (p0 a b c : α) [Add α] [Zero α] (cf : List (List Int)) (n i j : Nat) : α :=
  p0 + nnPattern a b c (rdI cf i (permute ((j : Int) - 1) n))
    (rdI cf i (permute ((j : Int) + 1) n))

/-- What one occupied site `j` of configuration `i` adds in the IK model: `c` when
both neighbours are occupied, `b` when one is, `a` when none is. -/
def ikTerm {α : Type} (a b c : α) (cf : List (List Int)) (n i j : Nat) : α :=
  if rdI cf i (permute ((j : Int) + 1) n) > 0 ∧ rdI cf i (permute ((j : Int) - 1) n) > 0 then c
  else if rdI cf i (permute ((j : Int) + 1) n) > 0 ∨ rdI cf i (permute ((j : Int) - 1) n) > 0
    then b
  else a

/-- The factor that `energies_.c` multiplies `Gbind` (or `Hnone`) with for a site
whose neighbours hold `r` and `l`: `c` when both are occupied, otherwise the product
of `b` for an occupied and `a` for an empty neighbour. -/
def pairFactor {α : Type} [Field α] (a b c : α) (r l : Int) : α :=
  if r > 0 ∧ l > 0 then c
  else (if r > 0 then b else a) * (if l > 0 then b else a)

/-- What one pass of the outer loop of `energies_.c` adds up for configuration `i`,
`g r l` being the term of an occupied site whose neighbour tests came out as `r` and
`l`: the interior sites `1 .. size - 2`, then, when `cyclic > 0`, site `0` and site
`size - 1`. -/
def combinedTotal {α : Type} [Field α] (g : Bool → Bool → α) (cf : List (List Int))
    (n : Nat) (c : Int) (i : Nat) : α :=
  (∑ k in Finset.range (n - 1 - 1),
    if rd2 cf i (1 + k) > 0 then
      g (decide (rd2 cf i (1 + k + 1) > 0)) (decide (rd2 cf i (1 + k - 1) > 0))
    else 0)
  + (if c > 0 then
      (if rd2 cf i 0 > 0 then
        g (decide (rd2 cf i 1 > 0)) (decide (rdI cf i ((n : Int) - 1) > 0))
      else 0)
      + (if rdI cf i ((n : Int) - 1) > 0 then
        g (decide (rd2 cf i 0 ≠ 0)) (decide (rdI cf i ((n : Int) - 2) > 0))
      else 0)
    else 0)

/-- The workspace `w` after its caller has stored an energy array and the
conditions of a titration point in it. -/
def conditions {α : Type} (w : mWorkspace α) (E : List α) (T Ptot Ltot Lfree : α) :
    mWorkspace α :=
  { w with energies := E, temp := T, Ptot := Ptot, Ltot := Ltot, Lfree := Lfree }

/-! ## Doubles with infinities and NaN -/

/-- A `double` with its special values: a finite value, an infinity with its sign
(`neg` for the negative one) or NaN.  Rounding, signed zeros and underflow are left
out. -/
inductive Dbl (α : Type) where
  | fin (x : α)
  | inf (neg : Bool)
  | nan

instance {α : Type} [Zero α] : Zero (Dbl α) := ⟨Dbl.fin 0⟩

namespace Dbl

variable {α : Type} [LinearOrderedField α]

/-- The result of an operation whose exact value is `x`: an infinity of the sign of
`x` when `x` lies beyond the largest finite double `big` (overflow), `x` otherwise. -/
def ofExact (big x : α) : Dbl α :=
  if big < |x| then inf (decide (x < 0)) else fin x

/-- The sum of two doubles. -/
def add (big : α) : Dbl α → Dbl α → Dbl α
  | fin x, fin y => ofExact big (x + y)
  | fin _, inf t => inf t
  | inf s, fin _ => inf s
  | inf s, inf t => if s = t then inf s else nan
  | _, _ => nan

/-- The product of two doubles; an infinity times zero is NaN. -/
def mul (big : α) : Dbl α → Dbl α → Dbl α
  | fin x, fin y => ofExact big (x * y)
  | fin x, inf t => if x = 0 then nan else inf (xor (decide (x < 0)) t)
  | inf s, fin y => if y = 0 then nan else inf (xor s (decide (y < 0)))
  | inf s, inf t => inf (xor s t)
  | _, _ => nan

/-- The quotient of two doubles; a nonzero value over zero is an infinity, zero
over zero is NaN. -/
def div (big : α) : Dbl α → Dbl α → Dbl α
  | fin x, fin y =>
    if y = 0 then (if x = 0 then nan else inf (decide (x < 0))) else ofExact big (x / y)
  | fin _, inf _ => fin 0
  | inf s, fin y => inf (xor s (decide (y < 0)))
  | _, _ => nan

/-- The library function `exp` on doubles, from the exponential `expf` of `α`. -/
def exp (big : α) (expf : α → α) : Dbl α → Dbl α
  | fin x => ofExact big (expf x)
  | inf true => fin 0
  | inf false => inf false
  | nan => nan

end Dbl

/-- A root solver that never converges: its interval test always answers
`GSL_CONTINUE`.  Its state counts the calls of `iterate`. -/
def stallSolver (α : Type) [Zero α] [One α] : RootSolver Nat α :=
  { set := fun s _ _ _ => (0, s, []),
    iterate := fun s _ => (0, s + 1, []),
    root := fun _ => 0,
    x_lower := fun _ => 0,
    x_upper := fun _ => 1,
    test_interval := fun _ _ _ _ => GSL_CONTINUE }

/-- A root solver whose `set` and `iterate` report the error `GSL_EINVAL`.  Its
state is the bracket, which `set` stores before it evaluates the objective at both
ends and fails; the interval test is the one of the GSL. -/
def faultySolver (α : Type) [LinearOrderedField α] : RootSolver (α × α) α :=
  { set := fun _ _ lo hi => (GSL_EINVAL, (lo, hi), [lo, hi]),
    iterate := fun s _ => (GSL_EINVAL, s, []),
    root := fun s => s.2,
    x_lower := fun s => s.1,
    x_upper := fun s => s.2,
    test_interval := gsl_root_test_interval }

/-- A bracketing root solver with the interval test of the GSL.  Its state is the
bracket and the value of the objective at its upper end.  `set` evaluates the
objective at both ends of the bracket, as `brent_init` of the GSL does, and reports
`GSL_EINVAL` when the two values have the same strict sign; `iterate` collapses the
bracket onto its upper end when the objective vanished there, as `brent_iterate`
does, and leaves the bracket as it is otherwise. -/
def bracketSolver (α : Type) [LinearOrderedField α] : RootSolver (α × α × α) α :=
  { set := fun _ f lo hi =>
      (if (f lo < 0 ∧ f hi < 0) ∨ (f lo > 0 ∧ f hi > 0) then GSL_EINVAL else GSL_SUCCESS,
        (lo, hi, f hi), [lo, hi]),
    iterate := fun s _ =>
      if s.2.2 = 0 then (GSL_SUCCESS, (s.2.1, s.2.1, s.2.2), []) else (GSL_SUCCESS, s, []),
    root := fun s => s.2.1,
    x_lower := fun s => s.1,
    x_upper := fun s => s.2.1,
    test_interval := gsl_root_test_interval }

/-- An allocator that never fails and hands out zeroed blocks. -/
def sampleHeap (α : Type) [Zero α] : Heap α :=
  { ok := fun _ => true, dbls := fun _ _ => 0, ints := fun _ _ => 0 }

/-- An allocator whose call number `k` fails, and only that one. -/
def heapFailingAt (α : Type) [Zero α] (k : Nat) : Heap α :=
  { ok := fun i => i != k, dbls := fun _ _ => 0, ints := fun _ _ => 0 }

/-- A division that marks a zero divisor: it yields `777` for it. -/
def markedDiv {α : Type} [Field α] [DecidableEq α] (a b : α) : α :=
  if b = 0 then 777 else a / b

/-- A workspace of `size` sites before `setupModelWorkspace`: no array yet. -/
def sampleWorkspace (α : Type) [Zero α] (size : Nat) : mWorkspace α :=
  { size := size, temp := 0, Ptot := 0, Ltot := 0, Pfree := 0, Lfree := 0, cyclic := 0,
    configs := [], bound := [], energies := [], probs := [] }

/-- The scenario of one site: the lattice built by `setupModelWorkspace` with
`cyclic = 0`, the enthalpy array of `setupSimWorkspace`, both filled by the simple
model with `Gbind = -5000` and `Hbind = -8000`, then `T = 298.15`, `Ptot = 1e-6` and
`Ltot = 5e-6` stored by the caller. -/
def oneSiteScenario (α : Type) [Field α] : mWorkspace α × sWorkspace α :=
  let w := (setupModelWorkspace (sampleHeap α) (sampleWorkspace α 1)).2
  let sim := (setupSimWorkspace (sampleHeap α) 6 w).2
  let r := Simple.assignEnergies w sim (-5000) (-8000)
  (conditions r.1 r.1.energies (29815 / 100) (1 / 1000000) (5 / 1000000) 0, r.2)

/-! ## Arrays and loops: basic facts -/

section Basics

variable {β : Type} [Zero β]

theorem rd_set_self (xs : List β) (i : Nat) (v : β) (h : i < xs.length) :
    rd (xs.set i v) i = v := by
  simp [rd, List.getElem?_set, h]

theorem rd_set_ne (xs : List β) (i j : Nat) (v : β) (h : i ≠ j) :
    rd (xs.set i v) j = rd xs j := by
  simp [rd, List.getElem?_set, h]

theorem rd_map_range (f : Nat → β) (n i : Nat) (h : i < n) :
    rd ((List.range n).map f) i = f i := by
  simp [rd, h]

theorem rd_eq_getElem (xs : List β) (i : Nat) (h : i < xs.length) : rd xs i = xs[i] := by
  simp [rd, h]

theorem forLoop_succ {σ : Type} (n : Nat) (body : Nat → σ → σ) (s : σ) :
    forLoop (n + 1) body s = body n (forLoop n body s) := rfl

theorem forDown_succ {σ : Type} (n : Nat) (body : Nat → σ → σ) (s : σ) :
    forDown (n + 1) body s = forDown n body (body n s) := rfl

/-- A property that holds on entry and is carried by every iteration holds on exit. -/
theorem forLoop_invariant {σ : Type} (P : Nat → σ → Prop) (n : Nat) (body : Nat → σ → σ)
    (s : σ) (h0 : P 0 s) (hstep : ∀ k, k < n → ∀ t, P k t → P (k + 1) (body k t)) :
    P n (forLoop n body s) := by
  induction n with
  | zero => exact h0
  | succ m ih =>
    rw [forLoop_succ]
    exact hstep m (Nat.lt_succ_self m) _
      (ih (fun k hk t ht => hstep k (Nat.lt_succ_of_lt hk) t ht))

theorem rd2_wr2_self (cf : List (List Int)) (i j : Nat) (v : Int) (hi : i < cf.length)
    (hj : j < (cf.getD i []).length) : rd2 (wr2 cf i j v) i j = v := by
  simp [rd2, wr2, List.getElem?_set, hi] at hj ⊢
  simp [hj]

theorem rd2_wr2_ne (cf : List (List Int)) (i j k : Nat) (v : Int) (h : j ≠ k) :
    rd2 (wr2 cf i j v) i k = rd2 cf i k := by
  by_cases hi : i < cf.length
  · simp [rd2, wr2, List.getElem?_set, hi, h]
  · have hn : cf[i]? = none := List.getElem?_eq_none (Nat.le_of_not_lt hi)
    simp [rd2, wr2, List.getElem?_set, hi, hn]

theorem getD_wr2_ne (cf : List (List Int)) (i j k : Nat) (v : Int) (h : i ≠ k) :
    (wr2 cf i j v).getD k [] = cf.getD k [] := by
  simp [wr2, List.getElem?_set, h]

theorem length_wr2 (cf : List (List Int)) (i j : Nat) (v : Int) :
    (wr2 cf i j v).length = cf.length := by
  simp [wr2]

theorem length_getD_wr2 (cf : List (List Int)) (i j k : Nat) (v : Int) :
    ((wr2 cf i j v).getD k []).length = (cf.getD k []).length := by
  by_cases hk : i = k
  · subst hk
    by_cases hi : i < cf.length
    · simp [wr2, List.getElem?_set, hi]
    · have hn : cf[i]? = none := List.getElem?_eq_none (Nat.le_of_not_lt hi)
      simp [wr2, List.getElem?_set, hi, hn]
  · rw [getD_wr2_ne cf i j k v hk]

/-- The bit loop of `setupModelWorkspace` (lines 47-51) run for the sites
`n - 1, ..., 0` of row `i`, starting with the counter `c0`. -/
theorem bitLoop_spec (i : Nat) : ∀ (n : Nat) (cf0 : List (List Int)) (c0 : Nat),
    ((forDown n (fun j (s : List (List Int) × Nat) =>
        (wr2 s.1 i j ((s.2 % 2 : Nat) : Int), s.2 / 2)) (cf0, c0)).1.length = cf0.length) ∧
    (∀ k, ((forDown n (fun j (s : List (List Int) × Nat) =>
        (wr2 s.1 i j ((s.2 % 2 : Nat) : Int), s.2 / 2)) (cf0, c0)).1.getD k []).length
          = (cf0.getD k []).length) ∧
    (∀ k, k ≠ i → (forDown n (fun j (s : List (List Int) × Nat) =>
        (wr2 s.1 i j ((s.2 % 2 : Nat) : Int), s.2 / 2)) (cf0, c0)).1.getD k []
          = cf0.getD k []) ∧
    (∀ j, n ≤ j → rd2 (forDown n (fun j (s : List (List Int) × Nat) =>
        (wr2 s.1 i j ((s.2 % 2 : Nat) : Int), s.2 / 2)) (cf0, c0)).1 i j = rd2 cf0 i j) ∧
    (i < cf0.length → ∀ j, j < n → j < (cf0.getD i []).length →
      rd2 (forDown n (fun j (s : List (List Int) × Nat) =>
        (wr2 s.1 i j ((s.2 % 2 : Nat) : Int), s.2 / 2)) (cf0, c0)).1 i j
          = ((c0 / 2 ^ (n - 1 - j) % 2 : Nat) : Int)) := by
  intro n
  induction n with
  | zero =>
    intro cf0 c0
    refine ⟨rfl, fun _ => rfl, fun _ _ => rfl, fun _ _ => rfl, ?_⟩
    intro _ j hj
    exact absurd hj (Nat.not_lt_zero j)
  | succ m ih =>
    intro cf0 c0
    rw [forDown_succ]
    obtain ⟨h1, h2, h3, h4, h5⟩ := ih (wr2 cf0 i m ((c0 % 2 : Nat) : Int)) (c0 / 2)
    refine ⟨?_, ?_, ?_, ?_, ?_⟩
    · rw [h1, length_wr2]
    · intro k
      rw [h2 k, length_getD_wr2]
    · intro k hk
      rw [h3 k hk, getD_wr2_ne cf0 i m k _ (Ne.symm hk)]
    · intro j hj
      rw [h4 j (Nat.le_of_succ_le hj), rd2_wr2_ne cf0 i m j _ (by omega)]
    · intro hi j hj hjr
      by_cases hjm : j = m
      · subst hjm
        rw [h4 j (Nat.le_refl j), rd2_wr2_self cf0 i j _ hi hjr]
        simp
      · have hlt : j < m := by omega
        rw [h5 (by rw [length_wr2]; exact hi) j hlt (by rw [length_getD_wr2]; exact hjr)]
        have e : m + 1 - 1 - j = (m - 1 - j) + 1 := by omega
        rw [e, pow_succ, Nat.mul_comm, Nat.div_div_eq_div_mul]

/-- The counting loop of `setupModelWorkspace` (lines 54-56) for row `i`. -/
theorem countLoop_spec (cf : List (List Int)) (i : Nat) : ∀ (n : Nat) (bd0 : List Int),
    (forLoop n (fun j bd => if rd2 cf i j > 0 then bd.set i (rd bd i + 1) else bd) bd0).length
      = bd0.length ∧
    (∀ k, k ≠ i →
      rd (forLoop n (fun j bd => if rd2 cf i j > 0 then bd.set i (rd bd i + 1) else bd) bd0) k
        = rd bd0 k) ∧
    (i < bd0.length →
      rd (forLoop n (fun j bd => if rd2 cf i j > 0 then bd.set i (rd bd i + 1) else bd) bd0) i
        = rd bd0 i + ∑ j in Finset.range n, (if rd2 cf i j > 0 then (1 : Int) else 0)) := by
  intro n
  induction n with
  | zero =>
    intro bd0
    exact ⟨rfl, fun _ _ => rfl, fun _ => by simp [forLoop]⟩
  | succ m ih =>
    intro bd0
    obtain ⟨h1, h2, h3⟩ := ih bd0
    rw [forLoop_succ, Finset.sum_range_succ]
    by_cases hpos : rd2 cf i m > 0
    · simp only [hpos, if_true]
      refine ⟨?_, ?_, ?_⟩
      · rw [List.length_set, h1]
      · intro k hk
        rw [rd_set_ne _ _ _ _ (Ne.symm hk), h2 k hk]
      · intro hi
        rw [rd_set_self _ _ _ (by rw [h1]; exact hi), h3 hi]
        ring
    · simp only [hpos, if_false]
      refine ⟨h1, h2, ?_⟩
      intro hi
      rw [h3 hi]
      ring

end Basics

/-! ## The configuration lattice -/

section Lattice

variable {α : Type} [Zero α]

/-- What `m` passes of the loop at lines 41-57 leave behind, when the arrays have
been allocated with `2 ^ size` entries and every row with `size` entries. -/
theorem fillLoop_prefix (w : mWorkspace α) (hc : w.configs.length = 2 ^ w.size)
    (hrow : ∀ k, k < 2 ^ w.size → (w.configs.getD k []).length = w.size)
    (hb : w.bound.length = 2 ^ w.size) (he : w.energies.length = 2 ^ w.size)
    (m : Nat) (hm : m ≤ 2 ^ w.size) :
    (forLoop m fillConfig w).size = w.size ∧
    (forLoop m fillConfig w).temp = w.temp ∧
    (forLoop m fillConfig w).Ptot = w.Ptot ∧
    (forLoop m fillConfig w).Ltot = w.Ltot ∧
    (forLoop m fillConfig w).Pfree = w.Pfree ∧
    (forLoop m fillConfig w).Lfree = w.Lfree ∧
    (forLoop m fillConfig w).cyclic = w.cyclic ∧
    (forLoop m fillConfig w).probs = w.probs ∧
    (forLoop m fillConfig w).configs.length = 2 ^ w.size ∧
    (∀ k, ((forLoop m fillConfig w).configs.getD k []).length = (w.configs.getD k []).length) ∧
    (forLoop m fillConfig w).bound.length = 2 ^ w.size ∧
    (forLoop m fillConfig w).energies.length = 2 ^ w.size ∧
    (∀ i, i < m →
      (∀ j, j < w.size → rd2 (forLoop m fillConfig w).configs i j
        = ((i / 2 ^ (w.size - 1 - j) % 2 : Nat) : Int)) ∧
      rd (forLoop m fillConfig w).bound i
        = ∑ j in Finset.range w.size,
            (if rd2 (forLoop m fillConfig w).configs i j > 0 then (1 : Int) else 0) ∧
      rd (forLoop m fillConfig w).energies i = 0) := by
  induction m with
  | zero =>
    refine ⟨rfl, rfl, rfl, rfl, rfl, rfl, rfl, rfl, hc, fun _ => rfl, hb, he, ?_⟩
    intro i hi
    exact absurd hi (Nat.not_lt_zero i)
  | succ m ih =>
    obtain ⟨a1, a2, a3, a4, a5, a6, a7, a8, a9, a10, a11, a12, a13⟩ := ih (Nat.le_of_succ_le hm)
    have hmlt : m < 2 ^ w.size := hm
    rw [forLoop_succ]
    generalize forLoop m fillConfig w = t at a1 a2 a3 a4 a5 a6 a7 a8 a9 a10 a11 a12 a13
    obtain ⟨b1, b2, b3, b4, b5⟩ := bitLoop_spec m t.size t.configs m
    obtain ⟨c1, c2, c3⟩ := countLoop_spec
      (forDown t.size (fun j (s : List (List Int) × Nat) =>
        (wr2 s.1 m j ((s.2 % 2 : Nat) : Int), s.2 / 2)) (t.configs, m)).1 m t.size
      (t.bound.set m 0)
    have hcf : (fillConfig m t).configs = (forDown t.size (fun j (s : List (List Int) × Nat) =>
        (wr2 s.1 m j ((s.2 % 2 : Nat) : Int), s.2 / 2)) (t.configs, m)).1 := rfl
    have hbd : (fillConfig m t).bound = forLoop t.size (fun j bd =>
        if rd2 (fillConfig m t).configs m j > 0 then bd.set m (rd bd m + 1) else bd)
        (t.bound.set m 0) := rfl
    have hen : (fillConfig m t).energies = t.energies.set m 0 := rfl
    rw [← hcf] at b1 b2 b3 b4 b5 c1 c2 c3
    rw [← hbd] at c1 c2 c3
    refine ⟨a1, a2, a3, a4, a5, a6, a7, a8, ?_, ?_, ?_, ?_, ?_⟩
    · rw [b1, a9]
    · intro k
      rw [b2 k, a10 k]
    · rw [c1, List.length_set, a11]
    · rw [hen, List.length_set, a12]
    · intro i hi
      by_cases him : i = m
      · subst him
        refine ⟨?_, ?_, ?_⟩
        · intro j hj
          rw [b5 (by rw [a9]; exact hmlt) j (by rw [a1]; exact hj)
            (by rw [a10 i, hrow i hmlt]; exact hj), a1]
        · rw [c3 (by rw [List.length_set, a11]; exact hmlt),
            rd_set_self _ _ _ (by rw [a11]; exact hmlt), a1]
          simp
        · rw [hen, rd_set_self _ _ _ (by rw [a12]; exact hmlt)]
      · have hlt : i < m := by omega
        obtain ⟨d1, d2, d3⟩ := a13 i hlt
        have hrows : (fillConfig m t).configs.getD i [] = t.configs.getD i [] := b3 i him
        have hrd2 : ∀ j, rd2 (fillConfig m t).configs i j = rd2 t.configs i j := by
          intro j
          simp only [rd2]
          rw [hrows]
        refine ⟨?_, ?_, ?_⟩
        · intro j hj
          rw [hrd2 j, d1 j hj]
        · rw [c2 i him, rd_set_ne _ _ _ _ (Ne.symm him), d2]
          exact Finset.sum_congr rfl (fun j _ => by rw [hrd2 j])
        · rw [hen, rd_set_ne _ _ _ _ (Ne.symm him), d3]

theorem length_malloc {β : Type} (ok : Bool) (n : Nat) (junk : Nat → β) (l : List β)
    (h : malloc ok n junk = some l) : ok = true ∧ l.length = n := by
  unfold malloc at h
  by_cases hok : ok = true
  · simp [hok] at h
    subst h
    exact ⟨hok, by simp⟩
  · simp [hok] at h

/-- When the row allocation loop runs to its end, every row it visited has `size`
entries and every call of `malloc` it made returned a block. -/
theorem allocRows_ok {γ : Type} (h : Heap γ) (size : Nat) : ∀ (n : Nat) (cf c1 : List (List Int)),
    allocRows h size n cf = Except.ok c1 →
    c1.length = cf.length ∧ (∀ i, i < n → h.ok (4 + i) = true) ∧
    (∀ i, i < n → i < cf.length → (c1.getD i []).length = size) := by
  intro n
  induction n with
  | zero =>
    intro cf c1 hc
    simp only [allocRows, forLoopRet] at hc
    injection hc with hc
    subst hc
    exact ⟨rfl, fun i hi => absurd hi (Nat.not_lt_zero i),
      fun i hi => absurd hi (Nat.not_lt_zero i)⟩
  | succ m ih =>
    intro cf c1 hc
    simp only [allocRows, forLoopRet] at hc
    cases hprev : forLoopRet m (fun i cf =>
        match malloc (h.ok (4 + i)) size (h.ints (4 + i)) with
        | none => Except.error (cf.set i [])
        | some row => Except.ok (cf.set i row)) cf with
    | error r => rw [hprev] at hc; simp at hc
    | ok c0 =>
      rw [hprev] at hc
      simp only at hc
      obtain ⟨i1, i2, i3⟩ := ih cf c0 hprev
      cases hm : malloc (h.ok (4 + m)) size (h.ints (4 + m)) with
      | none => rw [hm] at hc; simp at hc
      | some row =>
        rw [hm] at hc
        simp only at hc
        injection hc with hc
        subst hc
        obtain ⟨hok, hlen⟩ := length_malloc _ _ _ _ hm
        refine ⟨by rw [List.length_set, i1], ?_, ?_⟩
        · intro i hi
          by_cases him : i = m
          · rw [him]; exact hok
          · exact i2 i (by omega)
        · intro i hi hic
          by_cases him : i = m
          · subst him
            simp [List.getElem?_set, i1, hic, hlen]
          · have : (c0.set m row).getD i [] = c0.getD i [] := by
              simp [List.getElem?_set, Ne.symm him]
            rw [this]
            exact i3 i (by omega) hic

/-- When `setupModelWorkspace` returns `0`, its result is the fill loop run on a
workspace whose arrays have `2 ^ size` entries and whose rows have `size` entries. -/
theorem setupModelWorkspace_success (h : Heap α) (w : mWorkspace α)
    (hs : (setupModelWorkspace h w).1 = 0) :
    ∃ w1 : mWorkspace α, (setupModelWorkspace h w).2 = forLoop (2 ^ w.size) fillConfig w1 ∧
      w1.size = w.size ∧ w1.temp = w.temp ∧ w1.Ptot = w.Ptot ∧ w1.Ltot = w.Ltot ∧
      w1.Pfree = w.Pfree ∧ w1.Lfree = w.Lfree ∧ w1.cyclic = w.cyclic ∧
      w1.configs.length = 2 ^ w.size ∧
      (∀ k, k < 2 ^ w.size → (w1.configs.getD k []).length = w.size) ∧
      w1.bound.length = 2 ^ w.size ∧ w1.energies.length = 2 ^ w.size ∧
      w1.probs.length = 2 ^ w.size ∧
      (∀ k, k < 4 + 2 ^ w.size → h.ok k = true) := by
  unfold setupModelWorkspace at hs ⊢
  cases h0 : malloc (h.ok 0) (2 ^ w.size) (h.dbls 0) with
  | none => rw [h0] at hs; simp at hs
  | some e =>
    cases h1 : malloc (h.ok 1) (2 ^ w.size) (h.dbls 1) with
    | none => rw [h0] at hs; simp only [h1] at hs; simp at hs
    | some p =>
      cases h2 : malloc (h.ok 2) (2 ^ w.size) (h.ints 2) with
      | none => rw [h0] at hs; simp only [h1, h2] at hs; simp at hs
      | some b =>
        cases h3 : malloc (h.ok 3) (2 ^ w.size) (fun _ => ([] : List Int)) with
        | none => rw [h0] at hs; simp only [h1, h2, h3] at hs; simp at hs
        | some c =>
          cases h4 : allocRows h w.size (2 ^ w.size) c with
          | error c1 => rw [h0] at hs; simp only [h1, h2, h3, h4] at hs; simp at hs
          | ok c1 =>
            simp only [h0, h1, h2, h3, h4]
            obtain ⟨k0, l0⟩ := length_malloc _ _ _ _ h0
            obtain ⟨k1, l1⟩ := length_malloc _ _ _ _ h1
            obtain ⟨k2, l2⟩ := length_malloc _ _ _ _ h2
            obtain ⟨k3, l3⟩ := length_malloc _ _ _ _ h3
            obtain ⟨r1, r2, r3⟩ := allocRows_ok h w.size _ _ _ h4
            refine ⟨_, rfl, rfl, rfl, rfl, rfl, rfl, rfl, rfl, ?_, ?_, l2, l0, l1, ?_⟩
            · show c1.length = 2 ^ w.size
              rw [r1, l3]
            · intro k hk
              exact r3 k hk (by rw [l3]; exact hk)
            · intro k hk
              by_cases hk4 : k < 4
              · interval_cases k
                · exact k0
                · exact k1
                · exact k2
                · exact k3
              · have := r2 (k - 4) (by omega)
                rwa [show 4 + (k - 4) = k by omega] at this

/-- The state of the workspace after a successful `setupModelWorkspace`. -/
theorem setupModelWorkspace_spec (h : Heap α) (w : mWorkspace α)
    (hs : (setupModelWorkspace h w).1 = 0) :
    (setupModelWorkspace h w).2.size = w.size ∧
    (setupModelWorkspace h w).2.temp = w.temp ∧
    (setupModelWorkspace h w).2.Ptot = w.Ptot ∧
    (setupModelWorkspace h w).2.Ltot = w.Ltot ∧
    (setupModelWorkspace h w).2.Pfree = w.Pfree ∧
    (setupModelWorkspace h w).2.Lfree = w.Lfree ∧
    (setupModelWorkspace h w).2.cyclic = w.cyclic ∧
    (setupModelWorkspace h w).2.probs.length = 2 ^ w.size ∧
    (setupModelWorkspace h w).2.configs.length = 2 ^ w.size ∧
    (∀ k, k < 2 ^ w.size → ((setupModelWorkspace h w).2.configs.getD k []).length = w.size) ∧
    (setupModelWorkspace h w).2.bound.length = 2 ^ w.size ∧
    (setupModelWorkspace h w).2.energies.length = 2 ^ w.size ∧
    (∀ i, i < 2 ^ w.size →
      (∀ j, j < w.size → rd2 (setupModelWorkspace h w).2.configs i j
        = ((i / 2 ^ (w.size - 1 - j) % 2 : Nat) : Int)) ∧
      rd (setupModelWorkspace h w).2.bound i
        = ∑ j in Finset.range w.size,
            (if rd2 (setupModelWorkspace h w).2.configs i j > 0 then (1 : Int) else 0) ∧
      rd (setupModelWorkspace h w).2.energies i = 0) := by
  obtain ⟨w1, e, s1, s2, s3, s4, s5, s6, s7, s8, s9, s10, s11, s12, _⟩ :=
    setupModelWorkspace_success h w hs
  rw [e]
  have key := fillLoop_prefix w1 (by rw [s8, s1]) (by rw [s1]; exact s9) (by rw [s10, s1])
    (by rw [s11, s1]) (2 ^ w.size) (by rw [s1])
  rw [s1] at key
  obtain ⟨a1, a2, a3, a4, a5, a6, a7, a8, a9, a10, a11, a12, a13⟩ := key
  refine ⟨a1, a2.trans s2, a3.trans s3, a4.trans s4, a5.trans s5, a6.trans s6,
    a7.trans s7, by rw [a8, s12], a9, ?_, a11, a12, a13⟩
  intro k hk
  rw [a10 k, s9 k hk]

theorem allocRows_total {γ : Type} (h : Heap γ) (size : Nat) : ∀ (n : Nat)
    (cf : List (List Int)), (∀ i, i < n → h.ok (4 + i) = true) →
    ∃ c1, allocRows h size n cf = Except.ok c1 := by
  intro n
  induction n with
  | zero => intro cf _; exact ⟨cf, rfl⟩
  | succ m ih =>
    intro cf hok
    obtain ⟨c0, hc0⟩ := ih cf (fun i hi => hok i (Nat.lt_succ_of_lt hi))
    unfold allocRows at hc0 ⊢
    rw [forLoopRet, hc0]
    simp only [malloc, hok m (Nat.lt_succ_self m), if_true]
    exact ⟨_, rfl⟩

/-- The function `setupModelWorkspace` returns `0` when none of its calls of
`malloc` fails. -/
theorem setupModelWorkspace_total (h : Heap α) (w : mWorkspace α)
    (hok : ∀ k, k < 4 + 2 ^ w.size → h.ok k = true) : (setupModelWorkspace h w).1 = 0 := by
  obtain ⟨c1, hc1⟩ := allocRows_total h w.size (2 ^ w.size)
    ((List.range (2 ^ w.size)).map (fun _ => ([] : List Int)))
    (fun i hi => hok (4 + i) (by omega))
  have p : 0 < 2 ^ w.size := Nat.two_pow_pos w.size
  simp only [setupModelWorkspace, malloc, hok 0 (by omega), hok 1 (by omega),
    hok 2 (by omega), hok 3 (by omega), if_true, hc1]

theorem row_eq_of_rd2 (cf : List (List Int)) (i n : Nat) (g : Nat → Int)
    (hlen : (cf.getD i []).length = n) (hg : ∀ j, j < n → rd2 cf i j = g j) :
    cf.getD i [] = (List.range n).map g := by
  apply List.ext_getElem
  · rw [hlen, List.length_map, List.length_range]
  · intro j h1 h2
    have hj : j < n := by rw [← hlen]; exact h1
    have := hg j hj
    simp only [rd2] at this
    rw [List.getD_eq_getElem _ _ h1] at this
    rw [this]
    simp

/-- C1. After a successful `setupModelWorkspace`, entry `j` of configuration `i`
is bit `size - 1 - j` of `i`: row `i` is the big-endian `size`-bit binary
expansion of `i`, site `0` being the most significant bit. -/
theorem setupModelWorkspace_configs_big_endian (h : Heap α) (w : mWorkspace α)
    (hs : (setupModelWorkspace h w).1 = 0) (i j : Nat) (hi : i < 2 ^ w.size)
    (hj : j < w.size) :
    rd2 (setupModelWorkspace h w).2.configs i j = ((i / 2 ^ (w.size - 1 - j) % 2 : Nat) : Int) ∧
    (rd2 (setupModelWorkspace h w).2.configs i j = 1 ↔ i.testBit (w.size - 1 - j) = true) ∧
    (setupModelWorkspace h w).2.configs.getD i []
      = (List.range w.size).map (fun k => ((i / 2 ^ (w.size - 1 - k) % 2 : Nat) : Int)) := by
  obtain ⟨_, _, _, _, _, _, _, _, _, a10, _, _, a13⟩ := setupModelWorkspace_spec h w hs
  obtain ⟨b1, _, _⟩ := a13 i hi
  refine ⟨b1 j hj, ?_, row_eq_of_rd2 _ i w.size _ (a10 i hi) b1⟩
  rw [b1 j hj, Nat.testBit_to_div_mod]
  simp
  norm_cast

/-- A witness of C1: a lattice of two sites, configuration `2`, site `0`. -/
theorem setupModelWorkspace_configs_big_endian_witness :
    (setupModelWorkspace (sampleHeap Int) (sampleWorkspace Int 2)).1 = 0 ∧
    2 < 2 ^ (sampleWorkspace Int 2).size ∧ 0 < (sampleWorkspace Int 2).size ∧
    rd2 (setupModelWorkspace (sampleHeap Int) (sampleWorkspace Int 2)).2.configs 2 0 = 1 :=
  ⟨by decide, by decide, by decide,
    (setupModelWorkspace_configs_big_endian (sampleHeap Int) (sampleWorkspace Int 2)
      (by decide) 2 0 (by decide) (by decide)).1⟩

theorem count_one_map_range (g : Nat → Int) (n : Nat) :
    (((List.range n).map g).count 1 : Int)
      = ∑ j in Finset.range n, (if g j = 1 then (1 : Int) else 0) := by
  induction n with
  | zero => simp
  | succ m ih =>
    rw [List.range_succ, List.map_append, List.count_append, Finset.sum_range_succ]
    push_cast
    rw [ih]
    by_cases hg : g m = 1
    · simp [hg]
    · simp [hg, List.count_cons, Ne.symm hg]

/-- The number of set bits among the `n` low bits of `i`, as a sum over the sites
of the big-endian row. -/
theorem sum_bits_eq_card (i n : Nat) :
    ∑ j in Finset.range n, (if ((i / 2 ^ (n - 1 - j) % 2 : Nat) : Int) > 0 then (1 : Int) else 0)
      = ((Finset.filter (fun k => i.testBit k = true) (Finset.range n)).card : Int) := by
  rw [Finset.sum_range_reflect
    (fun k => if ((i / 2 ^ k % 2 : Nat) : Int) > 0 then (1 : Int) else 0) n,
    Finset.card_filter, Nat.cast_sum]
  apply Finset.sum_congr rfl
  intro k _
  rw [Nat.testBit_to_div_mod]
  rcases Nat.mod_two_eq_zero_or_one (i / 2 ^ k) with h0 | h1
  · rw [h0]; simp
  · rw [h1]; simp

theorem eq_of_bits_eq (n i k : Nat) (hi : i < 2 ^ n) (hk : k < 2 ^ n)
    (hb : ∀ j, j < n → i / 2 ^ (n - 1 - j) % 2 = k / 2 ^ (n - 1 - j) % 2) : i = k := by
  apply Nat.eq_of_testBit_eq
  intro b
  by_cases hbn : b < n
  · have := hb (n - 1 - b) (by omega)
    rw [show n - 1 - (n - 1 - b) = b by omega] at this
    rw [Nat.testBit_to_div_mod, Nat.testBit_to_div_mod, this]
  · have hle : 2 ^ n ≤ 2 ^ b := Nat.pow_le_pow_right (by decide) (Nat.le_of_not_lt hbn)
    rw [Nat.testBit_lt_two_pow (Nat.lt_of_lt_of_le hi hle),
      Nat.testBit_lt_two_pow (Nat.lt_of_lt_of_le hk hle)]

/-- After a successful `setupModelWorkspace`, `bound[i]` is the number of set bits
among the `size` low bits of `i`. -/
theorem setupModelWorkspace_bound_card (h : Heap α) (w : mWorkspace α)
    (hs : (setupModelWorkspace h w).1 = 0) (i : Nat) (hi : i < 2 ^ w.size) :
    rd (setupModelWorkspace h w).2.bound i
      = ((Finset.filter (fun k => i.testBit k = true) (Finset.range w.size)).card : Int) := by
  obtain ⟨_, _, _, _, _, _, _, _, _, _, _, _, a13⟩ := setupModelWorkspace_spec h w hs
  rw [(a13 i hi).2.1, ← sum_bits_eq_card i w.size]
  exact Finset.sum_congr rfl (fun j hj => by rw [(a13 i hi).1 j (Finset.mem_range.mp hj)])

/-- C2. A successful `setupModelWorkspace` on `N = size` sites produces exactly
`2 ^ N` configurations, each a row of `N` entries `0` or `1`; the rows are pairwise
distinct; and `bound[i]` is the number of entries `1` of row `i`, which is the
number of 1-bits of `i`, and lies between `0` and `N`. -/
theorem setupModelWorkspace_enumeration (h : Heap α) (w : mWorkspace α)
    (hs : (setupModelWorkspace h w).1 = 0) :
    (setupModelWorkspace h w).2.configs.length = 2 ^ w.size ∧
    (∀ r, r ∈ (setupModelWorkspace h w).2.configs →
      r.length = w.size ∧ ∀ x, x ∈ r → x = 0 ∨ x = 1) ∧
    (setupModelWorkspace h w).2.configs.Nodup ∧
    (∀ i k, i < 2 ^ w.size → k < 2 ^ w.size →
      (setupModelWorkspace h w).2.configs.getD i [] = (setupModelWorkspace h w).2.configs.getD k [] →
      i = k) ∧
    (setupModelWorkspace h w).2.bound.length = 2 ^ w.size ∧
    (∀ i, i < 2 ^ w.size →
      rd (setupModelWorkspace h w).2.bound i
        = (((setupModelWorkspace h w).2.configs.getD i []).count 1 : Int) ∧
      rd (setupModelWorkspace h w).2.bound i
        = ((Finset.filter (fun k => i.testBit k = true) (Finset.range w.size)).card : Int) ∧
      0 ≤ rd (setupModelWorkspace h w).2.bound i ∧
      rd (setupModelWorkspace h w).2.bound i ≤ (w.size : Int)) := by
  obtain ⟨_, _, _, _, _, _, _, _, a9, a10, a11, _, a13⟩ := setupModelWorkspace_spec h w hs
  have hrow : ∀ i, i < 2 ^ w.size → (setupModelWorkspace h w).2.configs.getD i []
      = (List.range w.size).map (fun k => ((i / 2 ^ (w.size - 1 - k) % 2 : Nat) : Int)) :=
    fun i hi => row_eq_of_rd2 _ i w.size _ (a10 i hi) (a13 i hi).1
  have hinj : ∀ i k, i < 2 ^ w.size → k < 2 ^ w.size →
      (setupModelWorkspace h w).2.configs.getD i [] = (setupModelWorkspace h w).2.configs.getD k [] →
      i = k := by
    intro i k hi hk he
    apply eq_of_bits_eq w.size i k hi hk
    intro j hj
    have e1 := (a13 i hi).1 j hj
    have e2 := (a13 k hk).1 j hj
    simp only [rd2] at e1 e2
    rw [he, e2] at e1
    exact_mod_cast e1.symm
  have hbound : ∀ i, i < 2 ^ w.size → rd (setupModelWorkspace h w).2.bound i
      = ((Finset.filter (fun k => i.testBit k = true) (Finset.range w.size)).card : Int) :=
    fun i hi => setupModelWorkspace_bound_card h w hs i hi
  refine ⟨a9, ?_, ?_, hinj, a11, ?_⟩
  · intro r hr
    obtain ⟨i, hil, rfl⟩ := List.getElem_of_mem hr
    have hi : i < 2 ^ w.size := by rw [← a9]; exact hil
    have e := hrow i hi
    rw [List.getD_eq_getElem _ _ hil] at e
    rw [e]
    refine ⟨by simp, ?_⟩
    intro x hx
    obtain ⟨k, _, rfl⟩ := List.mem_map.mp hx
    rcases Nat.mod_two_eq_zero_or_one (i / 2 ^ (w.size - 1 - k)) with h0 | h1
    · left; simp [h0]
    · right; simp [h1]
  · rw [List.nodup_iff_injective_get]
    intro a b hab
    apply Fin.ext
    apply hinj a.1 b.1 (by rw [← a9]; exact a.2) (by rw [← a9]; exact b.2)
    rw [List.getD_eq_getElem _ _ a.2, List.getD_eq_getElem _ _ b.2]
    exact hab
  · intro i hi
    refine ⟨?_, hbound i hi, ?_, ?_⟩
    · rw [hrow i hi, count_one_map_range, (a13 i hi).2.1]
      apply Finset.sum_congr rfl
      intro j hj
      rw [(a13 i hi).1 j (Finset.mem_range.mp hj)]
      rcases Nat.mod_two_eq_zero_or_one (i / 2 ^ (w.size - 1 - j)) with h0 | h1
      · simp [h0]
      · simp [h1]
    · rw [hbound i hi]
      exact Int.natCast_nonneg _
    · rw [hbound i hi]
      have := Finset.card_filter_le (Finset.range w.size) (fun k => i.testBit k = true)
      rw [Finset.card_range] at this
      exact_mod_cast this

/-- A witness of C2: a lattice of two sites. -/
theorem setupModelWorkspace_enumeration_witness :
    (setupModelWorkspace (sampleHeap Int) (sampleWorkspace Int 2)).1 = 0 ∧
    (setupModelWorkspace (sampleHeap Int) (sampleWorkspace Int 2)).2.configs.length
      = 2 ^ (sampleWorkspace Int 2).size ∧
    (setupModelWorkspace (sampleHeap Int) (sampleWorkspace Int 2)).2.configs.Nodup :=
  ⟨by decide,
    (setupModelWorkspace_enumeration (sampleHeap Int) (sampleWorkspace Int 2) (by decide)).1,
    (setupModelWorkspace_enumeration (sampleHeap Int) (sampleWorkspace Int 2) (by decide)).2.2.1⟩

end Lattice

/-! ## Boltzmann probabilities -/

section Probabilities

variable {α : Type} [Field α]

/-- The first loop of `setProbabilities`: it stores `v i` at every index below `n`
and accumulates their sum. -/
theorem weightLoop_spec (v : Nat → α) (p0 : List α) : ∀ (n : Nat), n ≤ p0.length →
    (forLoop n (fun i (s : List α × α) => ((s.1.set i (v i)), s.2 + rd (s.1.set i (v i)) i))
      (p0, 0)).1.length = p0.length ∧
    (∀ i, i < n →
      rd (forLoop n (fun i (s : List α × α) => ((s.1.set i (v i)), s.2 + rd (s.1.set i (v i)) i))
        (p0, 0)).1 i = v i) ∧
    (forLoop n (fun i (s : List α × α) => ((s.1.set i (v i)), s.2 + rd (s.1.set i (v i)) i))
      (p0, 0)).2 = ∑ i in Finset.range n, v i := by
  intro n
  induction n with
  | zero =>
    intro _
    exact ⟨rfl, fun i hi => absurd hi (Nat.not_lt_zero i), by simp [forLoop]⟩
  | succ m ih =>
    intro hm
    obtain ⟨h1, h2, h3⟩ := ih (Nat.le_of_succ_le hm)
    rw [forLoop_succ]
    refine ⟨?_, ?_, ?_⟩
    · show (List.set _ m (v m)).length = p0.length
      rw [List.length_set, h1]
    · intro i hi
      show rd (List.set _ m (v m)) i = v i
      by_cases him : i = m
      · subst him
        exact rd_set_self _ _ _ (by rw [h1]; exact hm)
      · rw [rd_set_ne _ _ _ _ (Ne.symm him)]
        exact h2 i (by omega)
    · show _ + rd (List.set _ m (v m)) m = _
      rw [rd_set_self _ _ _ (by rw [h1]; exact hm), h3, Finset.sum_range_succ]

/-- The second loop of `setProbabilities`: it divides every entry below `n` by `sum`. -/
theorem divideLoop_spec (sum : α) (q : List α) : ∀ (n : Nat), n ≤ q.length →
    (forLoop n (fun i (probs : List α) => probs.set i (rd probs i / sum)) q).length = q.length ∧
    (∀ i, i < n →
      rd (forLoop n (fun i (probs : List α) => probs.set i (rd probs i / sum)) q) i
        = rd q i / sum) ∧
    (∀ i, n ≤ i →
      rd (forLoop n (fun i (probs : List α) => probs.set i (rd probs i / sum)) q) i = rd q i) := by
  intro n
  induction n with
  | zero =>
    intro _
    exact ⟨rfl, fun i hi => absurd hi (Nat.not_lt_zero i), fun _ _ => rfl⟩
  | succ m ih =>
    intro hm
    obtain ⟨h1, h2, h3⟩ := ih (Nat.le_of_succ_le hm)
    rw [forLoop_succ]
    refine ⟨by rw [List.length_set, h1], ?_, ?_⟩
    · intro i hi
      by_cases him : i = m
      · subst him
        rw [rd_set_self _ _ _ (by rw [h1]; exact hm), h3 i (Nat.le_refl i)]
      · rw [rd_set_ne _ _ _ _ (Ne.symm him)]
        exact h2 i (by omega)
    · intro i hi
      rw [rd_set_ne _ _ _ _ (by omega)]
      exact h3 i (by omega)

/-- The array `probs` after `setProbabilities`: every weight divided by the sum of
all weights.  The other fields are not touched. -/
theorem setProbabilities_spec (expf : α → α) (w : mWorkspace α)
    (hlen : 2 ^ w.size ≤ w.probs.length) :
    (setProbabilities expf w).probs.length = w.probs.length ∧
    (∀ i, i < 2 ^ w.size → rd (setProbabilities expf w).probs i
      = weight expf w i / ∑ k in Finset.range (2 ^ w.size), weight expf w k) := by
  obtain ⟨h1, h2, h3⟩ := weightLoop_spec (weight expf w) w.probs (2 ^ w.size) hlen
  obtain ⟨g1, g2, _⟩ := divideLoop_spec
    (forLoop (2 ^ w.size) (fun i (s : List α × α) =>
      ((s.1.set i (weight expf w i)), s.2 + rd (s.1.set i (weight expf w i)) i)) (w.probs, 0)).2
    (forLoop (2 ^ w.size) (fun i (s : List α × α) =>
      ((s.1.set i (weight expf w i)), s.2 + rd (s.1.set i (weight expf w i)) i)) (w.probs, 0)).1
    (2 ^ w.size) (by rw [h1]; exact hlen)
  refine ⟨?_, ?_⟩
  · exact g1.trans h1
  · intro i hi
    exact (g2 i hi).trans (by rw [h2 i hi, h3])

theorem setProbabilities_frame (expf : α → α) (w : mWorkspace α) :
    setProbabilities expf w = { w with probs := (setProbabilities expf w).probs } := rfl

/-- An accumulation loop `for (i = 0; i < n; i++) acc += f i` started at `0`
computes the sum of the `f i`. -/
theorem forLoop_sum (f : Nat → α) (n : Nat) :
    forLoop n (fun i (acc : α) => acc + f i) 0 = ∑ i in Finset.range n, f i := by
  induction n with
  | zero => simp [forLoop]
  | succ m ih => rw [forLoop_succ, ih, Finset.sum_range_succ]

/-- The value `getFree` returns, with the loop over the configurations written as
a sum. -/
theorem getFree_value (expf : α → α) (x : α) (w : mWorkspace α) :
    (getFree expf x w).1
      = w.Ltot - (w.Ptot * (∑ i in Finset.range (2 ^ w.size),
          rd (setProbabilities expf { w with Lfree := x }).probs i * ((rd w.bound i : Int) : α))
          + x) := by
  show w.Ltot - (forLoop (2 ^ w.size) (fun i (b : α) =>
      b + rd (setProbabilities expf { w with Lfree := x }).probs i * w.Ptot
        * ((rd w.bound i : Int) : α)) 0 + x) = _
  rw [forLoop_sum, Finset.mul_sum]
  congr 2
  exact Finset.sum_congr rfl (fun i _ => by ring)

/-- C5. For every workspace `w` and every trial value `x`, `getFree (x, w)` stores
`x` in `w->Lfree`, recomputes `probs` by `setProbabilities` at `Lfree = x`, and
returns `Ltot - (Ptot * Σ_i probs[i] * bound[i] + x)`; it changes none of
`energies`, `bound`, `configs`, `Ptot`, `Ltot`, `temp` (nor `size`, `cyclic`, `Pfree`). -/
theorem getFree_spec (expf : α → α) (x : α) (w : mWorkspace α) :
    (getFree expf x w).2 = setProbabilities expf { w with Lfree := x } ∧
    (getFree expf x w).2.Lfree = x ∧
    (getFree expf x w).1
      = w.Ltot - (w.Ptot * (∑ i in Finset.range (2 ^ w.size),
          rd (setProbabilities expf { w with Lfree := x }).probs i * ((rd w.bound i : Int) : α))
          + x) ∧
    (getFree expf x w).2.energies = w.energies ∧
    (getFree expf x w).2.bound = w.bound ∧
    (getFree expf x w).2.configs = w.configs ∧
    (getFree expf x w).2.Ptot = w.Ptot ∧
    (getFree expf x w).2.Ltot = w.Ltot ∧
    (getFree expf x w).2.temp = w.temp ∧
    (getFree expf x w).2.size = w.size ∧
    (getFree expf x w).2.cyclic = w.cyclic ∧
    (getFree expf x w).2.Pfree = w.Pfree := by
  exact ⟨rfl, rfl, getFree_value expf x w, rfl, rfl, rfl, rfl, rfl, rfl, rfl, rfl, rfl⟩

end Probabilities

section RealProbabilities

/-- Over the reals the weight of line 88 is `exp (-energies[i] / (8.3144621 * T)) * Lfree ^ bound[i]`. -/
theorem weight_real (w : mWorkspace ℝ) (i : Nat) :
    weight Real.exp w i
      = Real.exp (-(rd w.energies i) / (8.3144621 * w.temp)) * w.Lfree ^ (rd w.bound i) := by
  unfold weight
  norm_num

/-- The occupancy counts of a lattice built by `setupModelWorkspace`: none is
negative, configuration `0` has none and every other configuration has at least one. -/
theorem setupModelWorkspace_bound (h : Heap ℝ) (w0 : mWorkspace ℝ)
    (hs : (setupModelWorkspace h w0).1 = 0) :
    rd (setupModelWorkspace h w0).2.bound 0 = 0 ∧
    (∀ i, i < 2 ^ w0.size → 0 ≤ rd (setupModelWorkspace h w0).2.bound i) ∧
    (∀ i, i < 2 ^ w0.size → 0 < i → 1 ≤ rd (setupModelWorkspace h w0).2.bound i) := by
  have hb := setupModelWorkspace_bound_card h w0 hs
  refine ⟨?_, fun i hi => by rw [hb i hi]; exact Int.natCast_nonneg _, ?_⟩
  · rw [hb 0 (Nat.two_pow_pos _)]
    simp
  · intro i hi hpos
    rw [hb i hi]
    have hne : i ≠ 0 := Nat.pos_iff_ne_zero.mp hpos
    obtain ⟨k, hk⟩ := Nat.ne_zero_implies_bit_true hne
    have hkn : k < w0.size := by
      by_contra hcon
      have hle : 2 ^ w0.size ≤ 2 ^ k := Nat.pow_le_pow_right (by decide) (Nat.le_of_not_lt hcon)
      rw [Nat.testBit_lt_two_pow (Nat.lt_of_lt_of_le hi hle)] at hk
      exact Bool.false_ne_true hk
    have : 0 < (Finset.filter (fun k => i.testBit k = true) (Finset.range w0.size)).card :=
      Finset.card_pos.mpr ⟨k, Finset.mem_filter.mpr ⟨Finset.mem_range.mpr hkn, hk⟩⟩
    exact_mod_cast this

/-- In a lattice built by `setupModelWorkspace`, at a free-ligand concentration
`Lfree ≥ 0`, no weight is negative and the weight of configuration `0` is positive,
so the normalising sum is positive. -/
theorem weight_built (h : Heap ℝ) (w0 : mWorkspace ℝ)
    (hs : (setupModelWorkspace h w0).1 = 0) (E : List ℝ) (T Ptot Ltot Lf : ℝ) (hL : 0 ≤ Lf) :
    (∀ i, i < 2 ^ w0.size →
      0 ≤ weight Real.exp (conditions (setupModelWorkspace h w0).2 E T Ptot Ltot Lf) i) ∧
    0 < weight Real.exp (conditions (setupModelWorkspace h w0).2 E T Ptot Ltot Lf) 0 ∧
    0 < ∑ k in Finset.range (2 ^ w0.size),
      weight Real.exp (conditions (setupModelWorkspace h w0).2 E T Ptot Ltot Lf) k := by
  obtain ⟨b0, _, _⟩ := setupModelWorkspace_bound h w0 hs
  have hnn : ∀ i, i < 2 ^ w0.size →
      0 ≤ weight Real.exp (conditions (setupModelWorkspace h w0).2 E T Ptot Ltot Lf) i := by
    intro i _
    rw [weight_real]
    exact mul_nonneg (Real.exp_pos _).le (zpow_nonneg hL _)
  have h0 : 0 < weight Real.exp (conditions (setupModelWorkspace h w0).2 E T Ptot Ltot Lf) 0 := by
    rw [weight_real]
    have : rd (conditions (setupModelWorkspace h w0).2 E T Ptot Ltot Lf).bound 0 = 0 := b0
    rw [this, zpow_zero, mul_one]
    exact Real.exp_pos _
  refine ⟨hnn, h0, ?_⟩
  apply lt_of_lt_of_le h0
  exact Finset.single_le_sum
    (f := fun k => weight Real.exp (conditions (setupModelWorkspace h w0).2 E T Ptot Ltot Lf) k)
    (fun i hi => hnn i (Finset.mem_range.mp hi)) (Finset.mem_range.mpr (Nat.two_pow_pos _))

/-- C3. Over the reals, in a lattice built by `setupModelWorkspace`, for every
energy array, every temperature `T > 0` and every `Lfree ≥ 0`, `setProbabilities`
leaves `probs[i] = w_i / Σ_k w_k` with
`w_i = exp (-energies[i] / (8.3144621 * T)) * Lfree ^ bound[i]`; every `probs[i]` is
non-negative and the `2 ^ size` entries sum to `1`. -/
theorem setProbabilities_boltzmann (h : Heap ℝ) (w0 : mWorkspace ℝ)
    (hs : (setupModelWorkspace h w0).1 = 0) (E : List ℝ) (T Ptot Ltot Lf : ℝ)
    (_hT : 0 < T) (hL : 0 ≤ Lf) :
    (∀ i, i < 2 ^ w0.size →
      rd (setProbabilities Real.exp
          (conditions (setupModelWorkspace h w0).2 E T Ptot Ltot Lf)).probs i
        = (Real.exp (-(rd E i) / (8.3144621 * T))
            * Lf ^ (rd (setupModelWorkspace h w0).2.bound i))
          / ∑ k in Finset.range (2 ^ w0.size),
              (Real.exp (-(rd E k) / (8.3144621 * T))
                * Lf ^ (rd (setupModelWorkspace h w0).2.bound k)) ∧
      0 ≤ rd (setProbabilities Real.exp
          (conditions (setupModelWorkspace h w0).2 E T Ptot Ltot Lf)).probs i) ∧
    ∑ i in Finset.range (2 ^ w0.size),
      rd (setProbabilities Real.exp
          (conditions (setupModelWorkspace h w0).2 E T Ptot Ltot Lf)).probs i = 1 := by
  obtain ⟨s1, _, _, _, _, _, _, s8, _⟩ := setupModelWorkspace_spec h w0 hs
  have hsz : (conditions (setupModelWorkspace h w0).2 E T Ptot Ltot Lf).size = w0.size := s1
  obtain ⟨_, hp⟩ := setProbabilities_spec Real.exp
    (conditions (setupModelWorkspace h w0).2 E T Ptot Ltot Lf)
    (by rw [hsz]; exact le_of_eq s8.symm)
  rw [hsz] at hp
  obtain ⟨hnn, _, hpos⟩ := weight_built h w0 hs E T Ptot Ltot Lf hL
  refine ⟨?_, ?_⟩
  · intro i hi
    refine ⟨?_, ?_⟩
    · rw [hp i hi, weight_real]
      congr 1
      exact Finset.sum_congr rfl (fun k _ => weight_real _ k)
    · rw [hp i hi]
      exact div_nonneg (hnn i hi) hpos.le
  · rw [Finset.sum_congr rfl (fun i hi => hp i (Finset.mem_range.mp hi)), ← Finset.sum_div]
    exact div_self (ne_of_gt hpos)

/-- A witness of C3: one site, energies `0` and `-5000`, `T = 298.15`, `Lfree = 1e-6`. -/
theorem setProbabilities_boltzmann_witness :
    (setupModelWorkspace (sampleHeap ℝ) (sampleWorkspace ℝ 1)).1 = 0 ∧
    (0 : ℝ) < 298.15 ∧ (0 : ℝ) ≤ 1e-6 ∧
    ∑ i in Finset.range (2 ^ (sampleWorkspace ℝ 1).size),
      rd (setProbabilities Real.exp
          (conditions (setupModelWorkspace (sampleHeap ℝ) (sampleWorkspace ℝ 1)).2
            [0, -5000] 298.15 1e-6 5e-6 1e-6)).probs i = 1 :=
  ⟨by decide, by norm_num, by norm_num,
    (setProbabilities_boltzmann (sampleHeap ℝ) (sampleWorkspace ℝ 1) (by decide)
      [0, -5000] 298.15 1e-6 5e-6 1e-6 (by norm_num) (by norm_num)).2⟩

end RealProbabilities

/-! ## The mass-balance residual -/

section Residual

theorem pair_nonneg (x y : ℝ) (hx : 0 ≤ x) (hxy : x ≤ y) (m n : ℕ) :
    0 ≤ ((m : ℝ) - n) * (y ^ m * x ^ n - x ^ m * y ^ n) := by
  rcases le_total n m with hnm | hmn
  · obtain ⟨d, rfl⟩ := Nat.exists_eq_add_of_le hnm
    have h1 : (0 : ℝ) ≤ ((n + d : ℕ) : ℝ) - n := by push_cast; simp
    have h2 : x ^ d ≤ y ^ d := pow_le_pow_left₀ hx hxy d
    have h3 : y ^ (n + d) * x ^ n - x ^ (n + d) * y ^ n = x ^ n * y ^ n * (y ^ d - x ^ d) := by
      ring
    rw [h3]
    exact mul_nonneg h1 (mul_nonneg (mul_nonneg (pow_nonneg hx n)
      (pow_nonneg (hx.trans hxy) n)) (sub_nonneg.mpr h2))
  · obtain ⟨d, rfl⟩ := Nat.exists_eq_add_of_le hmn
    have h1 : (m : ℝ) - ((m + d : ℕ) : ℝ) ≤ 0 := by push_cast; simp
    have h2 : x ^ d ≤ y ^ d := pow_le_pow_left₀ hx hxy d
    have h3 : y ^ m * x ^ (m + d) - x ^ m * y ^ (m + d)
        = -(x ^ m * y ^ m * (y ^ d - x ^ d)) := by ring
    rw [h3]
    exact mul_nonneg_of_nonpos_of_nonpos h1 (neg_nonpos.mpr (mul_nonneg (mul_nonneg
      (pow_nonneg hx m) (pow_nonneg (hx.trans hxy) m)) (sub_nonneg.mpr h2)))

theorem double_sum_identity (s : Finset ℕ) (b u v : ℕ → ℝ) :
    ∑ i in s, ∑ k in s, (b i - b k) * (v i * u k - u i * v k)
      = 2 * ((∑ i in s, b i * v i) * (∑ k in s, u k)
          - (∑ i in s, b i * u i) * (∑ k in s, v k)) := by
  have e1 : ∀ i k, (b i - b k) * (v i * u k - u i * v k)
      = (b i * v i * u k - b i * u i * v k) + (b k * v k * u i - b k * u k * v i) := by
    intro i k; ring
  simp only [e1, Finset.sum_add_distrib]
  rw [Finset.sum_comm (f := fun i k => b k * v k * u i - b k * u k * v i)]
  simp only [Finset.sum_sub_distrib, Finset.sum_mul_sum]
  ring

/-- The occupancy-weighted sum grows at least as fast as the plain sum of the
weights when the free-ligand concentration grows. -/
theorem cross_le (s : Finset ℕ) (a : ℕ → ℝ) (n : ℕ → ℕ) (ha : ∀ i ∈ s, 0 ≤ a i)
    (x y : ℝ) (hx : 0 ≤ x) (hxy : x ≤ y) :
    (∑ i in s, (n i : ℝ) * (a i * x ^ n i)) * (∑ k in s, a k * y ^ n k)
      ≤ (∑ i in s, (n i : ℝ) * (a i * y ^ n i)) * (∑ k in s, a k * x ^ n k) := by
  have key := double_sum_identity s (fun i => (n i : ℝ)) (fun i => a i * x ^ n i)
    (fun i => a i * y ^ n i)
  have hnn : 0 ≤ ∑ i in s, ∑ k in s, ((n i : ℝ) - n k)
      * (a i * y ^ n i * (a k * x ^ n k) - a i * x ^ n i * (a k * y ^ n k)) := by
    apply Finset.sum_nonneg
    intro i hi
    apply Finset.sum_nonneg
    intro k hk
    have := pair_nonneg x y hx hxy (n i) (n k)
    have e : ((n i : ℝ) - n k)
        * (a i * y ^ n i * (a k * x ^ n k) - a i * x ^ n i * (a k * y ^ n k))
        = (a i * a k) * (((n i : ℝ) - n k) * (y ^ n i * x ^ n k - x ^ n i * y ^ n k)) := by ring
    rw [e]
    exact mul_nonneg (mul_nonneg (ha i hi) (ha k hk)) this
  simp only at key
  rw [key] at hnn
  linarith

/-- The sum of the weights `a k * x ^ n k` over `k < m` is positive at `x ≥ 0` when
the weights `a k` are positive and index `0` has exponent `0`. -/
theorem weightSum_pos (m : ℕ) (hm : 0 < m) (a : ℕ → ℝ) (n : ℕ → ℕ) (ha : ∀ i, 0 < a i)
    (hn : n 0 = 0) (x : ℝ) (hx : 0 ≤ x) : 0 < ∑ k in Finset.range m, a k * x ^ n k := by
  have h0 : 0 < a 0 * x ^ n 0 := by rw [hn, pow_zero, mul_one]; exact ha 0
  apply lt_of_lt_of_le h0
  exact Finset.single_le_sum (f := fun k => a k * x ^ n k)
    (fun i _ => mul_nonneg (ha i).le (pow_nonneg hx _)) (Finset.mem_range.mpr hm)

/-- The mean occupancy `(Σ n_i a_i x ^ n_i) / (Σ a_k x ^ n_k)` does not decrease
with `x ≥ 0`, it is never negative and it vanishes at `x = 0`. -/
theorem occupancy_mono (m : ℕ) (hm : 0 < m) (a : ℕ → ℝ) (n : ℕ → ℕ) (ha : ∀ i, 0 < a i)
    (hn : n 0 = 0) :
    (∀ x y : ℝ, 0 ≤ x → x ≤ y →
      (∑ i in Finset.range m, (n i : ℝ) * (a i * x ^ n i)) / (∑ k in Finset.range m, a k * x ^ n k)
        ≤ (∑ i in Finset.range m, (n i : ℝ) * (a i * y ^ n i))
            / (∑ k in Finset.range m, a k * y ^ n k)) ∧
    (∀ x : ℝ, 0 ≤ x →
      0 ≤ (∑ i in Finset.range m, (n i : ℝ) * (a i * x ^ n i))
            / (∑ k in Finset.range m, a k * x ^ n k)) ∧
    (∑ i in Finset.range m, (n i : ℝ) * (a i * (0 : ℝ) ^ n i))
      / (∑ k in Finset.range m, a k * (0 : ℝ) ^ n k) = 0 := by
  refine ⟨?_, ?_, ?_⟩
  · intro x y hx hxy
    rw [div_le_div_iff₀ (weightSum_pos m hm a n ha hn x hx)
      (weightSum_pos m hm a n ha hn y (hx.trans hxy))]
    exact cross_le (Finset.range m) a n (fun i _ => (ha i).le) x y hx hxy
  · intro x hx
    apply div_nonneg _ (weightSum_pos m hm a n ha hn x hx).le
    exact Finset.sum_nonneg (fun i _ =>
      mul_nonneg (Nat.cast_nonneg _) (mul_nonneg (ha i).le (pow_nonneg hx _)))
  · have : ∑ i in Finset.range m, (n i : ℝ) * (a i * (0 : ℝ) ^ n i) = 0 := by
      apply Finset.sum_eq_zero
      intro i _
      rcases Nat.eq_zero_or_pos (n i) with h0 | hp
      · rw [h0]; simp
      · rw [zero_pow (Nat.pos_iff_ne_zero.mp hp)]; simp
    rw [this, zero_div]

/-- When no occupancy count is negative, the residual computed by `getFree` at the
trial value `x` is `Ltot - (Ptot * nbar x + x)` with the mean occupancy
`nbar x = (Σ n_i a_i x ^ n_i) / (Σ a_k x ^ n_k)`, `a_i = exp (-energies[i] / (R T))`
and `n_i = bound[i]`. -/
theorem getFree_formula (w : mWorkspace ℝ) (hlen : 2 ^ w.size ≤ w.probs.length)
    (hb : ∀ i, i < 2 ^ w.size → 0 ≤ rd w.bound i) (x : ℝ) :
    (getFree Real.exp x w).1
      = w.Ltot - (w.Ptot * ((∑ i in Finset.range (2 ^ w.size),
            ((rd w.bound i).toNat : ℝ) * (Real.exp (-(rd w.energies i) / (8.3144621 * w.temp))
              * x ^ (rd w.bound i).toNat))
          / (∑ k in Finset.range (2 ^ w.size),
              Real.exp (-(rd w.energies k) / (8.3144621 * w.temp))
                * x ^ (rd w.bound k).toNat)) + x) := by
  have hval := getFree_value Real.exp x w
  obtain ⟨_, hp⟩ := setProbabilities_spec Real.exp { w with Lfree := x } hlen
  have hwt : ∀ i, i < 2 ^ w.size →
      weight Real.exp { w with Lfree := x } i
        = Real.exp (-(rd w.energies i) / (8.3144621 * w.temp)) * x ^ (rd w.bound i).toNat := by
    intro i hi
    rw [weight_real]
    show Real.exp (-(rd w.energies i) / (8.3144621 * w.temp)) * x ^ (rd w.bound i) = _
    rw [← zpow_natCast x, Int.toNat_of_nonneg (hb i hi)]
  have hcast : ∀ i, i < 2 ^ w.size →
      ((rd w.bound i : Int) : ℝ) = (((rd w.bound i).toNat : ℕ) : ℝ) := by
    intro i hi
    rw [← Int.cast_natCast, Int.toNat_of_nonneg (hb i hi)]
  rw [hval, Finset.sum_div]
  congr 3
  apply Finset.sum_congr rfl
  intro i hi
  have hi2 : i < 2 ^ w.size := Finset.mem_range.mp hi
  rw [hp i hi2, hwt i hi2, hcast i hi2]
  have hs : ∑ k in Finset.range (2 ^ w.size), weight Real.exp { w with Lfree := x } k
      = ∑ k in Finset.range (2 ^ w.size),
          Real.exp (-(rd w.energies k) / (8.3144621 * w.temp)) * x ^ (rd w.bound k).toNat :=
    Finset.sum_congr rfl (fun k hk => hwt k (Finset.mem_range.mp hk))
  show _ / (∑ k in Finset.range (2 ^ w.size), weight Real.exp { w with Lfree := x } k) * _ = _
  rw [hs]
  ring

/-- The residual of a workspace without negative occupancy counts, whose
configuration `0` is empty, for `Ptot ≥ 0`: it decreases strictly on `x ≥ 0`, equals
`Ltot` at `0` and is at most `Ltot - x` everywhere. -/
theorem getFree_decreasing (w : mWorkspace ℝ) (hlen : 2 ^ w.size ≤ w.probs.length)
    (hb : ∀ i, i < 2 ^ w.size → 0 ≤ rd w.bound i) (hb0 : rd w.bound 0 = 0)
    (hP : 0 ≤ w.Ptot) :
    (∀ x y : ℝ, 0 ≤ x → x < y → (getFree Real.exp y w).1 < (getFree Real.exp x w).1) ∧
    (getFree Real.exp 0 w).1 = w.Ltot ∧
    (∀ x : ℝ, 0 ≤ x → (getFree Real.exp x w).1 ≤ w.Ltot - x) := by
  obtain ⟨m1, m2, m3⟩ := occupancy_mono (2 ^ w.size) (Nat.two_pow_pos _)
    (fun i => Real.exp (-(rd w.energies i) / (8.3144621 * w.temp)))
    (fun i => (rd w.bound i).toNat) (fun i => Real.exp_pos _) (by simp [hb0])
  refine ⟨?_, ?_, ?_⟩
  · intro x y hx hxy
    rw [getFree_formula w hlen hb x, getFree_formula w hlen hb y]
    have := mul_le_mul_of_nonneg_left (m1 x y hx hxy.le) hP
    linarith
  · rw [getFree_formula w hlen hb 0, m3]
    ring
  · intro x hx
    rw [getFree_formula w hlen hb x]
    have := mul_nonneg hP (m2 x hx)
    linarith

/-- C6. Over the reals, in a lattice built by `setupModelWorkspace`, for every
energy array, `T > 0`, `Ptot ≥ 0` and `Ltot ≥ 0`, the residual `x ↦ getFree x` is
strictly decreasing on `[0, Ltot]`, with `getFree 0 = Ltot ≥ 0` and
`getFree Ltot ≤ 0`; so the bracket `[0, Ltot]` holds a sign change and at most one
root of the residual. -/
theorem getFree_strictAnti (h : Heap ℝ) (w0 : mWorkspace ℝ)
    (hs : (setupModelWorkspace h w0).1 = 0) (E : List ℝ) (T Ptot Ltot L0 : ℝ)
    (_hT : 0 < T) (hP : 0 ≤ Ptot) (hL : 0 ≤ Ltot) :
    StrictAntiOn (fun x =>
      (getFree Real.exp x (conditions (setupModelWorkspace h w0).2 E T Ptot Ltot L0)).1)
      (Set.Icc 0 Ltot) ∧
    (getFree Real.exp 0 (conditions (setupModelWorkspace h w0).2 E T Ptot Ltot L0)).1 = Ltot ∧
    0 ≤ (getFree Real.exp 0 (conditions (setupModelWorkspace h w0).2 E T Ptot Ltot L0)).1 ∧
    (getFree Real.exp Ltot (conditions (setupModelWorkspace h w0).2 E T Ptot Ltot L0)).1 ≤ 0 ∧
    (∀ x y : ℝ, x ∈ Set.Icc 0 Ltot → y ∈ Set.Icc 0 Ltot →
      (getFree Real.exp x (conditions (setupModelWorkspace h w0).2 E T Ptot Ltot L0)).1 = 0 →
      (getFree Real.exp y (conditions (setupModelWorkspace h w0).2 E T Ptot Ltot L0)).1 = 0 →
      x = y) := by
  obtain ⟨s1, _, _, _, _, _, _, s8, _⟩ := setupModelWorkspace_spec h w0 hs
  obtain ⟨b0, bnn, _⟩ := setupModelWorkspace_bound h w0 hs
  obtain ⟨d1, d2, d3⟩ := getFree_decreasing
    (conditions (setupModelWorkspace h w0).2 E T Ptot Ltot L0)
    (by show 2 ^ (setupModelWorkspace h w0).2.size ≤ (setupModelWorkspace h w0).2.probs.length
        rw [s1, s8])
    (by show ∀ i, i < 2 ^ (setupModelWorkspace h w0).2.size →
          0 ≤ rd (setupModelWorkspace h w0).2.bound i
        rw [s1]; exact bnn)
    b0 hP
  have hanti : StrictAntiOn (fun x =>
      (getFree Real.exp x (conditions (setupModelWorkspace h w0).2 E T Ptot Ltot L0)).1)
      (Set.Icc 0 Ltot) := fun x hx y _ hxy => d1 x y hx.1 hxy
  refine ⟨hanti, d2, ?_, ?_, ?_⟩
  · rw [d2]; exact hL
  · have := d3 Ltot hL
    have e : (conditions (setupModelWorkspace h w0).2 E T Ptot Ltot L0).Ltot = Ltot := rfl
    rw [e, sub_self] at this
    exact this
  · intro x y hx hy fx fy
    exact hanti.injOn hx hy (by simp only [fx, fy])

/-- A witness of C6: one site, energies `0` and `-5000`, `T = 298.15`, `Ptot = 1e-6`,
`Ltot = 5e-6`. -/
theorem getFree_strictAnti_witness :
    (setupModelWorkspace (sampleHeap ℝ) (sampleWorkspace ℝ 1)).1 = 0 ∧
    (0 : ℝ) < 298.15 ∧ (0 : ℝ) ≤ 1e-6 ∧ (0 : ℝ) ≤ 5e-6 ∧
    (getFree Real.exp 0
      (conditions (setupModelWorkspace (sampleHeap ℝ) (sampleWorkspace ℝ 1)).2
        [0, -5000] 298.15 1e-6 5e-6 0)).1 = 5e-6 :=
  ⟨by decide, by norm_num, by norm_num, by norm_num,
    (getFree_strictAnti (sampleHeap ℝ) (sampleWorkspace ℝ 1) (by decide)
      [0, -5000] 298.15 1e-6 5e-6 0 (by norm_num) (by norm_num) (by norm_num)).2.1⟩

end Residual

/-! ## The heat integrator -/

section Heat

/-- The loop of `getQ` computes the sum of `enthalpies[i] * probs[i]`. -/
theorem getQ_sum {β : Type} [Field β] (sim : sWorkspace β) (model : mWorkspace β) :
    getQ sim model
      = ∑ i in Finset.range (2 ^ model.size), rd sim.enthalpies i * rd model.probs i :=
  forLoop_sum (fun i => rd sim.enthalpies i * rd model.probs i) (2 ^ model.size)

/-- C7. `getQ` returns `Σ_i enthalpies[i] * probs[i]` over the `2 ^ size`
configurations; it receives both workspaces by value and returns only that number.
When `probs` is non-negative and sums to `1`, the result lies between the least and
the greatest entry of `enthalpies`. -/
theorem getQ_spec (sim : sWorkspace ℝ) (model : mWorkspace ℝ) :
    getQ sim model
      = ∑ i in Finset.range (2 ^ model.size), rd sim.enthalpies i * rd model.probs i ∧
    ((∀ i, i < 2 ^ model.size → 0 ≤ rd model.probs i) →
      ∑ i in Finset.range (2 ^ model.size), rd model.probs i = 1 →
      (Finset.range (2 ^ model.size)).inf'
          (Finset.nonempty_range_iff.mpr (Nat.two_pow_pos model.size).ne')
          (fun i => rd sim.enthalpies i) ≤ getQ sim model ∧
      getQ sim model ≤ (Finset.range (2 ^ model.size)).sup'
          (Finset.nonempty_range_iff.mpr (Nat.two_pow_pos model.size).ne')
          (fun i => rd sim.enthalpies i)) := by
  have hQ := getQ_sum sim model
  refine ⟨hQ, ?_⟩
  intro hnn hsum
  rw [hQ]
  refine ⟨?_, ?_⟩
  · calc (Finset.range (2 ^ model.size)).inf'
            (Finset.nonempty_range_iff.mpr (Nat.two_pow_pos model.size).ne')
            (fun i => rd sim.enthalpies i)
        = ∑ i in Finset.range (2 ^ model.size),
            (Finset.range (2 ^ model.size)).inf'
              (Finset.nonempty_range_iff.mpr (Nat.two_pow_pos model.size).ne')
              (fun i => rd sim.enthalpies i) * rd model.probs i := by
          rw [← Finset.mul_sum, hsum, mul_one]
      _ ≤ ∑ i in Finset.range (2 ^ model.size), rd sim.enthalpies i * rd model.probs i := by
          apply Finset.sum_le_sum
          intro i hi
          exact mul_le_mul_of_nonneg_right
            (Finset.inf'_le (fun i => rd sim.enthalpies i) hi)
            (hnn i (Finset.mem_range.mp hi))
  · calc ∑ i in Finset.range (2 ^ model.size), rd sim.enthalpies i * rd model.probs i
        ≤ ∑ i in Finset.range (2 ^ model.size),
            (Finset.range (2 ^ model.size)).sup'
              (Finset.nonempty_range_iff.mpr (Nat.two_pow_pos model.size).ne')
              (fun i => rd sim.enthalpies i) * rd model.probs i := by
          apply Finset.sum_le_sum
          intro i hi
          exact mul_le_mul_of_nonneg_right
            (Finset.le_sup' (fun i => rd sim.enthalpies i) hi)
            (hnn i (Finset.mem_range.mp hi))
      _ = (Finset.range (2 ^ model.size)).sup'
            (Finset.nonempty_range_iff.mpr (Nat.two_pow_pos model.size).ne')
            (fun i => rd sim.enthalpies i) := by
          rw [← Finset.mul_sum, hsum, mul_one]

/-- A witness of C7: one site, enthalpies `0` and `-8000`, probabilities `1/4` and `3/4`. -/
theorem getQ_spec_witness :
    (∀ i, i < 2 ^ ({ sampleWorkspace ℝ 1 with probs := [1 / 4, 3 / 4] } : mWorkspace ℝ).size →
      0 ≤ rd ({ sampleWorkspace ℝ 1 with probs := [1 / 4, 3 / 4] } : mWorkspace ℝ).probs i) ∧
    ∑ i in Finset.range (2 ^ ({ sampleWorkspace ℝ 1 with probs := [1 / 4, 3 / 4] }
        : mWorkspace ℝ).size),
      rd ({ sampleWorkspace ℝ 1 with probs := [1 / 4, 3 / 4] } : mWorkspace ℝ).probs i = 1 ∧
    getQ ({ enthalpies := [0, -8000] } : sWorkspace ℝ)
        ({ sampleWorkspace ℝ 1 with probs := [1 / 4, 3 / 4] } : mWorkspace ℝ)
      ≤ (Finset.range (2 ^ 1)).sup' (Finset.nonempty_range_iff.mpr (Nat.two_pow_pos 1).ne')
          (fun i => rd [(0 : ℝ), -8000] i) :=
  have hnn : ∀ i, i < 2 ^ ({ sampleWorkspace ℝ 1 with probs := [1 / 4, 3 / 4] }
        : mWorkspace ℝ).size →
      0 ≤ rd ({ sampleWorkspace ℝ 1 with probs := [1 / 4, 3 / 4] } : mWorkspace ℝ).probs i := by
    intro i hi
    have hi2 : i < 2 := hi
    interval_cases i
    · show (0 : ℝ) ≤ 1 / 4
      norm_num
    · show (0 : ℝ) ≤ 3 / 4
      norm_num
  have hsum : ∑ i in Finset.range (2 ^ ({ sampleWorkspace ℝ 1 with probs := [1 / 4, 3 / 4] }
        : mWorkspace ℝ).size),
      rd ({ sampleWorkspace ℝ 1 with probs := [1 / 4, 3 / 4] } : mWorkspace ℝ).probs i = 1 := by
    show ∑ i in Finset.range 2, rd [(1 / 4 : ℝ), 3 / 4] i = 1
    rw [Finset.sum_range_succ, Finset.sum_range_one]
    show (1 / 4 : ℝ) + 3 / 4 = 1
    norm_num
  ⟨hnn, hsum,
    ((getQ_spec ({ enthalpies := [0, -8000] } : sWorkspace ℝ)
      ({ sampleWorkspace ℝ 1 with probs := [1 / 4, 3 / 4] } : mWorkspace ℝ)).2 hnn hsum).2⟩

end Heat

/-! ## The free-ligand solver -/

section Solver

variable {σ α : Type} [Field α]

/-- The `do ... while` loop of `setFree` entered with the counter `iter`: it runs
its body at least once, stops at the latest when the counter reaches `max_iter`,
returns the answer of the interval test on the bracket it stops at, and stops on
`GSL_CONTINUE` only when the counter has reached `max_iter`. -/
theorem setFreeLoop_spec (sv : RootSolver σ α) (expf : α → α) (max_iter : Nat) :
    ∀ (k iter : Nat) (st : σ) (w : mWorkspace α), max_iter - iter = k →
      iter + 1 ≤ (setFreeLoop sv expf max_iter iter st w).iter ∧
      (iter < max_iter → (setFreeLoop sv expf max_iter iter st w).iter ≤ max_iter) ∧
      (setFreeLoop sv expf max_iter iter st w).status
        = sv.test_interval (sv.x_lower (setFreeLoop sv expf max_iter iter st w).solver)
            (sv.x_upper (setFreeLoop sv expf max_iter iter st w).solver) 0 0 ∧
      ((setFreeLoop sv expf max_iter iter st w).status = GSL_CONTINUE →
        max_iter ≤ (setFreeLoop sv expf max_iter iter st w).iter) := by
  intro k
  induction k with
  | zero =>
    intro iter st w hk
    rw [setFreeLoop]
    have hcond : ¬ (sv.test_interval
        (sv.x_lower (sv.iterate st (fun x => (getFree expf x w).1)).2.1)
        (sv.x_upper (sv.iterate st (fun x => (getFree expf x w).1)).2.1) 0 0 = GSL_CONTINUE
        ∧ iter + 1 < max_iter) := by
      intro hc
      omega
    rw [if_neg hcond]
    exact ⟨Nat.le_refl _, fun hlt => absurd hlt (by omega), rfl,
      fun _ => show max_iter ≤ iter + 1 by omega⟩
  | succ k ih =>
    intro iter st w hk
    rw [setFreeLoop]
    by_cases hcond : sv.test_interval
        (sv.x_lower (sv.iterate st (fun x => (getFree expf x w).1)).2.1)
        (sv.x_upper (sv.iterate st (fun x => (getFree expf x w).1)).2.1) 0 0 = GSL_CONTINUE
        ∧ iter + 1 < max_iter
    · rw [if_pos hcond]
      obtain ⟨h1, h2, h3, h4⟩ := ih (iter + 1)
        (sv.iterate st (fun x => (getFree expf x w).1)).2.1
        (replay expf (sv.iterate st (fun x => (getFree expf x w).1)).2.2 w) (by omega)
      exact ⟨by omega, fun _ => h2 hcond.2, h3, h4⟩
    · rw [if_neg hcond]
      refine ⟨Nat.le_refl _, fun hlt => show iter + 1 ≤ max_iter by omega, rfl, ?_⟩
      intro hst
      have hst2 : sv.test_interval
        (sv.x_lower (sv.iterate st (fun x => (getFree expf x w).1)).2.1)
        (sv.x_upper (sv.iterate st (fun x => (getFree expf x w).1)).2.1) 0 0 = GSL_CONTINUE :=
        hst
      have : ¬ (iter + 1 < max_iter) := fun hlt => hcond ⟨hst2, hlt⟩
      show max_iter ≤ iter + 1
      omega

/-- The status `setFree` returns is the answer of the interval test on the bracket
of the solver state it ends in. -/
theorem setFree_status (sv : RootSolver σ α) (expf : α → α) (st : σ) (w : mWorkspace α) :
    (setFree sv expf st w).status
      = sv.test_interval (sv.x_lower (setFree sv expf st w).solver)
          (sv.x_upper (setFree sv expf st w).solver) 0 0 :=
  (setFreeLoop_spec sv expf 100 100 0
    (sv.set st (fun x => (getFree expf x w).1) 0 w.Ltot).2.1
    (replay expf (sv.set st (fun x => (getFree expf x w).1) 0 w.Ltot).2.2 w) rfl).2.2.1

/-- With a solver whose interval test always answers `GSL_CONTINUE`, `setFree`
returns `GSL_CONTINUE`. -/
theorem setFree_stall {β : Type} [Field β] (expf : β → β) (st : Nat) (w : mWorkspace β) :
    (setFree (stallSolver β) expf st w).status = GSL_CONTINUE :=
  (setFree_status (stallSolver β) expf st w).trans rfl

/-- The solver that never converges calls the objective nowhere: the loop of
`setFree` leaves the workspace as it is. -/
theorem setFreeLoop_stall_model {β : Type} [Field β] (expf : β → β) (max_iter : Nat) :
    ∀ (k iter st : Nat) (w : mWorkspace β), max_iter - iter = k →
      (setFreeLoop (stallSolver β) expf max_iter iter st w).model = w := by
  intro k
  induction k with
  | zero =>
    intro iter st w hk
    rw [setFreeLoop]
    have hcond : ¬ ((stallSolver β).test_interval
        ((stallSolver β).x_lower ((stallSolver β).iterate st (fun x => (getFree expf x w).1)).2.1)
        ((stallSolver β).x_upper ((stallSolver β).iterate st (fun x => (getFree expf x w).1)).2.1)
        0 0 = GSL_CONTINUE ∧ iter + 1 < max_iter) := by
      intro hc
      omega
    rw [if_neg hcond]
    rfl
  | succ k ih =>
    intro iter st w hk
    rw [setFreeLoop]
    by_cases hlt : iter + 1 < max_iter
    · have hcond : (stallSolver β).test_interval
          ((stallSolver β).x_lower
            ((stallSolver β).iterate st (fun x => (getFree expf x w).1)).2.1)
          ((stallSolver β).x_upper
            ((stallSolver β).iterate st (fun x => (getFree expf x w).1)).2.1)
          0 0 = GSL_CONTINUE ∧ iter + 1 < max_iter := ⟨rfl, hlt⟩
      rw [if_pos hcond]
      exact ih (iter + 1) _ _ (by omega)
    · have hcond : ¬ ((stallSolver β).test_interval
          ((stallSolver β).x_lower
            ((stallSolver β).iterate st (fun x => (getFree expf x w).1)).2.1)
          ((stallSolver β).x_upper
            ((stallSolver β).iterate st (fun x => (getFree expf x w).1)).2.1)
          0 0 = GSL_CONTINUE ∧ iter + 1 < max_iter) := fun hc => hlt hc.2
      rw [if_neg hcond]
      rfl

theorem setFree_stall_model {β : Type} [Field β] (expf : β → β) (st : Nat) (w : mWorkspace β) :
    (setFree (stallSolver β) expf st w).model = w :=
  setFreeLoop_stall_model expf 100 100 0 _ _ rfl

end Solver

/-! ## The free-ligand solver: the iterations -/

section Iterations

variable {σ α : Type} [Field α]

/-- The loop of `setFree`, entered after `iter` calls of `iterate`, ends in the
solver state and the workspace that `set` and as many calls of `iterate` as its
counter says produce, and every earlier pass ended on `GSL_CONTINUE`. -/
theorem setFreeLoop_after (sv : RootSolver σ α) (expf : α → α) (max_iter : Nat) (st0 : σ)
    (w0 : mWorkspace α) :
    ∀ (k iter : Nat) (st : σ) (w : mWorkspace α), max_iter - iter = k →
      (st, w) = solverAfter sv expf st0 w0 iter →
      ((setFreeLoop sv expf max_iter iter st w).solver,
        (setFreeLoop sv expf max_iter iter st w).model)
        = solverAfter sv expf st0 w0 (setFreeLoop sv expf max_iter iter st w).iter ∧
      (∀ j, iter < j → j < (setFreeLoop sv expf max_iter iter st w).iter →
        sv.test_interval (sv.x_lower (solverAfter sv expf st0 w0 j).1)
          (sv.x_upper (solverAfter sv expf st0 w0 j).1) 0 0 = GSL_CONTINUE) := by
  intro k
  induction k with
  | zero =>
    intro iter st w hk hst
    rw [setFreeLoop]
    have hcond : ¬ (sv.test_interval
        (sv.x_lower (sv.iterate st (fun x => (getFree expf x w).1)).2.1)
        (sv.x_upper (sv.iterate st (fun x => (getFree expf x w).1)).2.1) 0 0 = GSL_CONTINUE
        ∧ iter + 1 < max_iter) := by
      intro hc
      omega
    rw [if_neg hcond]
    refine ⟨?_, ?_⟩
    · show _ = solverAfter sv expf st0 w0 (iter + 1)
      rw [solverAfter, ← hst]
    · intro j h1 h2
      have h3 : j < iter + 1 := h2
      omega
  | succ k ih =>
    intro iter st w hk hst
    have hnext : ((sv.iterate st (fun x => (getFree expf x w).1)).2.1,
        replay expf (sv.iterate st (fun x => (getFree expf x w).1)).2.2 w)
        = solverAfter sv expf st0 w0 (iter + 1) := by
      rw [solverAfter, ← hst]
    rw [setFreeLoop]
    by_cases hcond : sv.test_interval
        (sv.x_lower (sv.iterate st (fun x => (getFree expf x w).1)).2.1)
        (sv.x_upper (sv.iterate st (fun x => (getFree expf x w).1)).2.1) 0 0 = GSL_CONTINUE
        ∧ iter + 1 < max_iter
    · rw [if_pos hcond]
      obtain ⟨h1, h2⟩ := ih (iter + 1)
        (sv.iterate st (fun x => (getFree expf x w).1)).2.1
        (replay expf (sv.iterate st (fun x => (getFree expf x w).1)).2.2 w) (by omega) hnext
      refine ⟨h1, ?_⟩
      intro j hj1 hj2
      by_cases hj : j = iter + 1
      · rw [hj, ← hnext]
        exact hcond.1
      · exact h2 j (by omega) hj2
    · rw [if_neg hcond]
      refine ⟨hnext, ?_⟩
      intro j h1 h2
      have h3 : j < iter + 1 := h2
      omega

/-- The solver state and the workspace `setFree` ends in are those after `set` and
`iter` calls of `iterate`, with `1 ≤ iter ≤ 100`; every pass before the last ended
on `GSL_CONTINUE`; and a last answer `GSL_CONTINUE` means `iter = 100`. -/
theorem setFree_after (sv : RootSolver σ α) (expf : α → α) (st : σ) (w : mWorkspace α) :
    1 ≤ (setFree sv expf st w).iter ∧ (setFree sv expf st w).iter ≤ 100 ∧
    (setFree sv expf st w).solver
      = (solverAfter sv expf st w (setFree sv expf st w).iter).1 ∧
    (setFree sv expf st w).model
      = (solverAfter sv expf st w (setFree sv expf st w).iter).2 ∧
    (∀ j, 1 ≤ j → j < (setFree sv expf st w).iter →
      sv.test_interval (sv.x_lower (solverAfter sv expf st w j).1)
        (sv.x_upper (solverAfter sv expf st w j).1) 0 0 = GSL_CONTINUE) ∧
    ((setFree sv expf st w).status = GSL_CONTINUE → (setFree sv expf st w).iter = 100) := by
  obtain ⟨h1, h2, _, h4⟩ := setFreeLoop_spec sv expf 100 100 0
    (sv.set st (fun x => (getFree expf x w).1) 0 w.Ltot).2.1
    (replay expf (sv.set st (fun x => (getFree expf x w).1) 0 w.Ltot).2.2 w) rfl
  obtain ⟨a1, a2⟩ := setFreeLoop_after sv expf 100 st w 100 0
    (sv.set st (fun x => (getFree expf x w).1) 0 w.Ltot).2.1
    (replay expf (sv.set st (fun x => (getFree expf x w).1) 0 w.Ltot).2.2 w) rfl rfl
  have e : setFree sv expf st w = setFreeLoop sv expf 100 0
    (sv.set st (fun x => (getFree expf x w).1) 0 w.Ltot).2.1
    (replay expf (sv.set st (fun x => (getFree expf x w).1) 0 w.Ltot).2.2 w) := rfl
  rw [e]
  refine ⟨h1, h2 (by decide), ?_, ?_, ?_, ?_⟩
  · exact congrArg Prod.fst a1
  · exact congrArg Prod.snd a1
  · intro j hj1 hj2
    exact a2 j (by omega) hj2
  · intro hc
    exact Nat.le_antisymm (h2 (by decide)) (h4 hc)

/-- C10. Whatever the solver primitives do, `setFree` calls `set` once and then
`iterate` between one and 100 times: the solver state and the workspace it ends
with are those after `set` and `iter` calls of `iterate`, `1 ≤ iter ≤ 100`, and the
interval test answered `GSL_CONTINUE` after every call but the last.  The status it
returns is the answer of the interval test on the last bracket, so it returns `0`
exactly when that test reported success; and when that test still answers
`GSL_CONTINUE`, `setFree` has made 100 iterations and returns the nonzero status
`GSL_CONTINUE`. -/
theorem setFree_iterations (sv : RootSolver σ α) (expf : α → α) (st : σ) (w : mWorkspace α) :
    1 ≤ (setFree sv expf st w).iter ∧ (setFree sv expf st w).iter ≤ 100 ∧
    (setFree sv expf st w).solver
      = (solverAfter sv expf st w (setFree sv expf st w).iter).1 ∧
    (setFree sv expf st w).model
      = (solverAfter sv expf st w (setFree sv expf st w).iter).2 ∧
    (∀ j, 1 ≤ j → j < (setFree sv expf st w).iter →
      sv.test_interval (sv.x_lower (solverAfter sv expf st w j).1)
        (sv.x_upper (solverAfter sv expf st w j).1) 0 0 = GSL_CONTINUE) ∧
    (setFree sv expf st w).status
      = sv.test_interval
          (sv.x_lower (solverAfter sv expf st w (setFree sv expf st w).iter).1)
          (sv.x_upper (solverAfter sv expf st w (setFree sv expf st w).iter).1) 0 0 ∧
    (setFree sv expf st w).status
      = sv.test_interval (sv.x_lower (setFree sv expf st w).solver)
          (sv.x_upper (setFree sv expf st w).solver) 0 0 ∧
    ((setFree sv expf st w).status = 0 ↔
      sv.test_interval (sv.x_lower (setFree sv expf st w).solver)
          (sv.x_upper (setFree sv expf st w).solver) 0 0 = GSL_SUCCESS) ∧
    (sv.test_interval (sv.x_lower (setFree sv expf st w).solver)
          (sv.x_upper (setFree sv expf st w).solver) 0 0 = GSL_CONTINUE →
      (setFree sv expf st w).iter = 100 ∧ (setFree sv expf st w).status = GSL_CONTINUE ∧
      (setFree sv expf st w).status ≠ 0) := by
  obtain ⟨b1, b2, b3, b4, b5, b6⟩ := setFree_after sv expf st w
  have h3 := setFree_status sv expf st w
  refine ⟨b1, b2, b3, b4, b5, ?_, h3, ?_, ?_⟩
  · rw [← b3]
    exact h3
  · rw [← h3]
    exact Iff.rfl
  · intro hc
    rw [← h3] at hc
    refine ⟨b6 hc, hc, ?_⟩
    rw [hc]
    decide

/-- The state of the solver that never converges counts the calls of `iterate`. -/
theorem stall_after {β : Type} [Field β] (expf : β → β) (st : Nat) (w : mWorkspace β) :
    ∀ k : Nat, (solverAfter (stallSolver β) expf st w k).1 = st + k := by
  intro k
  induction k with
  | zero => rfl
  | succ k ih =>
    rw [solverAfter]
    show (solverAfter (stallSolver β) expf st w k).1 + 1 = st + (k + 1)
    rw [ih]
    rfl

/-- A witness of C10: the solver that never converges and counts the calls of
`iterate`, on a lattice of one site. -/
theorem setFree_iterations_witness :
    (stallSolver ℝ).test_interval
      ((stallSolver ℝ).x_lower
        (setFree (stallSolver ℝ) Real.exp 0 (sampleWorkspace ℝ 1)).solver)
      ((stallSolver ℝ).x_upper
        (setFree (stallSolver ℝ) Real.exp 0 (sampleWorkspace ℝ 1)).solver)
      0 0 = GSL_CONTINUE ∧
    (setFree (stallSolver ℝ) Real.exp 0 (sampleWorkspace ℝ 1)).iter = 100 ∧
    (setFree (stallSolver ℝ) Real.exp 0 (sampleWorkspace ℝ 1)).status ≠ 0 ∧
    (setFree (stallSolver ℝ) Real.exp 0 (sampleWorkspace ℝ 1)).solver = 100 :=
  ⟨rfl,
    ((setFree_iterations (stallSolver ℝ) Real.exp 0 (sampleWorkspace ℝ 1)).2.2.2.2.2.2.2.2
      rfl).1,
    ((setFree_iterations (stallSolver ℝ) Real.exp 0 (sampleWorkspace ℝ 1)).2.2.2.2.2.2.2.2
      rfl).2.2,
    (setFree_iterations (stallSolver ℝ) Real.exp 0 (sampleWorkspace ℝ 1)).2.2.1.trans (by
      rw [((setFree_iterations (stallSolver ℝ) Real.exp 0
        (sampleWorkspace ℝ 1)).2.2.2.2.2.2.2.2 rfl).1, stall_after])⟩

end Iterations

/-! ## The free-ligand solver with the interval test of the GSL -/

section IntervalTest

variable {σ α : Type} [LinearOrderedField α]

/-- With both tolerances `0` the interval test of the GSL cannot report success: it
answers `GSL_EINVAL` for a lower bound above the upper bound and `GSL_CONTINUE`
otherwise. -/
theorem gsl_root_test_interval_zero (a b : α) :
    gsl_root_test_interval a b 0 0 = if a > b then GSL_EINVAL else GSL_CONTINUE := by
  unfold gsl_root_test_interval
  rw [if_neg (lt_irrefl (0 : α)), if_neg (lt_irrefl (0 : α))]
  by_cases hab : a > b
  · rw [if_pos hab, if_pos hab]
  · rw [if_neg hab, if_neg hab]
    have h0 : ¬ (|b - a| < 0 + 0 * (if (a > 0 ∧ b > 0) ∨ (a < 0 ∧ b < 0) then min |a| |b|
        else 0)) := by
      rw [zero_mul, add_zero]
      exact not_lt.mpr (abs_nonneg _)
    exact if_neg h0

theorem gsl_root_test_interval_zero_ne (a b : α) : gsl_root_test_interval a b 0 0 ≠ 0 := by
  rw [gsl_root_test_interval_zero]
  split <;> decide

/-- With the interval test of the GSL, `setFree` never returns `0`: its status is
`GSL_CONTINUE`, or `GSL_EINVAL` when the solver left a lower bound above the upper
bound. -/
theorem setFree_gsl_status (sv : RootSolver σ α) (hti : sv.test_interval = gsl_root_test_interval)
    (expf : α → α) (st : σ) (w : mWorkspace α) :
    (setFree sv expf st w).status ≠ 0 ∧
    ((setFree sv expf st w).status = GSL_CONTINUE ∨
      (setFree sv expf st w).status = GSL_EINVAL) := by
  rw [setFree_status sv expf st w, hti]
  refine ⟨gsl_root_test_interval_zero_ne _ _, ?_⟩
  rw [gsl_root_test_interval_zero]
  split
  · exact Or.inr rfl
  · exact Or.inl rfl

/-- C11. With the interval test of the GSL, for every solver, every solver state
and every workspace: when `gsl_root_fsolver_set` reports an error on the bracket
`[0, Ltot]` (as it does when the residual has no sign change there), and when a call
of `gsl_root_fsolver_iterate` reports an error, `setFree` returns a nonzero status.
It does so in every case: the status is `GSL_CONTINUE` or `GSL_EINVAL`, the answer of
the interval test at tolerances `0.0`, which replaces the status of `iterate`. -/
theorem setFree_reports_failure (sv : RootSolver σ α)
    (hti : sv.test_interval = gsl_root_test_interval)
    (expf : α → α) (st : σ) (w : mWorkspace α) :
    ((sv.set st (fun x => (getFree expf x w).1) 0 w.Ltot).1 ≠ 0 →
      (setFree sv expf st w).status ≠ 0) ∧
    (∀ j, j < (setFree sv expf st w).iter →
      (sv.iterate (solverAfter sv expf st w j).1
        (fun x => (getFree expf x (solverAfter sv expf st w j).2).1)).1 ≠ 0 →
      (setFree sv expf st w).status ≠ 0) ∧
    (setFree sv expf st w).status ≠ 0 ∧
    ((setFree sv expf st w).status = GSL_CONTINUE ∨
      (setFree sv expf st w).status = GSL_EINVAL) := by
  obtain ⟨h1, h2⟩ := setFree_gsl_status sv hti expf st w
  exact ⟨fun _ => h1, fun _ _ _ => h1, h1, h2⟩

/-- A witness of C11: one site with `Ptot = -1e-6` and `Ltot = 5e-6`, where the
residual is positive at both ends of the bracket, and a solver whose `set` and
`iterate` report `GSL_EINVAL`. -/
theorem setFree_reports_failure_witness :
    (faultySolver ℝ).test_interval = gsl_root_test_interval ∧
    ((faultySolver ℝ).set (0, 0)
      (fun x => (getFree Real.exp x
        (conditions (setupModelWorkspace (sampleHeap ℝ) (sampleWorkspace ℝ 1)).2
          [0, -5000] 298.15 (-1e-6) 5e-6 0)).1) 0 5e-6).1 ≠ 0 ∧
    (setFree (faultySolver ℝ) Real.exp (0, 0)
      (conditions (setupModelWorkspace (sampleHeap ℝ) (sampleWorkspace ℝ 1)).2
        [0, -5000] 298.15 (-1e-6) 5e-6 0)).status ≠ 0 :=
  ⟨rfl, by decide,
    (setFree_reports_failure (faultySolver ℝ) rfl Real.exp (0, 0)
      (conditions (setupModelWorkspace (sampleHeap ℝ) (sampleWorkspace ℝ 1)).2
        [0, -5000] 298.15 (-1e-6) 5e-6 0)).1 (by decide)⟩

end IntervalTest

section NoSuccess

end NoSuccess

/-! ## The titration drivers -/

section Drivers

variable {σ α : Type} [Field α]

/-- The body of the loop of `calc` in `model_trap/itc_calc.c` either returns the
nonzero status of `setFree`, leaving `Q` and `sim` as they are, or it is `solvePoint`. -/
theorem calcStep_cases (sv : RootSolver σ α) (expf : α → α) (P L : List α) (i : Nat)
    (s : CalcResult σ α) :
    ((solvePoint sv expf P L i s).status ≠ 0 →
      calcStep sv expf P L i s = Except.error
        { s with status := (solvePoint sv expf P L i s).status,
                 solver := (solvePoint sv expf P L i s).solver,
                 model := (solvePoint sv expf P L i s).model }) ∧
    ((solvePoint sv expf P L i s).status = 0 →
      calcStep sv expf P L i s = Except.ok (solvePoint sv expf P L i s)) := by
  refine ⟨?_, ?_⟩
  · intro hne
    unfold calcStep
    exact if_pos hne
  · intro he
    unfold calcStep
    exact if_neg (fun hne => hne he)

/-- While `setFree` returns `0`, the loop of `calc` is a plain loop over `solvePoint`. -/
theorem calcLoop_ok (sv : RootSolver σ α) (expf : α → α) (P L : List α)
    (s0 : CalcResult σ α) : ∀ (m : Nat),
    (∀ i, i < m →
      (solvePoint sv expf P L i (forLoop i (solvePoint sv expf P L) s0)).status = 0) →
    forLoopRet m (calcStep sv expf P L) s0
      = Except.ok (forLoop m (solvePoint sv expf P L) s0) := by
  intro m
  induction m with
  | zero => intro _; rfl
  | succ m ih =>
    intro hall
    rw [forLoopRet, ih (fun i hi => hall i (Nat.lt_succ_of_lt hi))]
    exact (calcStep_cases sv expf P L m _).2 (hall m (Nat.lt_succ_self m))

/-- When `setFree` first returns a nonzero status at point `k`, the loop of `calc`
returns at point `k`, whatever the number `m > k` of points. -/
theorem calcLoop_error (sv : RootSolver σ α) (expf : α → α) (P L : List α)
    (s0 : CalcResult σ α) (k : Nat)
    (hall : ∀ i, i < k →
      (solvePoint sv expf P L i (forLoop i (solvePoint sv expf P L) s0)).status = 0)
    (hk : (solvePoint sv expf P L k (forLoop k (solvePoint sv expf P L) s0)).status ≠ 0) :
    ∀ (m : Nat), k < m →
    forLoopRet m (calcStep sv expf P L) s0
      = Except.error
        { forLoop k (solvePoint sv expf P L) s0 with
          status := (solvePoint sv expf P L k (forLoop k (solvePoint sv expf P L) s0)).status,
          solver := (solvePoint sv expf P L k (forLoop k (solvePoint sv expf P L) s0)).solver,
          model := (solvePoint sv expf P L k (forLoop k (solvePoint sv expf P L) s0)).model } := by
  intro m
  induction m with
  | zero => intro hlt; exact absurd hlt (Nat.not_lt_zero k)
  | succ m ih =>
    intro hlt
    rw [forLoopRet]
    by_cases hkm : k = m
    · subst hkm
      rw [calcLoop_ok sv expf P L s0 k hall]
      exact (calcStep_cases sv expf P L k _).1 hk
    · rw [ih (by omega)]

/-- The arrays `Q` and `sim` after `k` solved points: `Q` keeps its length, the
entries from `k` on are those on entry, and entry `i < k` is the heat computed from
the model that `setFree` left at point `i`. -/
theorem solvedPoints_Q (sv : RootSolver σ α) (expf : α → α) (P L : List α)
    (s0 : CalcResult σ α) : ∀ (k : Nat),
    (forLoop k (solvePoint sv expf P L) s0).sim = s0.sim ∧
    (forLoop k (solvePoint sv expf P L) s0).Q.length = s0.Q.length ∧
    (∀ j, k ≤ j → rd (forLoop k (solvePoint sv expf P L) s0).Q j = rd s0.Q j) ∧
    (∀ i, i < k → i < s0.Q.length →
      rd (forLoop k (solvePoint sv expf P L) s0).Q i
        = getQ s0.sim
            (solvePoint sv expf P L i (forLoop i (solvePoint sv expf P L) s0)).model) := by
  intro k
  induction k with
  | zero =>
    exact ⟨rfl, rfl, fun _ _ => rfl, fun i hi => absurd hi (Nat.not_lt_zero i)⟩
  | succ k ih =>
    obtain ⟨h1, h2, h3, h4⟩ := ih
    rw [forLoop_succ]
    have hQ : (solvePoint sv expf P L k (forLoop k (solvePoint sv expf P L) s0)).Q
        = (forLoop k (solvePoint sv expf P L) s0).Q.set k
            (getQ (forLoop k (solvePoint sv expf P L) s0).sim
              (solvePoint sv expf P L k (forLoop k (solvePoint sv expf P L) s0)).model) := rfl
    refine ⟨h1, ?_, ?_, ?_⟩
    · rw [hQ, List.length_set, h2]
    · intro j hj
      rw [hQ, rd_set_ne _ _ _ _ (by omega), h3 j (by omega)]
    · intro i hi hil
      by_cases hik : i = k
      · subst hik
        rw [hQ, rd_set_self _ _ _ (by rw [h2]; exact hil), h1]
      · rw [hQ, rd_set_ne _ _ _ _ (Ne.symm hik)]
        exact h4 i (by omega) hil

/-- The function `calc` of `library_2par.c` returns `0` on every input. -/
theorem calc_2par_status (sv : RootSolver σ α) (expf : α → α)
    (assignEnergies : mWorkspace α → sWorkspace α → α → α → mWorkspace α × sWorkspace α)
    (h : Heap α) (st : σ) (model0 : mWorkspace α)
    (P L Q : List α) (n : Int) (size : Nat) (cyclic : Int) (temp : α) (params : List α) :
    (calc_2par sv expf assignEnergies h st model0 P L Q n size cyclic temp params).status = 0 :=
  rfl

/-- C9 fails on the code.  One point on a lattice of one site, the simple energy
model with `Gbind = -5000`, `Hbind = -8000`, and a solver that does not converge:
`setFree` returns the nonzero status `GSL_CONTINUE` at point `0`, and `calc` of
`library_2par.c` nevertheless overwrites `Q[0]` (`7` on entry) with a heat and
returns `0`. -/
theorem calc_2par_ignores_failure :
    (solvePoint (stallSolver ℝ) Real.exp [1e-6] [5e-6] 0
      (twoParStart Simple.assignEnergies (sampleHeap ℝ) 0 (sampleWorkspace ℝ 0) [7] 1 0 298.15
        [-5000, -8000])).status = GSL_CONTINUE ∧
    GSL_CONTINUE ≠ 0 ∧
    (calc_2par (stallSolver ℝ) Real.exp Simple.assignEnergies (sampleHeap ℝ) 0
      (sampleWorkspace ℝ 0) [1e-6] [5e-6] [7] 1 1 0 298.15 [-5000, -8000]).status = 0 ∧
    (calc_2par (stallSolver ℝ) Real.exp Simple.assignEnergies (sampleHeap ℝ) 0
      (sampleWorkspace ℝ 0) [1e-6] [5e-6] [7] 1 1 0 298.15 [-5000, -8000]).Q = [0] := by
  refine ⟨setFree_stall Real.exp _ _, by decide, rfl, ?_⟩
  show ([7] : List ℝ).set 0 (getQ _ (setFree (stallSolver ℝ) Real.exp _ _).model) = [0]
  rw [setFree_stall_model]
  show [getQ _ _] = [(0 : ℝ)]
  congr 1
  rw [getQ_sum]
  show ∑ i in Finset.range 2, _ = (0 : ℝ)
  rw [Finset.sum_range_succ, Finset.sum_range_one]
  show (0 : ℝ) * 0 + (0 + -8000) * 0 = 0
  norm_num

end Drivers

/-! ## The neighbour models: the common loops -/

section Accum

variable {α : Type} [Field α]

theorem set_eq_of_le {β : Type} (xs : List β) (i : Nat) (v : β) (h : xs.length ≤ i) :
    xs.set i v = xs := by
  induction xs generalizing i with
  | nil => rfl
  | cons x xs ih =>
    cases i with
    | zero => simp at h
    | succ k =>
      simp only [List.set_cons_succ]
      rw [ih k (by simpa using h)]

theorem set_rd_self (xs : List α) (i : Nat) : xs.set i (rd xs i) = xs := by
  induction xs generalizing i with
  | nil => rfl
  | cons x xs ih =>
    cases i with
    | zero => simp [rd]
    | succ k =>
      have e : rd (x :: xs) (k + 1) = rd xs k := by simp [rd]
      rw [e, List.set_cons_succ, ih k]

/-- Two writes to the same entry, the second one an accumulation. -/
theorem set_set_rd (xs : List α) (i : Nat) (a e : α) :
    (xs.set i a).set i (rd (xs.set i a) i + e) = xs.set i (a + e) := by
  by_cases h : i < xs.length
  · rw [rd_set_self _ _ _ h, List.set_set]
  · have hle : xs.length ≤ i := Nat.le_of_not_lt h
    rw [set_eq_of_le xs i a hle, set_eq_of_le xs i _ hle, set_eq_of_le xs i _ hle]

theorem list_ext_rd (xs ys : List α) (hl : xs.length = ys.length)
    (h : ∀ i, i < xs.length → rd xs i = rd ys i) : xs = ys := by
  apply List.ext_getElem hl
  intro i h1 h2
  have := h i h1
  rwa [rd_eq_getElem xs i h1, rd_eq_getElem ys i h2] at this

theorem bump_eq (i : Nat) (e h : α) (t : mWorkspace α × sWorkspace α) :
    bump i e h t
      = ({ t.1 with energies := t.1.energies.set i (rd t.1.energies i + e) },
         { enthalpies := t.2.enthalpies.set i (rd t.2.enthalpies i + h) }) := rfl

theorem bump_bump (i : Nat) (e1 h1 e2 h2 : α) (t : mWorkspace α × sWorkspace α) :
    bump i e2 h2 (bump i e1 h1 t) = bump i (e1 + e2) (h1 + h2) t := by
  simp only [bump_eq]
  rw [set_set_rd, set_set_rd, add_assoc, add_assoc]

theorem bump_zero (i : Nat) (t : mWorkspace α × sWorkspace α) : bump i 0 0 t = t := by
  simp only [bump_eq, add_zero, set_rd_self]

/-- The loop over the sites of one configuration adds up what the occupied sites
contribute. -/
theorem accumInner (gE gH : List (List Int) → Nat → Nat → Nat → α) (i : Nat)
    (t0 : mWorkspace α × sWorkspace α) : ∀ k : Nat,
    forLoop k (fun j (t : mWorkspace α × sWorkspace α) =>
      if rd2 t.1.configs i j > 0 then
        bump i (gE t.1.configs t.1.size i j) (gH t.1.configs t.1.size i j) t
      else t) t0
    = bump i
        (∑ j in Finset.range k,
          if rd2 t0.1.configs i j > 0 then gE t0.1.configs t0.1.size i j else 0)
        (∑ j in Finset.range k,
          if rd2 t0.1.configs i j > 0 then gH t0.1.configs t0.1.size i j else 0) t0 := by
  intro k
  induction k with
  | zero => simp [forLoop, bump_zero]
  | succ k ih =>
    rw [forLoop_succ, ih, Finset.sum_range_succ, Finset.sum_range_succ]
    have hc : ∀ (e h : α), (bump i e h t0).1.configs = t0.1.configs := fun _ _ => rfl
    have hs : ∀ (e h : α), (bump i e h t0).1.size = t0.1.size := fun _ _ => rfl
    simp only [hc, hs]
    by_cases hocc : rd2 t0.1.configs i k > 0
    · simp only [hocc, if_true]
      rw [bump_bump]
    · simp only [hocc, if_false, add_zero]

/-- One pass of the loop over the configurations stores both sums at index `i`. -/
theorem accumBody (gE gH : List (List Int) → Nat → Nat → Nat → α) (i : Nat)
    (s : mWorkspace α × sWorkspace α) :
    forLoop s.1.size (fun j (t : mWorkspace α × sWorkspace α) =>
      if rd2 t.1.configs i j > 0 then
        bump i (gE t.1.configs t.1.size i j) (gH t.1.configs t.1.size i j) t
      else t)
      ({ s.1 with energies := s.1.energies.set i 0 }, { enthalpies := s.2.enthalpies.set i 0 })
    = ({ s.1 with energies := s.1.energies.set i (∑ j in Finset.range s.1.size,
            if rd2 s.1.configs i j > 0 then gE s.1.configs s.1.size i j else 0) },
       { enthalpies := s.2.enthalpies.set i (∑ j in Finset.range s.1.size,
            if rd2 s.1.configs i j > 0 then gH s.1.configs s.1.size i j else 0) }) := by
  rw [accumInner]
  simp only [bump_eq]
  rw [set_set_rd, set_set_rd, zero_add, zero_add]

theorem frame_set_energies {β : Type} (a w : mWorkspace β) (X : List β)
    (h : a = { w with energies := a.energies }) :
    ({ a with energies := X } : mWorkspace β) = { w with energies := X } := by
  cases a
  cases w
  simp only [mWorkspace.mk.injEq] at h ⊢
  obtain ⟨h1, h2, h3, h4, h5, h6, h7, h8, h9, _, h11⟩ := h
  exact ⟨h1, h2, h3, h4, h5, h6, h7, h8, h9, trivial, h11⟩

/-- The state after `m` passes of the loop over the configurations. -/
theorem accumEnergies_prefix (gE gH : List (List Int) → Nat → Nat → Nat → α)
    (w : mWorkspace α) (sim : sWorkspace α) : ∀ m : Nat,
    (forLoop m (fun i (s : mWorkspace α × sWorkspace α) =>
      forLoop s.1.size (fun j (t : mWorkspace α × sWorkspace α) =>
        if rd2 t.1.configs i j > 0 then
          bump i (gE t.1.configs t.1.size i j) (gH t.1.configs t.1.size i j) t
        else t)
        ({ s.1 with energies := s.1.energies.set i 0 },
         { enthalpies := s.2.enthalpies.set i 0 })) (w, sim)).1
      = { w with energies := (forLoop m (fun i (s : mWorkspace α × sWorkspace α) =>
      forLoop s.1.size (fun j (t : mWorkspace α × sWorkspace α) =>
        if rd2 t.1.configs i j > 0 then
          bump i (gE t.1.configs t.1.size i j) (gH t.1.configs t.1.size i j) t
        else t)
        ({ s.1 with energies := s.1.energies.set i 0 },
         { enthalpies := s.2.enthalpies.set i 0 })) (w, sim)).1.energies } ∧
    (forLoop m (fun i (s : mWorkspace α × sWorkspace α) =>
      forLoop s.1.size (fun j (t : mWorkspace α × sWorkspace α) =>
        if rd2 t.1.configs i j > 0 then
          bump i (gE t.1.configs t.1.size i j) (gH t.1.configs t.1.size i j) t
        else t)
        ({ s.1 with energies := s.1.energies.set i 0 },
         { enthalpies := s.2.enthalpies.set i 0 })) (w, sim)).1.energies.length
      = w.energies.length ∧
    (forLoop m (fun i (s : mWorkspace α × sWorkspace α) =>
      forLoop s.1.size (fun j (t : mWorkspace α × sWorkspace α) =>
        if rd2 t.1.configs i j > 0 then
          bump i (gE t.1.configs t.1.size i j) (gH t.1.configs t.1.size i j) t
        else t)
        ({ s.1 with energies := s.1.energies.set i 0 },
         { enthalpies := s.2.enthalpies.set i 0 })) (w, sim)).2.enthalpies.length
      = sim.enthalpies.length ∧
    (∀ i, i < m → i < w.energies.length →
      rd (forLoop m (fun i (s : mWorkspace α × sWorkspace α) =>
      forLoop s.1.size (fun j (t : mWorkspace α × sWorkspace α) =>
        if rd2 t.1.configs i j > 0 then
          bump i (gE t.1.configs t.1.size i j) (gH t.1.configs t.1.size i j) t
        else t)
        ({ s.1 with energies := s.1.energies.set i 0 },
         { enthalpies := s.2.enthalpies.set i 0 })) (w, sim)).1.energies i
        = siteSum gE w.configs w.size i) ∧
    (∀ i, m ≤ i →
      rd (forLoop m (fun i (s : mWorkspace α × sWorkspace α) =>
      forLoop s.1.size (fun j (t : mWorkspace α × sWorkspace α) =>
        if rd2 t.1.configs i j > 0 then
          bump i (gE t.1.configs t.1.size i j) (gH t.1.configs t.1.size i j) t
        else t)
        ({ s.1 with energies := s.1.energies.set i 0 },
         { enthalpies := s.2.enthalpies.set i 0 })) (w, sim)).1.energies i
        = rd w.energies i) ∧
    (∀ i, i < m → i < sim.enthalpies.length →
      rd (forLoop m (fun i (s : mWorkspace α × sWorkspace α) =>
      forLoop s.1.size (fun j (t : mWorkspace α × sWorkspace α) =>
        if rd2 t.1.configs i j > 0 then
          bump i (gE t.1.configs t.1.size i j) (gH t.1.configs t.1.size i j) t
        else t)
        ({ s.1 with energies := s.1.energies.set i 0 },
         { enthalpies := s.2.enthalpies.set i 0 })) (w, sim)).2.enthalpies i
        = siteSum gH w.configs w.size i) ∧
    (∀ i, m ≤ i →
      rd (forLoop m (fun i (s : mWorkspace α × sWorkspace α) =>
      forLoop s.1.size (fun j (t : mWorkspace α × sWorkspace α) =>
        if rd2 t.1.configs i j > 0 then
          bump i (gE t.1.configs t.1.size i j) (gH t.1.configs t.1.size i j) t
        else t)
        ({ s.1 with energies := s.1.energies.set i 0 },
         { enthalpies := s.2.enthalpies.set i 0 })) (w, sim)).2.enthalpies i
        = rd sim.enthalpies i) := by
  intro m
  induction m with
  | zero =>
    exact ⟨rfl, rfl, rfl, fun i hi => absurd hi (Nat.not_lt_zero i), fun _ _ => rfl,
      fun i hi => absurd hi (Nat.not_lt_zero i), fun _ _ => rfl⟩
  | succ m ih =>
    rw [forLoop_succ]
    generalize forLoop m (fun i (s : mWorkspace α × sWorkspace α) =>
      forLoop s.1.size (fun j (t : mWorkspace α × sWorkspace α) =>
        if rd2 t.1.configs i j > 0 then
          bump i (gE t.1.configs t.1.size i j) (gH t.1.configs t.1.size i j) t
        else t)
        ({ s.1 with energies := s.1.energies.set i 0 },
         { enthalpies := s.2.enthalpies.set i 0 })) (w, sim) = s at ih
    obtain ⟨f1, l1, l2, e1, e2, h1, h2⟩ := ih
    have hcf : s.1.configs = w.configs := by rw [f1]
    have hsz : s.1.size = w.size := by rw [f1]
    rw [accumBody gE gH m s]
    refine ⟨?_, ?_, ?_, ?_, ?_, ?_, ?_⟩
    · exact frame_set_energies s.1 w _ f1
    · show (List.set _ _ _).length = _
      rw [List.length_set, l1]
    · show (List.set _ _ _).length = _
      rw [List.length_set, l2]
    · intro i hi hil
      show rd (List.set _ _ _) i = _
      by_cases him : i = m
      · subst him
        rw [rd_set_self _ _ _ (by rw [l1]; exact hil), hcf, hsz]
        rfl
      · rw [rd_set_ne _ _ _ _ (Ne.symm him)]
        exact e1 i (by omega) hil
    · intro i hi
      show rd (List.set _ _ _) i = _
      rw [rd_set_ne _ _ _ _ (by omega)]
      exact e2 i (by omega)
    · intro i hi hil
      show rd (List.set _ _ _) i = _
      by_cases him : i = m
      · subst him
        rw [rd_set_self _ _ _ (by rw [l2]; exact hil), hcf, hsz]
        rfl
      · rw [rd_set_ne _ _ _ _ (Ne.symm him)]
        exact h1 i (by omega) hil
    · intro i hi
      show rd (List.set _ _ _) i = _
      rw [rd_set_ne _ _ _ _ (by omega)]
      exact h2 i (by omega)

/-- What the shared loops leave behind: only `energies` and `enthalpies` change,
they keep their lengths, every entry below `2 ^ size` is the sum over the occupied
sites of its configuration, and the entries from `2 ^ size` on are not written. -/
theorem accumEnergies_spec (gE gH : List (List Int) → Nat → Nat → Nat → α)
    (w : mWorkspace α) (sim : sWorkspace α) :
    (accumEnergies gE gH w sim).1
      = { w with energies := (accumEnergies gE gH w sim).1.energies } ∧
    (accumEnergies gE gH w sim).1.energies.length = w.energies.length ∧
    (accumEnergies gE gH w sim).2.enthalpies.length = sim.enthalpies.length ∧
    (∀ i, i < 2 ^ w.size → i < w.energies.length →
      rd (accumEnergies gE gH w sim).1.energies i = siteSum gE w.configs w.size i) ∧
    (∀ i, 2 ^ w.size ≤ i → rd (accumEnergies gE gH w sim).1.energies i = rd w.energies i) ∧
    (∀ i, i < 2 ^ w.size → i < sim.enthalpies.length →
      rd (accumEnergies gE gH w sim).2.enthalpies i = siteSum gH w.configs w.size i) ∧
    (∀ i, 2 ^ w.size ≤ i →
      rd (accumEnergies gE gH w sim).2.enthalpies i = rd sim.enthalpies i) :=
  accumEnergies_prefix gE gH w sim (2 ^ w.size)

theorem addEnthalpy_addEnergy (i : Nat) (e h : α) (t : mWorkspace α × sWorkspace α) :
    addEnthalpy i h (addEnergy i e t) = bump i e h t := rfl

theorem bump_configs (i : Nat) (e h : α) (t : mWorkspace α × sWorkspace α) :
    (bump i e h t).1.configs = t.1.configs := rfl

theorem bump_size (i : Nat) (e h : α) (t : mWorkspace α × sWorkspace α) :
    (bump i e h t).1.size = t.1.size := rfl

/-- The additive 3-parameter model of `energies_sk.c` has the common shape. -/
theorem sk_eq_accum (w : mWorkspace α) (sim : sWorkspace α) (Ga Gb Gc Ha Hb Hc : α) :
    Sk.assignEnergies w sim Ga Gb Gc Ha Hb Hc
      = accumEnergies (skTerm Ga Gb Gc) (skTerm Ha Hb Hc) w sim := by
  unfold Sk.assignEnergies accumEnergies
  congr 1
  funext i s
  show forLoop _ _ _ = forLoop _ _ _
  congr 1
  funext j t
  by_cases h0 : rd2 t.1.configs i j > 0
  · by_cases h1 : rdI t.1.configs i (permute ((j : Int) + 1) t.1.size) > 0 <;>
    by_cases h2 : rdI t.1.configs i (permute ((j : Int) - 1) t.1.size) > 0 <;>
    simp only [addEnthalpy_addEnergy, bump_configs, bump_size, h0, h1, h2, if_true, if_false,
      bump_bump, skTerm]
  · simp only [h0, if_false]

/-- The additive 3-parameter model of `model_trap/energies_sk.c` has the common shape. -/
theorem skTrap_eq_accum (w : mWorkspace α) (sim : sWorkspace α) (params : List α) :
    SkTrap.assignEnergies w sim params
      = accumEnergies (skTerm (rd params 0) (rd params 1) (rd params 2))
          (skTerm (rd params 3) (rd params 4) (rd params 5)) w sim := by
  unfold SkTrap.assignEnergies accumEnergies
  congr 1
  funext i s
  show forLoop _ _ _ = forLoop _ _ _
  congr 1
  funext j t
  by_cases h0 : rd2 t.1.configs i j > 0
  · by_cases h1 : rdI t.1.configs i (permute ((j : Int) + 1) t.1.size) > 0 <;>
    by_cases h2 : rdI t.1.configs i (permute ((j : Int) - 1) t.1.size) > 0 <;>
    simp only [addEnthalpy_addEnergy, bump_configs, bump_size, h0, h1, h2, if_true, if_false,
      bump_bump, skTerm]
  · simp only [h0, if_false]

/-- The AB model has the common shape. -/
theorem ab_eq_accum (w : mWorkspace α) (sim : sWorkspace α) (params : List α) :
    Ab.assignEnergies w sim params
      = accumEnergies (abTerm (rd params 0) (rd params 1) (rd params 2))
          (abTerm (rd params 3) (rd params 4) (rd params 5)) w sim := by
  unfold Ab.assignEnergies accumEnergies
  congr 1
  funext i s
  show forLoop _ _ _ = forLoop _ _ _
  congr 1
  funext j t
  by_cases h0 : rd2 t.1.configs i j > 0
  · by_cases hp : i % 2 = 0 <;>
    by_cases h1 : rdI t.1.configs i (permute ((j : Int) + 1) t.1.size) > 0 <;>
    by_cases h2 : rdI t.1.configs i (permute ((j : Int) - 1) t.1.size) > 0 <;>
    simp only [addEnthalpy_addEnergy, bump_configs, bump_size, h0, hp, h1, h2, if_true,
      if_false, bump_bump, abTerm, add_zero]
  · simp only [h0, if_false]

/-- The IK model has the common shape. -/
theorem ik_eq_accum (w : mWorkspace α) (sim : sWorkspace α) (params : List α) :
    Ik.assignEnergies w sim params
      = accumEnergies (ikTerm (rd params 0) (rd params 1) (rd params 2))
          (ikTerm (rd params 3) (rd params 4) (rd params 5)) w sim := by
  unfold Ik.assignEnergies accumEnergies
  congr 1
  funext i s
  show forLoop _ _ _ = forLoop _ _ _
  congr 1
  funext j t
  by_cases h0 : rd2 t.1.configs i j > 0
  · by_cases h1 : rdI t.1.configs i (permute ((j : Int) + 1) t.1.size) > 0 <;>
    by_cases h2 : rdI t.1.configs i (permute ((j : Int) - 1) t.1.size) > 0 <;>
    simp only [addEnthalpy_addEnergy, h0, h1, h2, if_true, if_false, ikTerm, and_self,
      and_true, and_false, or_self, or_true, or_false, true_and, false_and, true_or, false_or]
  · simp only [h0, if_false]

/-- The model of `energies_ian.c` has the common shape. -/
theorem ian_eq_accum (w : mWorkspace α) (sim : sWorkspace α)
    (Gbind Gone Gtwo Hnone Hone Htwo : α) :
    Ian.assignEnergies w sim Gbind Gone Gtwo Hnone Hone Htwo
      = accumEnergies (ikTerm Gbind Gone Gtwo) (ikTerm Hnone Hone Htwo) w sim := by
  unfold Ian.assignEnergies accumEnergies
  congr 1
  funext i s
  show forLoop _ _ _ = forLoop _ _ _
  congr 1
  funext j t
  by_cases h0 : rd2 t.1.configs i j > 0
  · by_cases h1 : rdI t.1.configs i (permute ((j : Int) + 1) t.1.size) > 0 <;>
    by_cases h2 : rdI t.1.configs i (permute ((j : Int) - 1) t.1.size) > 0 <;>
    simp only [addEnthalpy_addEnergy, h0, h1, h2, if_true, if_false, ikTerm, and_self,
      and_true, and_false, or_self, or_true, or_false, true_and, false_and, true_or, false_or]
  · simp only [h0, if_false]

/-- The NN model has the common shape. -/
theorem nn_eq_accum (w : mWorkspace α) (sim : sWorkspace α) (params : List α) :
    Nn.assignEnergies w sim params
      = accumEnergies (nnTerm (rd params 0) (rd params 1) (rd params 2) (rd params 3))
          (nnTerm (rd params 4) (rd params 5) (rd params 6) (rd params 7)) w sim := by
  unfold Nn.assignEnergies accumEnergies
  congr 1
  funext i s
  show forLoop _ _ _ = forLoop _ _ _
  congr 1
  funext j t
  by_cases h0 : rd2 t.1.configs i j > 0
  · simp only [addEnthalpy_addEnergy, bump_configs, bump_size, h0, if_true, nnTerm, nnPattern]
    split_ifs <;> simp only [bump_bump, add_zero]
  · simp only [h0, if_false]

end Accum

/-! ## The free-ligand solver: what reaches the caller -/

section SolverState

variable {σ α : Type} [Field α]

theorem replay_append (expf : α → α) (xs ys : List α) (w : mWorkspace α) :
    replay expf (xs ++ ys) w = replay expf ys (replay expf xs w) := by
  unfold replay
  rw [List.foldl_append]

/-- The calls of the objective change only `Lfree` and `probs`, and keep the
length of `probs`. -/
theorem replay_frame (expf : α → α) : ∀ (xs : List α) (w : mWorkspace α),
    2 ^ w.size ≤ w.probs.length →
    (replay expf xs w).size = w.size ∧ (replay expf xs w).temp = w.temp ∧
    (replay expf xs w).Ptot = w.Ptot ∧ (replay expf xs w).Ltot = w.Ltot ∧
    (replay expf xs w).Pfree = w.Pfree ∧ (replay expf xs w).cyclic = w.cyclic ∧
    (replay expf xs w).configs = w.configs ∧ (replay expf xs w).bound = w.bound ∧
    (replay expf xs w).energies = w.energies ∧
    (replay expf xs w).probs.length = w.probs.length := by
  intro xs
  induction xs with
  | nil => intro w _; exact ⟨rfl, rfl, rfl, rfl, rfl, rfl, rfl, rfl, rfl, rfl⟩
  | cons x xs ih =>
    intro w hlen
    have hl : (getFree expf x w).2.probs.length = w.probs.length :=
      (setProbabilities_spec expf { w with Lfree := x } hlen).1
    obtain ⟨a1, a2, a3, a4, a5, a6, a7, a8, a9, a10⟩ :=
      ih (getFree expf x w).2 (by rw [hl]; exact hlen)
    exact ⟨a1, a2, a3, a4, a5, a6, a7, a8, a9, a10.trans hl⟩

/-- After a last call of the objective at `x`, `Lfree` is `x` and `probs` holds the
weights at `x` divided by their sum. -/
theorem replay_last (expf : α → α) (ys : List α) (x : α) (w : mWorkspace α)
    (hlen : 2 ^ w.size ≤ w.probs.length) :
    (replay expf (ys ++ [x]) w).Lfree = x ∧
    (∀ i, i < 2 ^ w.size →
      rd (replay expf (ys ++ [x]) w).probs i
        = weight expf { w with Lfree := x } i
            / ∑ k in Finset.range (2 ^ w.size), weight expf { w with Lfree := x } k) := by
  obtain ⟨a1, a2, _, _, _, _, _, a8, a9, a10⟩ := replay_frame expf ys w hlen
  rw [replay_append]
  refine ⟨rfl, ?_⟩
  intro i hi
  have hp := (setProbabilities_spec expf { replay expf ys w with Lfree := x }
    (by show 2 ^ (replay expf ys w).size ≤ (replay expf ys w).probs.length
        rw [a1, a10]; exact hlen)).2 i (by show i < 2 ^ (replay expf ys w).size; rw [a1]; exact hi)
  have hw : ∀ k, weight expf { replay expf ys w with Lfree := x } k
      = weight expf { w with Lfree := x } k := by
    intro k
    show expf ((-1 * rd (replay expf ys w).energies k)
        / (83144621 / 10000000 * (replay expf ys w).temp)) * x ^ (rd (replay expf ys w).bound k)
      = expf ((-1 * rd w.energies k) / (83144621 / 10000000 * w.temp)) * x ^ (rd w.bound k)
    rw [a9, a2, a8]
  have hsz : (2 : Nat) ^ ({ replay expf ys w with Lfree := x } : mWorkspace α).size
      = 2 ^ w.size := by
    show 2 ^ (replay expf ys w).size = 2 ^ w.size
    rw [a1]
  rw [hsz] at hp
  rw [Finset.sum_congr rfl (fun k _ => hw k), hw i] at hp
  exact hp

/-- The loop of `setFree` leaves the workspace as a sequence of calls of the
objective leaves it. -/
theorem setFreeLoop_trace (sv : RootSolver σ α) (expf : α → α) (max_iter : Nat) :
    ∀ (k iter : Nat) (st : σ) (w : mWorkspace α), max_iter - iter = k →
      ∃ xs : List α, (setFreeLoop sv expf max_iter iter st w).model = replay expf xs w := by
  intro k
  induction k with
  | zero =>
    intro iter st w hk
    rw [setFreeLoop]
    have hcond : ¬ (sv.test_interval
        (sv.x_lower (sv.iterate st (fun x => (getFree expf x w).1)).2.1)
        (sv.x_upper (sv.iterate st (fun x => (getFree expf x w).1)).2.1) 0 0 = GSL_CONTINUE
        ∧ iter + 1 < max_iter) := by
      intro hc
      omega
    rw [if_neg hcond]
    exact ⟨_, rfl⟩
  | succ k ih =>
    intro iter st w hk
    rw [setFreeLoop]
    by_cases hcond : sv.test_interval
        (sv.x_lower (sv.iterate st (fun x => (getFree expf x w).1)).2.1)
        (sv.x_upper (sv.iterate st (fun x => (getFree expf x w).1)).2.1) 0 0 = GSL_CONTINUE
        ∧ iter + 1 < max_iter
    · rw [if_pos hcond]
      obtain ⟨xs, hxs⟩ := ih (iter + 1)
        (sv.iterate st (fun x => (getFree expf x w).1)).2.1
        (replay expf (sv.iterate st (fun x => (getFree expf x w).1)).2.2 w) (by omega)
      exact ⟨(sv.iterate st (fun x => (getFree expf x w).1)).2.2 ++ xs, by
        rw [hxs, replay_append]⟩
    · rw [if_neg hcond]
      exact ⟨_, rfl⟩

theorem setFree_trace (sv : RootSolver σ α) (expf : α → α) (st : σ) (w : mWorkspace α) :
    ∃ xs : List α, (setFree sv expf st w).model = replay expf xs w := by
  obtain ⟨xs, hxs⟩ := setFreeLoop_trace sv expf 100 100 0
    (sv.set st (fun x => (getFree expf x w).1) 0 w.Ltot).2.1
    (replay expf (sv.set st (fun x => (getFree expf x w).1) 0 w.Ltot).2.2 w) rfl
  exact ⟨(sv.set st (fun x => (getFree expf x w).1) 0 w.Ltot).2.2 ++ xs, by
    rw [replay_append]; exact hxs⟩

/-- Whatever the solver does, `setFree` changes only `Lfree` and `probs`; and
unless the solver never called the objective, `probs` holds the weights at the
final `Lfree` divided by their sum. -/
theorem setFree_consistent (sv : RootSolver σ α) (expf : α → α) (st : σ) (w : mWorkspace α)
    (hlen : 2 ^ w.size ≤ w.probs.length) :
    ((setFree sv expf st w).model.size = w.size ∧ (setFree sv expf st w).model.temp = w.temp ∧
      (setFree sv expf st w).model.Ptot = w.Ptot ∧ (setFree sv expf st w).model.Ltot = w.Ltot ∧
      (setFree sv expf st w).model.Pfree = w.Pfree ∧
      (setFree sv expf st w).model.cyclic = w.cyclic ∧
      (setFree sv expf st w).model.configs = w.configs ∧
      (setFree sv expf st w).model.bound = w.bound ∧
      (setFree sv expf st w).model.energies = w.energies ∧
      (setFree sv expf st w).model.probs.length = w.probs.length) ∧
    ((setFree sv expf st w).model = w ∨
      ∀ i, i < 2 ^ w.size →
        rd (setFree sv expf st w).model.probs i
          = weight expf { w with Lfree := (setFree sv expf st w).model.Lfree } i
              / ∑ k in Finset.range (2 ^ w.size),
                  weight expf { w with Lfree := (setFree sv expf st w).model.Lfree } k) := by
  obtain ⟨xs, hxs⟩ := setFree_trace sv expf st w
  rw [hxs]
  refine ⟨replay_frame expf xs w hlen, ?_⟩
  rcases List.eq_nil_or_concat xs with hnil | ⟨ys, x, hcat⟩
  · left
    rw [hnil]
    rfl
  · right
    rw [hcat, List.concat_eq_append]
    obtain ⟨hL, hp⟩ := replay_last expf ys x w hlen
    rw [hL]
    exact hp

/-- When the interval test does not answer `GSL_CONTINUE` after the first pass,
`setFree` returns after that pass. -/
theorem setFree_first_pass (sv : RootSolver σ α) (expf : α → α) (st : σ) (w : mWorkspace α)
    (h : sv.test_interval
      (sv.x_lower (sv.iterate (sv.set st (fun x => (getFree expf x w).1) 0 w.Ltot).2.1
        (fun x => (getFree expf x
          (replay expf (sv.set st (fun x => (getFree expf x w).1) 0 w.Ltot).2.2 w)).1)).2.1)
      (sv.x_upper (sv.iterate (sv.set st (fun x => (getFree expf x w).1) 0 w.Ltot).2.1
        (fun x => (getFree expf x
          (replay expf (sv.set st (fun x => (getFree expf x w).1) 0 w.Ltot).2.2 w)).1)).2.1)
      0 0 ≠ GSL_CONTINUE) :
    (setFree sv expf st w).model
      = replay expf
          (sv.iterate (sv.set st (fun x => (getFree expf x w).1) 0 w.Ltot).2.1
            (fun x => (getFree expf x
              (replay expf (sv.set st (fun x => (getFree expf x w).1) 0 w.Ltot).2.2 w)).1)).2.2
          (replay expf (sv.set st (fun x => (getFree expf x w).1) 0 w.Ltot).2.2 w) ∧
    (setFree sv expf st w).solver
      = (sv.iterate (sv.set st (fun x => (getFree expf x w).1) 0 w.Ltot).2.1
          (fun x => (getFree expf x
            (replay expf (sv.set st (fun x => (getFree expf x w).1) 0 w.Ltot).2.2 w)).1)).2.1 := by
  unfold setFree
  rw [setFreeLoop, if_neg (fun hc => h hc.1)]
  exact ⟨rfl, rfl⟩

/-- Over the reals: unless the solver never called the residual, `setFree` leaves
in `probs` the Boltzmann probabilities at the final `Lfree`, and the mass balance
at that `Lfree` misses `Ltot` by the residual there. -/
theorem setFree_mass_balance (sv : RootSolver σ ℝ) (st : σ) (w : mWorkspace ℝ)
    (hlen : 2 ^ w.size ≤ w.probs.length) :
    (setFree sv Real.exp st w).model = w ∨
    ((∀ i, i < 2 ^ w.size →
      rd (setFree sv Real.exp st w).model.probs i
        = (Real.exp (-(rd w.energies i) / (8.3144621 * w.temp))
            * (setFree sv Real.exp st w).model.Lfree ^ (rd w.bound i))
          / ∑ k in Finset.range (2 ^ w.size),
              (Real.exp (-(rd w.energies k) / (8.3144621 * w.temp))
                * (setFree sv Real.exp st w).model.Lfree ^ (rd w.bound k))) ∧
      w.Ptot * (∑ i in Finset.range (2 ^ w.size),
          rd (setFree sv Real.exp st w).model.probs i * ((rd w.bound i : Int) : ℝ))
        + (setFree sv Real.exp st w).model.Lfree
        = w.Ltot - (getFree Real.exp (setFree sv Real.exp st w).model.Lfree w).1) := by
  rcases (setFree_consistent sv Real.exp st w hlen).2 with hsame | hp
  · exact Or.inl hsame
  · right
    refine ⟨?_, ?_⟩
    · intro i hi
      rw [hp i hi, weight_real]
      congr 1
      exact Finset.sum_congr rfl (fun k _ => weight_real _ k)
    · rw [getFree_value Real.exp (setFree sv Real.exp st w).model.Lfree w]
      have hsum : ∑ i in Finset.range (2 ^ w.size),
          rd (setFree sv Real.exp st w).model.probs i * ((rd w.bound i : Int) : ℝ)
          = ∑ i in Finset.range (2 ^ w.size),
            rd (setProbabilities Real.exp
              { w with Lfree := (setFree sv Real.exp st w).model.Lfree }).probs i
              * ((rd w.bound i : Int) : ℝ) := by
        apply Finset.sum_congr rfl
        intro i hi
        rw [hp i (Finset.mem_range.mp hi),
          (setProbabilities_spec Real.exp
            { w with Lfree := (setFree sv Real.exp st w).model.Lfree } hlen).2 i
            (Finset.mem_range.mp hi)]
      rw [hsum]
      ring

end SolverState

/-! ## The driver of `model_trap/itc_calc.c` -/

section TrapDriver

variable {σ α : Type} [Field α]

/-- The solved points change only `Ptot`, `Ltot`, `Lfree` and `probs` of the model. -/
theorem solvedPoints_frame (sv : RootSolver σ α) (expf : α → α) (P L : List α)
    (s0 : CalcResult σ α) (hlen : 2 ^ s0.model.size ≤ s0.model.probs.length) : ∀ (k : Nat),
    (forLoop k (solvePoint sv expf P L) s0).model.size = s0.model.size ∧
    (forLoop k (solvePoint sv expf P L) s0).model.temp = s0.model.temp ∧
    (forLoop k (solvePoint sv expf P L) s0).model.cyclic = s0.model.cyclic ∧
    (forLoop k (solvePoint sv expf P L) s0).model.configs = s0.model.configs ∧
    (forLoop k (solvePoint sv expf P L) s0).model.bound = s0.model.bound ∧
    (forLoop k (solvePoint sv expf P L) s0).model.energies = s0.model.energies ∧
    (forLoop k (solvePoint sv expf P L) s0).model.probs.length = s0.model.probs.length := by
  intro k
  induction k with
  | zero => exact ⟨rfl, rfl, rfl, rfl, rfl, rfl, rfl⟩
  | succ k ih =>
    obtain ⟨h1, h2, h3, h4, h5, h6, h7⟩ := ih
    rw [forLoop_succ]
    obtain ⟨a1, a2, _, _, _, a6, a7, a8, a9, a10⟩ := (setFree_consistent sv expf
      (forLoop k (solvePoint sv expf P L) s0).solver
      { (forLoop k (solvePoint sv expf P L) s0).model with Ptot := rd P k, Ltot := rd L k }
      (by show 2 ^ (forLoop k (solvePoint sv expf P L) s0).model.size
            ≤ (forLoop k (solvePoint sv expf P L) s0).model.probs.length
          rw [h1, h7]; exact hlen)).1
    exact ⟨a1.trans h1, a2.trans h2, a6.trans h3, a7.trans h4, a8.trans h5, a9.trans h6,
      a10.trans h7⟩

/-- C8. For `calc` of `model_trap/itc_calc.c`, called with arrays `P`, `L`, `Q` of at
least `n` entries on workspaces whose arrays hold `2 ^ size` entries or more once
the energy model has run: let `M` be the pair of workspaces that the energy model
leaves when applied to the model with `temp` stored and to `sim`, and let the
points be solved from `M` on by `setFree` with `Ptot = P[i]`, `Ltot = L[i]`.  The
energy model is applied exactly once, before the loop: `calc` ends with `sim` as in
`M` and with `size`, `temp`, `cyclic`, `configs`, `bound` and `energies` as in `M`.  If
`setFree` returns a nonzero status for the first time at point `k < n`, `calc`
returns exactly that status with the model and the solver as that call of `setFree`
left them (no later point is solved), `Q[i]` for `i < k` is the heat of point `i` and
`Q[k .. n-1]` are as on entry; if `setFree` returns `0` at every point, `calc`
returns `0` and every `Q[i]`, `i < n`, is `getQ` of the model right after the
`setFree` run for `Ptot = P[i]`, `Ltot = L[i]`. -/
theorem calc_trap_spec (sv : RootSolver σ α) (expf : α → α)
    (assignEnergies : mWorkspace α → sWorkspace α → List α → mWorkspace α × sWorkspace α)
    (st : σ) (model : mWorkspace α) (sim : sWorkspace α)
    (n : Int) (temp : α) (P L Q : List α) (params : List α)
    (M : mWorkspace α × sWorkspace α)
    (hM : M = assignEnergies { model with temp := temp } sim params)
    (s0 : CalcResult σ α)
    (hs0 : s0 = { status := 0, solver := st, model := M.1, sim := M.2, Q := Q })
    (_hP : n.toNat ≤ P.length) (_hL : n.toNat ≤ L.length) (hQ : n.toNat ≤ Q.length)
    (_hE : 2 ^ M.1.size ≤ M.1.energies.length) (_hB : 2 ^ M.1.size ≤ M.1.bound.length)
    (hp : 2 ^ M.1.size ≤ M.1.probs.length) (_hH : 2 ^ M.1.size ≤ M.2.enthalpies.length) :
    ((calc_trap sv expf assignEnergies st model sim n temp P L Q params).sim = M.2 ∧
      (calc_trap sv expf assignEnergies st model sim n temp P L Q params).model.size
        = M.1.size ∧
      (calc_trap sv expf assignEnergies st model sim n temp P L Q params).model.temp
        = M.1.temp ∧
      (calc_trap sv expf assignEnergies st model sim n temp P L Q params).model.cyclic
        = M.1.cyclic ∧
      (calc_trap sv expf assignEnergies st model sim n temp P L Q params).model.configs
        = M.1.configs ∧
      (calc_trap sv expf assignEnergies st model sim n temp P L Q params).model.bound
        = M.1.bound ∧
      (calc_trap sv expf assignEnergies st model sim n temp P L Q params).model.energies
        = M.1.energies ∧
      (calc_trap sv expf assignEnergies st model sim n temp P L Q params).Q.length
        = Q.length) ∧
    (∀ k : Nat, (k : Int) < n →
      (∀ i, i < k →
        (setFree sv expf (forLoop i (solvePoint sv expf P L) s0).solver
          { (forLoop i (solvePoint sv expf P L) s0).model with
            Ptot := rd P i, Ltot := rd L i }).status = 0) →
      (setFree sv expf (forLoop k (solvePoint sv expf P L) s0).solver
        { (forLoop k (solvePoint sv expf P L) s0).model with
          Ptot := rd P k, Ltot := rd L k }).status ≠ 0 →
      (calc_trap sv expf assignEnergies st model sim n temp P L Q params).status
        = (setFree sv expf (forLoop k (solvePoint sv expf P L) s0).solver
            { (forLoop k (solvePoint sv expf P L) s0).model with
              Ptot := rd P k, Ltot := rd L k }).status ∧
      (calc_trap sv expf assignEnergies st model sim n temp P L Q params).model
        = (setFree sv expf (forLoop k (solvePoint sv expf P L) s0).solver
            { (forLoop k (solvePoint sv expf P L) s0).model with
              Ptot := rd P k, Ltot := rd L k }).model ∧
      (calc_trap sv expf assignEnergies st model sim n temp P L Q params).solver
        = (setFree sv expf (forLoop k (solvePoint sv expf P L) s0).solver
            { (forLoop k (solvePoint sv expf P L) s0).model with
              Ptot := rd P k, Ltot := rd L k }).solver ∧
      (∀ i, i < k →
        rd (calc_trap sv expf assignEnergies st model sim n temp P L Q params).Q i
          = getQ M.2
              (setFree sv expf (forLoop i (solvePoint sv expf P L) s0).solver
                { (forLoop i (solvePoint sv expf P L) s0).model with
                  Ptot := rd P i, Ltot := rd L i }).model) ∧
      (∀ j, k ≤ j →
        rd (calc_trap sv expf assignEnergies st model sim n temp P L Q params).Q j = rd Q j)) ∧
    ((∀ i : Nat, (i : Int) < n →
        (setFree sv expf (forLoop i (solvePoint sv expf P L) s0).solver
          { (forLoop i (solvePoint sv expf P L) s0).model with
            Ptot := rd P i, Ltot := rd L i }).status = 0) →
      (calc_trap sv expf assignEnergies st model sim n temp P L Q params).status = 0 ∧
      (∀ i : Nat, (i : Int) < n →
        rd (calc_trap sv expf assignEnergies st model sim n temp P L Q params).Q i
          = getQ M.2
              (setFree sv expf (forLoop i (solvePoint sv expf P L) s0).solver
                { (forLoop i (solvePoint sv expf P L) s0).model with
                  Ptot := rd P i, Ltot := rd L i }).model)) := by
  have hstart : trapStart assignEnergies st model sim temp Q params = s0 := by
    rw [hs0, hM]
    rfl
  have hsim : s0.sim = M.2 := by rw [hs0]
  have hmod : s0.model = M.1 := by rw [hs0]
  have hQ0 : s0.Q = Q := by rw [hs0]
  have hlen : 2 ^ s0.model.size ≤ s0.model.probs.length := by rw [hmod]; exact hp
  have hcases : (∀ i, i < n.toNat →
        (solvePoint sv expf P L i (forLoop i (solvePoint sv expf P L) s0)).status = 0) ∨
      ∃ k, k < n.toNat ∧
        (∀ i, i < k →
          (solvePoint sv expf P L i (forLoop i (solvePoint sv expf P L) s0)).status = 0) ∧
        (solvePoint sv expf P L k (forLoop k (solvePoint sv expf P L) s0)).status ≠ 0 := by
    by_cases hall : ∀ i, i < n.toNat →
        (solvePoint sv expf P L i (forLoop i (solvePoint sv expf P L) s0)).status = 0
    · exact Or.inl hall
    · right
      have hex : ∃ k, k < n.toNat ∧
          (solvePoint sv expf P L k (forLoop k (solvePoint sv expf P L) s0)).status ≠ 0 := by
        by_contra hno
        apply hall
        intro i hi
        by_contra hne
        exact hno ⟨i, hi, hne⟩
      classical
      refine ⟨Nat.find hex, (Nat.find_spec hex).1, ?_, (Nat.find_spec hex).2⟩
      intro i hi
      by_contra hne
      exact Nat.find_min hex hi ⟨lt_trans hi (Nat.find_spec hex).1, hne⟩
  have herr : ∀ k, k < n.toNat →
      (∀ i, i < k →
        (solvePoint sv expf P L i (forLoop i (solvePoint sv expf P L) s0)).status = 0) →
      (solvePoint sv expf P L k (forLoop k (solvePoint sv expf P L) s0)).status ≠ 0 →
      calc_trap sv expf assignEnergies st model sim n temp P L Q params
        = { forLoop k (solvePoint sv expf P L) s0 with
          status := (solvePoint sv expf P L k (forLoop k (solvePoint sv expf P L) s0)).status,
          solver := (solvePoint sv expf P L k (forLoop k (solvePoint sv expf P L) s0)).solver,
          model := (solvePoint sv expf P L k (forLoop k (solvePoint sv expf P L) s0)).model } := by
    intro k hk hall hne
    unfold calc_trap
    rw [hstart, calcLoop_error sv expf P L s0 k hall hne n.toNat hk]
  have hok : (∀ i, i < n.toNat →
        (solvePoint sv expf P L i (forLoop i (solvePoint sv expf P L) s0)).status = 0) →
      calc_trap sv expf assignEnergies st model sim n temp P L Q params
        = forLoop n.toNat (solvePoint sv expf P L) s0 := by
    intro hall
    unfold calc_trap
    rw [hstart, calcLoop_ok sv expf P L s0 n.toNat hall]
  refine ⟨?_, ?_, ?_⟩
  · rcases hcases with hall | ⟨k, hk, hall, hne⟩
    · rw [hok hall]
      obtain ⟨q1, q2, _, _⟩ := solvedPoints_Q sv expf P L s0 n.toNat
      obtain ⟨f1, f2, f3, f4, f5, f6, _⟩ := solvedPoints_frame sv expf P L s0 hlen n.toNat
      rw [hmod] at f1 f2 f3 f4 f5 f6
      exact ⟨q1.trans hsim, f1, f2, f3, f4, f5, f6, q2.trans (by rw [hQ0])⟩
    · rw [herr k hk hall hne]
      obtain ⟨q1, q2, _, _⟩ := solvedPoints_Q sv expf P L s0 k
      obtain ⟨f1, f2, f3, f4, f5, f6, _⟩ := solvedPoints_frame sv expf P L s0 hlen (k + 1)
      rw [forLoop_succ, hmod] at f1 f2 f3 f4 f5 f6
      exact ⟨q1.trans hsim, f1, f2, f3, f4, f5, f6, q2.trans (by rw [hQ0])⟩
  · intro k hk hall hne
    have hkn : k < n.toNat := Int.lt_toNat.mpr hk
    rw [herr k hkn hall hne]
    obtain ⟨_, _, q3, q4⟩ := solvedPoints_Q sv expf P L s0 k
    refine ⟨rfl, rfl, rfl, ?_, ?_⟩
    · intro i hi
      have := q4 i hi (by rw [hQ0]; omega)
      rw [hsim] at this
      exact this
    · intro j hj
      exact (q3 j hj).trans (by rw [hQ0])
  · intro hall
    have hall2 : ∀ i, i < n.toNat →
        (solvePoint sv expf P L i (forLoop i (solvePoint sv expf P L) s0)).status = 0 :=
      fun i hi => hall i (Int.lt_toNat.mp hi)
    rw [hok hall2]
    obtain ⟨_, _, _, q4⟩ := solvedPoints_Q sv expf P L s0 n.toNat
    refine ⟨?_, ?_⟩
    · cases hn : n.toNat with
      | zero => rw [hs0]; rfl
      | succ m =>
        rw [forLoop_succ]
        exact hall2 m (by omega)
    · intro i hi
      have := q4 i (Int.lt_toNat.mpr hi) (by rw [hQ0]; have := Int.lt_toNat.mpr hi; omega)
      rw [hsim] at this
      exact this

end TrapDriver

section TrapWitness

/-- A witness of C8: one point on a lattice of one site built by
`setupModelWorkspace` and `setupSimWorkspace`, the additive 3-parameter model of
`model_trap/energies_sk.c` and the bracketing solver with the interval test of the
GSL: `setFree` returns a nonzero status at point `0`, `calc` returns that status and
leaves `Q[0]` as it was. -/
theorem calc_trap_spec_witness :
    (1 : Int).toNat ≤ [(1e-6 : ℝ)].length ∧ (1 : Int).toNat ≤ [(5e-6 : ℝ)].length ∧
    (1 : Int).toNat ≤ [(7 : ℝ)].length ∧
    2 ^ (SkTrap.assignEnergies
        { (setupModelWorkspace (sampleHeap ℝ) (sampleWorkspace ℝ 1)).2 with temp := 298.15 }
        (setupSimWorkspace (sampleHeap ℝ) 6
          (setupModelWorkspace (sampleHeap ℝ) (sampleWorkspace ℝ 1)).2).2
        [-5000, 0, 0, -8000, 0, 0]).1.size
      ≤ (SkTrap.assignEnergies
        { (setupModelWorkspace (sampleHeap ℝ) (sampleWorkspace ℝ 1)).2 with temp := 298.15 }
        (setupSimWorkspace (sampleHeap ℝ) 6
          (setupModelWorkspace (sampleHeap ℝ) (sampleWorkspace ℝ 1)).2).2
        [-5000, 0, 0, -8000, 0, 0]).1.probs.length ∧
    (calc_trap (bracketSolver ℝ) Real.exp SkTrap.assignEnergies (0, 0, 0)
      (setupModelWorkspace (sampleHeap ℝ) (sampleWorkspace ℝ 1)).2
      (setupSimWorkspace (sampleHeap ℝ) 6
        (setupModelWorkspace (sampleHeap ℝ) (sampleWorkspace ℝ 1)).2).2
      1 298.15 [1e-6] [5e-6] [7] [-5000, 0, 0, -8000, 0, 0]).status ≠ 0 ∧
    rd (calc_trap (bracketSolver ℝ) Real.exp SkTrap.assignEnergies (0, 0, 0)
      (setupModelWorkspace (sampleHeap ℝ) (sampleWorkspace ℝ 1)).2
      (setupSimWorkspace (sampleHeap ℝ) 6
        (setupModelWorkspace (sampleHeap ℝ) (sampleWorkspace ℝ 1)).2).2
      1 298.15 [1e-6] [5e-6] [7] [-5000, 0, 0, -8000, 0, 0]).Q 0 = 7 ∧
    (calc_trap (bracketSolver ℝ) Real.exp SkTrap.assignEnergies (0, 0, 0)
      (setupModelWorkspace (sampleHeap ℝ) (sampleWorkspace ℝ 1)).2
      (setupSimWorkspace (sampleHeap ℝ) 6
        (setupModelWorkspace (sampleHeap ℝ) (sampleWorkspace ℝ 1)).2).2
      1 298.15 [1e-6] [5e-6] [7] [-5000, 0, 0, -8000, 0, 0]).sim
      = (SkTrap.assignEnergies
        { (setupModelWorkspace (sampleHeap ℝ) (sampleWorkspace ℝ 1)).2 with temp := 298.15 }
        (setupSimWorkspace (sampleHeap ℝ) 6
          (setupModelWorkspace (sampleHeap ℝ) (sampleWorkspace ℝ 1)).2).2
        [-5000, 0, 0, -8000, 0, 0]).2 :=
  have hne : ∀ (st : ℝ × ℝ × ℝ) (w : mWorkspace ℝ),
      (setFree (bracketSolver ℝ) Real.exp st w).status ≠ 0 :=
    fun st w => (setFree_gsl_status (bracketSolver ℝ) rfl Real.exp st w).1
  have T := calc_trap_spec (bracketSolver ℝ) Real.exp SkTrap.assignEnergies (0, 0, 0)
    (setupModelWorkspace (sampleHeap ℝ) (sampleWorkspace ℝ 1)).2
    (setupSimWorkspace (sampleHeap ℝ) 6
      (setupModelWorkspace (sampleHeap ℝ) (sampleWorkspace ℝ 1)).2).2
    1 298.15 [1e-6] [5e-6] [7] [-5000, 0, 0, -8000, 0, 0] _ rfl _ rfl
    (by decide) (by decide) (by decide) (by decide) (by decide) (by decide) (by decide)
  ⟨by decide, by decide, by decide, by decide,
    fun h0 => hne _ _
      (((T.2.1 0 (by decide) (fun i hi => absurd hi (Nat.not_lt_zero i)) (hne _ _)).1).symm.trans
        h0),
    (T.2.1 0 (by decide) (fun i hi => absurd hi (Nat.not_lt_zero i)) (hne _ _)).2.2.2.2 0
      (Nat.le_refl 0),
    T.1.1⟩

end TrapWitness

/-! ## The simple model -/

section SimpleModel

variable {α : Type} [Field α]

/-- The simple model has the common shape, every occupied site adding `Gbind` and
`Hbind`. -/
theorem simple_eq_accum (w : mWorkspace α) (sim : sWorkspace α) (Gbind Hbind : α) :
    Simple.assignEnergies w sim Gbind Hbind
      = accumEnergies (fun _ _ _ _ => Gbind) (fun _ _ _ _ => Hbind) w sim := rfl

/-- A sum of a constant over the occupied sites is the number of occupied sites
times the constant. -/
theorem siteSum_const (c : α) (cf : List (List Int)) (n i : Nat) :
    siteSum (fun _ _ _ _ => c) cf n i
      = ((∑ j in Finset.range n, (if rd2 cf i j > 0 then (1 : Int) else 0) : Int) : α) * c := by
  unfold siteSum
  rw [Int.cast_sum, Finset.sum_mul]
  apply Finset.sum_congr rfl
  intro j _
  by_cases hocc : rd2 cf i j > 0
  · simp [hocc]
  · simp [hocc]

/-- C13. In a lattice built by `setupModelWorkspace`, whatever its flag `cyclic`,
for every `Gbind`, `Hbind` and every configuration `i`, `assignEnergies` of the
simple model leaves `energies[i] = bound[i] * Gbind` and
`enthalpies[i] = bound[i] * Hbind`; configuration `0` gets energy and enthalpy `0`. -/
theorem simple_assignEnergies (h : Heap α) (w0 : mWorkspace α)
    (hs : (setupModelWorkspace h w0).1 = 0) (sim : sWorkspace α)
    (hsim : sim.enthalpies.length = 2 ^ w0.size) (Gbind Hbind : α) (c : Int) :
    (∀ i, i < 2 ^ w0.size →
      rd (Simple.assignEnergies { (setupModelWorkspace h w0).2 with cyclic := c } sim
          Gbind Hbind).1.energies i
        = ((rd (setupModelWorkspace h w0).2.bound i : Int) : α) * Gbind ∧
      rd (Simple.assignEnergies { (setupModelWorkspace h w0).2 with cyclic := c } sim
          Gbind Hbind).2.enthalpies i
        = ((rd (setupModelWorkspace h w0).2.bound i : Int) : α) * Hbind) ∧
    rd (Simple.assignEnergies { (setupModelWorkspace h w0).2 with cyclic := c } sim
        Gbind Hbind).1.energies 0 = 0 ∧
    rd (Simple.assignEnergies { (setupModelWorkspace h w0).2 with cyclic := c } sim
        Gbind Hbind).2.enthalpies 0 = 0 := by
  obtain ⟨s1, _, _, _, _, _, _, _, _, _, _, s12, s13⟩ := setupModelWorkspace_spec h w0 hs
  obtain ⟨_, _, _, e1, _, h1, _⟩ := accumEnergies_spec (fun _ _ _ _ => Gbind)
    (fun _ _ _ _ => Hbind) { (setupModelWorkspace h w0).2 with cyclic := c } sim
  have hmain : ∀ i, i < 2 ^ w0.size →
      rd (Simple.assignEnergies { (setupModelWorkspace h w0).2 with cyclic := c } sim
          Gbind Hbind).1.energies i
        = ((rd (setupModelWorkspace h w0).2.bound i : Int) : α) * Gbind ∧
      rd (Simple.assignEnergies { (setupModelWorkspace h w0).2 with cyclic := c } sim
          Gbind Hbind).2.enthalpies i
        = ((rd (setupModelWorkspace h w0).2.bound i : Int) : α) * Hbind := by
    intro i hi
    have hi2 : i < 2 ^ (setupModelWorkspace h w0).2.size := by rw [s1]; exact hi
    rw [simple_eq_accum]
    refine ⟨?_, ?_⟩
    · rw [e1 i hi2 (by show i < (setupModelWorkspace h w0).2.energies.length; rw [s12]; exact hi),
        siteSum_const, (s13 i hi).2.1]
      rw [show ({ (setupModelWorkspace h w0).2 with cyclic := c } : mWorkspace α).size
        = w0.size from s1]
    · rw [h1 i hi2 (by rw [hsim]; exact hi), siteSum_const, (s13 i hi).2.1]
      rw [show ({ (setupModelWorkspace h w0).2 with cyclic := c } : mWorkspace α).size
        = w0.size from s1]
  have hb0 : rd (setupModelWorkspace h w0).2.bound 0 = 0 := by
    rw [setupModelWorkspace_bound_card h w0 hs 0 (Nat.two_pow_pos _)]
    simp
  refine ⟨hmain, ?_, ?_⟩
  · rw [(hmain 0 (Nat.two_pow_pos _)).1, hb0]
    simp
  · rw [(hmain 0 (Nat.two_pow_pos _)).2, hb0]
    simp

/-- A witness of C13: `Gbind = -5000`, `Hbind = -8000`; one site, and two sites
with both occupied (configuration `3`, energy `-10000`). -/
theorem simple_assignEnergies_witness :
    (setupModelWorkspace (sampleHeap ℝ) (sampleWorkspace ℝ 1)).1 = 0 ∧
    ({ enthalpies := [0, 0] } : sWorkspace ℝ).enthalpies.length
      = 2 ^ (sampleWorkspace ℝ 1).size ∧
    rd (Simple.assignEnergies
        { (setupModelWorkspace (sampleHeap ℝ) (sampleWorkspace ℝ 1)).2 with cyclic := 1 }
        { enthalpies := [0, 0] } (-5000) (-8000)).1.energies 0 = 0 ∧
    (setupModelWorkspace (sampleHeap ℝ) (sampleWorkspace ℝ 2)).1 = 0 ∧
    rd (Simple.assignEnergies
        { (setupModelWorkspace (sampleHeap ℝ) (sampleWorkspace ℝ 2)).2 with cyclic := 0 }
        { enthalpies := [0, 0, 0, 0] } (-5000) (-8000)).1.energies 3 = -10000 :=
  ⟨by decide, rfl,
    (simple_assignEnergies (sampleHeap ℝ) (sampleWorkspace ℝ 1) (by decide)
      { enthalpies := [0, 0] } rfl (-5000) (-8000) 1).2.1,
    by decide,
    (((simple_assignEnergies (sampleHeap ℝ) (sampleWorkspace ℝ 2) (by decide)
      { enthalpies := [0, 0, 0, 0] } rfl (-5000) (-8000) 0).1 3 (by decide)).1).trans (by
        have b : rd (setupModelWorkspace (sampleHeap ℝ) (sampleWorkspace ℝ 2)).2.bound 3 = 2 := by
          decide
        rw [b]
        norm_num)⟩

end SimpleModel

/-! ## Ring neighbours -/

section Ring

theorem rdI_natCast (cf : List (List Int)) (i k : Nat) : rdI cf i (k : Int) = rd2 cf i k := by
  unfold rdI
  rw [if_neg (by omega), Int.toNat_natCast]

/-- For a site `j` of a ring of `n` sites, `permute (j + 1, n)` is the site
`(j + 1) mod n`. -/
theorem permute_right (n j : Nat) (hj : j < n) :
    permute ((j : Int) + 1) n = (((j + 1) % n : Nat) : Int) := by
  unfold permute
  rw [if_neg (by omega)]
  by_cases hlt : j + 1 < n
  · rw [if_neg (by omega), Nat.mod_eq_of_lt hlt]
    push_cast
    rfl
  · have hn : j + 1 = n := by omega
    rw [if_pos (by omega)]
    have e : ((j : Int) + 1) = (n : Int) := by omega
    rw [e, Int.tmod_self, hn, Nat.mod_self]
    rfl

/-- For a site `j` of a ring of `n` sites, `permute (j - 1, n)` is the site
`(j - 1) mod n`, which is `n - 1` for `j = 0`. -/
theorem permute_left (n j : Nat) (hj : j < n) :
    permute ((j : Int) - 1) n = (((j + n - 1) % n : Nat) : Int) := by
  unfold permute
  by_cases h0 : j = 0
  · subst h0
    rw [if_pos (by omega)]
    have e : (0 + n - 1) % n = n - 1 := by
      rw [Nat.zero_add]
      exact Nat.mod_eq_of_lt (by omega)
    rw [e]
    omega
  · rw [if_neg (by omega), if_neg (by omega)]
    have e : (j + n - 1) % n = j - 1 := by
      have : j + n - 1 = (j - 1) + n := by omega
      rw [this, Nat.add_mod_right]
      exact Nat.mod_eq_of_lt (by omega)
    rw [e]
    omega

theorem ring_left_right (n j : Nat) (hj : j < n) : ((j + 1) % n + n - 1) % n = j := by
  by_cases hlt : j + 1 < n
  · rw [Nat.mod_eq_of_lt hlt]
    have : j + 1 + n - 1 = j + n := by omega
    rw [this, Nat.add_mod_right]
    exact Nat.mod_eq_of_lt hj
  · have hn : j + 1 = n := by omega
    rw [hn, Nat.mod_self, Nat.zero_add]
    exact (Nat.mod_eq_of_lt (by omega)).trans (by omega)

theorem ring_right_left (n j : Nat) (hj : j < n) : ((j + n - 1) % n + 1) % n = j := by
  by_cases h0 : j = 0
  · subst h0
    rw [Nat.zero_add, Nat.mod_eq_of_lt (show n - 1 < n by omega)]
    have : n - 1 + 1 = n := by omega
    rw [this, Nat.mod_self]
  · have e : (j + n - 1) % n = j - 1 := by
      have : j + n - 1 = (j - 1) + n := by omega
      rw [this, Nat.add_mod_right]
      exact Nat.mod_eq_of_lt (by omega)
    rw [e]
    have : j - 1 + 1 = j := by omega
    rw [this]
    exact Nat.mod_eq_of_lt hj

/-- A sum over the sites of a ring does not change when every site is replaced by
its right neighbour. -/
theorem sum_ring_shift {β : Type} [AddCommMonoid β] (n : Nat) (f : Nat → β) :
    ∑ j in Finset.range n, f ((j + 1) % n) = ∑ j in Finset.range n, f j := by
  apply Finset.sum_nbij' (fun j => (j + 1) % n) (fun j => (j + n - 1) % n)
  · intro j hj
    have hjn := Finset.mem_range.mp hj
    exact Finset.mem_range.mpr (Nat.mod_lt _ (by omega))
  · intro j hj
    have hjn := Finset.mem_range.mp hj
    exact Finset.mem_range.mpr (Nat.mod_lt _ (by omega))
  · intro j hj
    exact ring_left_right n j (Finset.mem_range.mp hj)
  · intro j hj
    exact ring_right_left n j (Finset.mem_range.mp hj)
  · intro j _
    rfl

end Ring

/-! ## The additive 3-parameter model -/

section Additive

variable {α : Type} [Field α]

/-- The sum over the occupied sites of the additive 3-parameter model, with the
neighbours written as sites of the ring. -/
theorem siteSum_skTerm (a b c : α) (cf : List (List Int)) (n i : Nat) :
    siteSum (skTerm a b c) cf n i
      = ∑ j in Finset.range n,
          if rd2 cf i j > 0 then
            a + (if rd2 cf i ((j + 1) % n) > 0 then c else b)
              + (if rd2 cf i ((j + n - 1) % n) > 0 then c else b)
          else 0 := by
  unfold siteSum
  apply Finset.sum_congr rfl
  intro j hj
  have hjn := Finset.mem_range.mp hj
  unfold skTerm
  rw [permute_right n j hjn, permute_left n j hjn, rdI_natCast, rdI_natCast]

/-- The count form of the additive 3-parameter sum: `N a + 2 A c + 2 (N - A) b`,
`N` the number of occupied sites and `A` the number of sites occupied together with
their right neighbour. -/
theorem sk_count (a b c : α) (cf : List (List Int)) (n i : Nat) :
    (∑ j in Finset.range n,
        if rd2 cf i j > 0 then
          a + (if rd2 cf i ((j + 1) % n) > 0 then c else b)
            + (if rd2 cf i ((j + n - 1) % n) > 0 then c else b)
        else 0)
      = ((∑ j in Finset.range n, (if rd2 cf i j > 0 then (1 : Int) else 0) : Int) : α) * a
        + 2 * ((Finset.filter (fun j => rd2 cf i j > 0 ∧ rd2 cf i ((j + 1) % n) > 0)
            (Finset.range n)).card : α) * c
        + 2 * (((∑ j in Finset.range n, (if rd2 cf i j > 0 then (1 : Int) else 0) : Int) : α)
            - ((Finset.filter (fun j => rd2 cf i j > 0 ∧ rd2 cf i ((j + 1) % n) > 0)
                (Finset.range n)).card : α)) * b := by
  have hN : ((∑ j in Finset.range n, (if rd2 cf i j > 0 then (1 : Int) else 0) : Int) : α)
      = ∑ j in Finset.range n, (if rd2 cf i j > 0 then (1 : α) else 0) := by
    rw [Int.cast_sum]
    apply Finset.sum_congr rfl
    intro j _
    by_cases h : rd2 cf i j > 0
    · simp [h]
    · simp [h]
  have hA : ((Finset.filter (fun j => rd2 cf i j > 0 ∧ rd2 cf i ((j + 1) % n) > 0)
      (Finset.range n)).card : α)
      = ∑ j in Finset.range n, (if rd2 cf i j > 0 then (1 : α) else 0)
          * (if rd2 cf i ((j + 1) % n) > 0 then (1 : α) else 0) := by
    rw [Finset.card_filter, Nat.cast_sum]
    apply Finset.sum_congr rfl
    intro j _
    by_cases h1 : rd2 cf i j > 0 <;> by_cases h2 : rd2 cf i ((j + 1) % n) > 0 <;> simp [h1, h2]
  have hL : ∑ j in Finset.range n, (if rd2 cf i j > 0 then (1 : α) else 0)
        * (if rd2 cf i ((j + n - 1) % n) > 0 then (1 : α) else 0)
      = ∑ j in Finset.range n, (if rd2 cf i j > 0 then (1 : α) else 0)
        * (if rd2 cf i ((j + 1) % n) > 0 then (1 : α) else 0) := by
    rw [← sum_ring_shift n (fun j => (if rd2 cf i j > 0 then (1 : α) else 0)
        * (if rd2 cf i ((j + n - 1) % n) > 0 then (1 : α) else 0))]
    apply Finset.sum_congr rfl
    intro j hj
    show _ * (if rd2 cf i (((j + 1) % n + n - 1) % n) > 0 then (1 : α) else 0) = _
    rw [ring_left_right n j (Finset.mem_range.mp hj), mul_comm]
  have hterm : ∀ j, (if rd2 cf i j > 0 then
          a + (if rd2 cf i ((j + 1) % n) > 0 then c else b)
            + (if rd2 cf i ((j + n - 1) % n) > 0 then c else b)
        else 0)
      = (if rd2 cf i j > 0 then (1 : α) else 0) * a
        + ((if rd2 cf i j > 0 then (1 : α) else 0)
            * (if rd2 cf i ((j + 1) % n) > 0 then (1 : α) else 0)) * c
        + ((if rd2 cf i j > 0 then (1 : α) else 0)
            - (if rd2 cf i j > 0 then (1 : α) else 0)
              * (if rd2 cf i ((j + 1) % n) > 0 then (1 : α) else 0)) * b
        + ((if rd2 cf i j > 0 then (1 : α) else 0)
            * (if rd2 cf i ((j + n - 1) % n) > 0 then (1 : α) else 0)) * c
        + ((if rd2 cf i j > 0 then (1 : α) else 0)
            - (if rd2 cf i j > 0 then (1 : α) else 0)
              * (if rd2 cf i ((j + n - 1) % n) > 0 then (1 : α) else 0)) * b := by
    intro j
    by_cases h1 : rd2 cf i j > 0 <;> by_cases h2 : rd2 cf i ((j + 1) % n) > 0 <;>
    by_cases h3 : rd2 cf i ((j + n - 1) % n) > 0 <;> simp [h1, h2, h3]
  rw [Finset.sum_congr rfl (fun j _ => hterm j)]
  simp only [Finset.sum_add_distrib, ← Finset.sum_mul, Finset.sum_sub_distrib]
  rw [hL, hN, hA]
  ring

/-- The scalar-argument version and the parameter-array version of the additive
3-parameter model compute the same arrays. -/
theorem skTrap_eq_sk (w : mWorkspace α) (sim : sWorkspace α) (Ga Gb Gc Ha Hb Hc : α) :
    SkTrap.assignEnergies w sim [Ga, Gb, Gc, Ha, Hb, Hc]
      = Sk.assignEnergies w sim Ga Gb Gc Ha Hb Hc := by
  rw [skTrap_eq_accum, sk_eq_accum]
  rfl

/-- C14. In a lattice built by `setupModelWorkspace`, for every configuration `i`,
`assignEnergies` of the additive 3-parameter model leaves in `energies[i]` the sum
over the occupied sites `j` of `Ga + c (j + 1) + c (j - 1)`, with `c (k) = Gc` when
site `k mod size` is occupied and `Gb` otherwise; this is
`n Ga + 2 a Gc + 2 (n - a) Gb` with `n = bound[i]` and `a` the number of sites `j`
occupied together with site `(j + 1) mod size`.  The same holds for `enthalpies[i]`
with `Ha`, `Hb`, `Hc`, and the version of `model_trap/energies_sk.c` run with
`params = [Ga, Gb, Gc, Ha, Hb, Hc]` computes the same arrays. -/
theorem sk_assignEnergies (h : Heap α) (w0 : mWorkspace α)
    (hs : (setupModelWorkspace h w0).1 = 0) (sim : sWorkspace α)
    (hsim : sim.enthalpies.length = 2 ^ w0.size) (Ga Gb Gc Ha Hb Hc : α) :
    (∀ i, i < 2 ^ w0.size →
      rd (Sk.assignEnergies (setupModelWorkspace h w0).2 sim Ga Gb Gc Ha Hb Hc).1.energies i
        = (∑ j in Finset.range w0.size,
            if rd2 (setupModelWorkspace h w0).2.configs i j > 0 then
              Ga + (if rd2 (setupModelWorkspace h w0).2.configs i ((j + 1) % w0.size) > 0
                      then Gc else Gb)
                + (if rd2 (setupModelWorkspace h w0).2.configs i ((j + w0.size - 1) % w0.size) > 0
                      then Gc else Gb)
            else 0) ∧
      rd (Sk.assignEnergies (setupModelWorkspace h w0).2 sim Ga Gb Gc Ha Hb Hc).1.energies i
        = ((rd (setupModelWorkspace h w0).2.bound i : Int) : α) * Ga
          + 2 * ((Finset.filter (fun j => rd2 (setupModelWorkspace h w0).2.configs i j > 0
              ∧ rd2 (setupModelWorkspace h w0).2.configs i ((j + 1) % w0.size) > 0)
              (Finset.range w0.size)).card : α) * Gc
          + 2 * (((rd (setupModelWorkspace h w0).2.bound i : Int) : α)
              - ((Finset.filter (fun j => rd2 (setupModelWorkspace h w0).2.configs i j > 0
                  ∧ rd2 (setupModelWorkspace h w0).2.configs i ((j + 1) % w0.size) > 0)
                  (Finset.range w0.size)).card : α)) * Gb ∧
      rd (Sk.assignEnergies (setupModelWorkspace h w0).2 sim Ga Gb Gc Ha Hb Hc).2.enthalpies i
        = (∑ j in Finset.range w0.size,
            if rd2 (setupModelWorkspace h w0).2.configs i j > 0 then
              Ha + (if rd2 (setupModelWorkspace h w0).2.configs i ((j + 1) % w0.size) > 0
                      then Hc else Hb)
                + (if rd2 (setupModelWorkspace h w0).2.configs i ((j + w0.size - 1) % w0.size) > 0
                      then Hc else Hb)
            else 0) ∧
      rd (Sk.assignEnergies (setupModelWorkspace h w0).2 sim Ga Gb Gc Ha Hb Hc).2.enthalpies i
        = ((rd (setupModelWorkspace h w0).2.bound i : Int) : α) * Ha
          + 2 * ((Finset.filter (fun j => rd2 (setupModelWorkspace h w0).2.configs i j > 0
              ∧ rd2 (setupModelWorkspace h w0).2.configs i ((j + 1) % w0.size) > 0)
              (Finset.range w0.size)).card : α) * Hc
          + 2 * (((rd (setupModelWorkspace h w0).2.bound i : Int) : α)
              - ((Finset.filter (fun j => rd2 (setupModelWorkspace h w0).2.configs i j > 0
                  ∧ rd2 (setupModelWorkspace h w0).2.configs i ((j + 1) % w0.size) > 0)
                  (Finset.range w0.size)).card : α)) * Hb) ∧
    (∀ (w : mWorkspace α) (s : sWorkspace α),
      SkTrap.assignEnergies w s [Ga, Gb, Gc, Ha, Hb, Hc]
        = Sk.assignEnergies w s Ga Gb Gc Ha Hb Hc) := by
  obtain ⟨s1, _, _, _, _, _, _, _, _, _, _, s12, s13⟩ := setupModelWorkspace_spec h w0 hs
  obtain ⟨_, _, _, e1, _, h1, _⟩ := accumEnergies_spec (skTerm Ga Gb Gc) (skTerm Ha Hb Hc)
    (setupModelWorkspace h w0).2 sim
  rw [s1] at e1 h1
  refine ⟨?_, fun w s => skTrap_eq_sk w s Ga Gb Gc Ha Hb Hc⟩
  intro i hi
  have hE : rd (Sk.assignEnergies (setupModelWorkspace h w0).2 sim Ga Gb Gc Ha Hb Hc).1.energies i
      = (∑ j in Finset.range w0.size,
          if rd2 (setupModelWorkspace h w0).2.configs i j > 0 then
            Ga + (if rd2 (setupModelWorkspace h w0).2.configs i ((j + 1) % w0.size) > 0
                    then Gc else Gb)
              + (if rd2 (setupModelWorkspace h w0).2.configs i ((j + w0.size - 1) % w0.size) > 0
                    then Gc else Gb)
          else 0) := by
    rw [sk_eq_accum, e1 i hi (by rw [s12]; exact hi), siteSum_skTerm]
  have hH : rd (Sk.assignEnergies (setupModelWorkspace h w0).2 sim Ga Gb Gc Ha Hb Hc).2.enthalpies i
      = (∑ j in Finset.range w0.size,
          if rd2 (setupModelWorkspace h w0).2.configs i j > 0 then
            Ha + (if rd2 (setupModelWorkspace h w0).2.configs i ((j + 1) % w0.size) > 0
                    then Hc else Hb)
              + (if rd2 (setupModelWorkspace h w0).2.configs i ((j + w0.size - 1) % w0.size) > 0
                    then Hc else Hb)
          else 0) := by
    rw [sk_eq_accum, h1 i hi (by rw [hsim]; exact hi), siteSum_skTerm]
  refine ⟨hE, ?_, hH, ?_⟩
  · rw [hE, sk_count, (s13 i hi).2.1]
  · rw [hH, sk_count, (s13 i hi).2.1]

/-- A witness of C14: `(Ga, Gb, Gc) = (1, 2, 3)`; one site, and three sites with
sites `1` and `2` occupied (configuration `3`, energy `12`). -/
theorem sk_assignEnergies_witness :
    (setupModelWorkspace (sampleHeap ℝ) (sampleWorkspace ℝ 1)).1 = 0 ∧
    ({ enthalpies := [0, 0] } : sWorkspace ℝ).enthalpies.length
      = 2 ^ (sampleWorkspace ℝ 1).size ∧
    SkTrap.assignEnergies (setupModelWorkspace (sampleHeap ℝ) (sampleWorkspace ℝ 1)).2
        { enthalpies := [0, 0] } [1, 2, 3, 10, 20, 30]
      = Sk.assignEnergies (setupModelWorkspace (sampleHeap ℝ) (sampleWorkspace ℝ 1)).2
        { enthalpies := [0, 0] } 1 2 3 10 20 30 ∧
    (setupModelWorkspace (sampleHeap ℝ) (sampleWorkspace ℝ 3)).1 = 0 ∧
    rd (Sk.assignEnergies (setupModelWorkspace (sampleHeap ℝ) (sampleWorkspace ℝ 3)).2
        { enthalpies := [0, 0, 0, 0, 0, 0, 0, 0] } 1 2 3 10 20 30).1.energies 3 = 12 :=
  ⟨by decide, rfl,
    (sk_assignEnergies (sampleHeap ℝ) (sampleWorkspace ℝ 1) (by decide)
      { enthalpies := [0, 0] } rfl 1 2 3 10 20 30).2 _ _,
    by decide,
    by
      have T := ((sk_assignEnergies (sampleHeap ℝ) (sampleWorkspace ℝ 3) (by decide)
        { enthalpies := [0, 0, 0, 0, 0, 0, 0, 0] } rfl 1 2 3 10 20 30).1 3 (by decide)).1
      have c0 : rd2 (setupModelWorkspace (sampleHeap ℝ) (sampleWorkspace ℝ 3)).2.configs 3 0
          = 0 := by decide
      have c1 : rd2 (setupModelWorkspace (sampleHeap ℝ) (sampleWorkspace ℝ 3)).2.configs 3 1
          = 1 := by decide
      have c2 : rd2 (setupModelWorkspace (sampleHeap ℝ) (sampleWorkspace ℝ 3)).2.configs 3 2
          = 1 := by decide
      have hs : (sampleWorkspace ℝ 3).size = 3 := rfl
      rw [T, hs]
      simp only [Finset.sum_range_succ, Finset.sum_range_zero]
      norm_num [c0, c1, c2]⟩

end Additive

/-! ## The AB model -/

section AbModel

/-- C15 fails on the code.  On a lattice of two sites, with
`params = [1, 2, 0, 10, 20, 0]`, configuration `3` has both sites occupied: site `0`
is even and site `1` is odd, so the sum of the intrinsic terms by site parity is
`1 + 2 = 3` (`10 + 20 = 30` for the enthalpy); `assignEnergies` tests the parity of
the configuration index `3` instead and stores `2 + 2 = 4` (`20 + 20 = 40`). -/
theorem ab_parity_of_configuration :
    rd2 (setupModelWorkspace (sampleHeap ℝ) (sampleWorkspace ℝ 2)).2.configs 3 0 = 1 ∧
    rd2 (setupModelWorkspace (sampleHeap ℝ) (sampleWorkspace ℝ 2)).2.configs 3 1 = 1 ∧
    (∑ j in Finset.range 2,
      if rd2 (setupModelWorkspace (sampleHeap ℝ) (sampleWorkspace ℝ 2)).2.configs 3 j > 0
      then (if j % 2 = 0 then (1 : ℝ) else 2) else 0) = 3 ∧
    rd (Ab.assignEnergies (setupModelWorkspace (sampleHeap ℝ) (sampleWorkspace ℝ 2)).2
      { enthalpies := [0, 0, 0, 0] } [1, 2, 0, 10, 20, 0]).1.energies 3 = 4 ∧
    rd (Ab.assignEnergies (setupModelWorkspace (sampleHeap ℝ) (sampleWorkspace ℝ 2)).2
      { enthalpies := [0, 0, 0, 0] } [1, 2, 0, 10, 20, 0]).2.enthalpies 3 = 40 := by
  have hc0 : rd2 (setupModelWorkspace (sampleHeap ℝ) (sampleWorkspace ℝ 2)).2.configs 3 0 = 1 := by
    decide
  have hc1 : rd2 (setupModelWorkspace (sampleHeap ℝ) (sampleWorkspace ℝ 2)).2.configs 3 1 = 1 := by
    decide
  have hsz : (setupModelWorkspace (sampleHeap ℝ) (sampleWorkspace ℝ 2)).2.size = 2 := by decide
  obtain ⟨_, _, _, e1, _, h1, _⟩ := accumEnergies_spec
    (abTerm (rd [(1 : ℝ), 2, 0, 10, 20, 0] 0) (rd [(1 : ℝ), 2, 0, 10, 20, 0] 1)
      (rd [(1 : ℝ), 2, 0, 10, 20, 0] 2))
    (abTerm (rd [(1 : ℝ), 2, 0, 10, 20, 0] 3) (rd [(1 : ℝ), 2, 0, 10, 20, 0] 4)
      (rd [(1 : ℝ), 2, 0, 10, 20, 0] 5))
    (setupModelWorkspace (sampleHeap ℝ) (sampleWorkspace ℝ 2)).2 { enthalpies := [0, 0, 0, 0] }
  refine ⟨hc0, hc1, ?_, ?_, ?_⟩
  · rw [Finset.sum_range_succ, Finset.sum_range_one, hc0, hc1]
    norm_num
  · rw [ab_eq_accum, e1 3 (by decide) (by decide), hsz]
    unfold siteSum abTerm
    rw [Finset.sum_range_succ, Finset.sum_range_one, hc0, hc1]
    simp [rd]
    norm_num
  · rw [ab_eq_accum, h1 3 (by decide) (by decide), hsz]
    unfold siteSum abTerm
    rw [Finset.sum_range_succ, Finset.sum_range_one, hc0, hc1]
    simp [rd]
    norm_num

end AbModel

/-! ## The NN model -/

section NnModel

variable {α : Type} [Field α]

/-- C16 fails on the code: for no parameter vector does an occupied site with only
its left neighbour occupied (the pattern `110`) contribute another energy than one
with only its right neighbour occupied (the pattern `011`); both add
`params[0] + params[2]`. -/
theorem nn_left_right_same :
    ¬ ∃ params : List ℝ,
      rd params 0 + nnPattern (rd params 1) (rd params 2) (rd params 3) 1 0
        ≠ rd params 0 + nnPattern (rd params 1) (rd params 2) (rd params 3) 0 1 := by
  rintro ⟨params, hne⟩
  exact hne rfl

/-- On entries `0` and `1` the chain of the NN model selects by the number of
occupied neighbours. -/
theorem nnPattern_bits (a b c : α) (l r : Int) (hl : l = 0 ∨ l = 1) (hr : r = 0 ∨ r = 1) :
    nnPattern a b c l r
      = if l > 0 ∧ r > 0 then c else if l > 0 ∨ r > 0 then b else a := by
  rcases hl with hl | hl <;> rcases hr with hr | hr <;> subst hl <;> subst hr <;>
    simp [nnPattern]

/-- C16, amended.  In a lattice built by `setupModelWorkspace`, `assignEnergies` of
the NN model leaves in `energies[i]` the sum over the occupied sites of `params[0]`
plus one of three pattern terms: `params[3]` when both ring neighbours are
occupied, `params[2]` when exactly one of them is (left or right alike), `params[1]`
when none is; likewise `enthalpies[i]` with `params[4]`, `params[7]`, `params[6]`,
`params[5]`. -/
theorem nn_assignEnergies (h : Heap α) (w0 : mWorkspace α)
    (hs : (setupModelWorkspace h w0).1 = 0) (sim : sWorkspace α)
    (hsim : sim.enthalpies.length = 2 ^ w0.size) (params : List α) :
    ∀ i, i < 2 ^ w0.size →
      rd (Nn.assignEnergies (setupModelWorkspace h w0).2 sim params).1.energies i
        = (∑ j in Finset.range w0.size,
            if rd2 (setupModelWorkspace h w0).2.configs i j > 0 then
              rd params 0 +
                (if rd2 (setupModelWorkspace h w0).2.configs i ((j + w0.size - 1) % w0.size) > 0
                    ∧ rd2 (setupModelWorkspace h w0).2.configs i ((j + 1) % w0.size) > 0
                  then rd params 3
                else if rd2 (setupModelWorkspace h w0).2.configs i ((j + w0.size - 1) % w0.size) > 0
                    ∨ rd2 (setupModelWorkspace h w0).2.configs i ((j + 1) % w0.size) > 0
                  then rd params 2
                else rd params 1)
            else 0) ∧
      rd (Nn.assignEnergies (setupModelWorkspace h w0).2 sim params).2.enthalpies i
        = (∑ j in Finset.range w0.size,
            if rd2 (setupModelWorkspace h w0).2.configs i j > 0 then
              rd params 4 +
                (if rd2 (setupModelWorkspace h w0).2.configs i ((j + w0.size - 1) % w0.size) > 0
                    ∧ rd2 (setupModelWorkspace h w0).2.configs i ((j + 1) % w0.size) > 0
                  then rd params 7
                else if rd2 (setupModelWorkspace h w0).2.configs i ((j + w0.size - 1) % w0.size) > 0
                    ∨ rd2 (setupModelWorkspace h w0).2.configs i ((j + 1) % w0.size) > 0
                  then rd params 6
                else rd params 5)
            else 0) := by
  obtain ⟨s1, _, _, _, _, _, _, _, _, _, _, s12, s13⟩ := setupModelWorkspace_spec h w0 hs
  obtain ⟨_, _, _, e1, _, h1, _⟩ := accumEnergies_spec
    (nnTerm (rd params 0) (rd params 1) (rd params 2) (rd params 3))
    (nnTerm (rd params 4) (rd params 5) (rd params 6) (rd params 7))
    (setupModelWorkspace h w0).2 sim
  rw [s1] at e1 h1
  intro i hi
  have hbit : ∀ k, k < w0.size → rd2 (setupModelWorkspace h w0).2.configs i k = 0
      ∨ rd2 (setupModelWorkspace h w0).2.configs i k = 1 := by
    intro k hk
    rw [(s13 i hi).1 k hk]
    rcases Nat.mod_two_eq_zero_or_one (i / 2 ^ (w0.size - 1 - k)) with h0 | h1
    · left; rw [h0]; rfl
    · right; rw [h1]; rfl
  have hterm : ∀ (p0 a b c : α) (j : Nat), j < w0.size →
      nnTerm p0 a b c (setupModelWorkspace h w0).2.configs w0.size i j
        = p0 +
          (if rd2 (setupModelWorkspace h w0).2.configs i ((j + w0.size - 1) % w0.size) > 0
              ∧ rd2 (setupModelWorkspace h w0).2.configs i ((j + 1) % w0.size) > 0
            then c
          else if rd2 (setupModelWorkspace h w0).2.configs i ((j + w0.size - 1) % w0.size) > 0
              ∨ rd2 (setupModelWorkspace h w0).2.configs i ((j + 1) % w0.size) > 0
            then b
          else a) := by
    intro p0 a b c j hj
    unfold nnTerm
    rw [permute_right w0.size j hj, permute_left w0.size j hj, rdI_natCast, rdI_natCast,
      nnPattern_bits a b c _ _ (hbit _ (Nat.mod_lt _ (by omega)))
        (hbit _ (Nat.mod_lt _ (by omega)))]
  refine ⟨?_, ?_⟩
  · rw [nn_eq_accum, e1 i hi (by rw [s12]; exact hi)]
    unfold siteSum
    apply Finset.sum_congr rfl
    intro j hj
    rw [hterm _ _ _ _ j (Finset.mem_range.mp hj)]
  · rw [nn_eq_accum, h1 i hi (by rw [hsim]; exact hi)]
    unfold siteSum
    apply Finset.sum_congr rfl
    intro j hj
    rw [hterm _ _ _ _ j (Finset.mem_range.mp hj)]

/-- A witness of C16 as amended: one site, where configuration `0` has no occupied
site; and three sites with sites `0` and `1` occupied (configuration `6`), where one
site has only its right and the other only its left neighbour occupied and both add
`params[0] + params[2]`. -/
theorem nn_assignEnergies_witness :
    (setupModelWorkspace (sampleHeap ℝ) (sampleWorkspace ℝ 1)).1 = 0 ∧
    ({ enthalpies := [0, 0] } : sWorkspace ℝ).enthalpies.length
      = 2 ^ (sampleWorkspace ℝ 1).size ∧
    (0 : Nat) < 2 ^ (sampleWorkspace ℝ 1).size ∧
    rd (Nn.assignEnergies (setupModelWorkspace (sampleHeap ℝ) (sampleWorkspace ℝ 1)).2
        { enthalpies := [0, 0] } [1, 2, 3, 4, 5, 6, 7, 8]).1.energies 0 = 0 ∧
    (setupModelWorkspace (sampleHeap ℝ) (sampleWorkspace ℝ 3)).1 = 0 ∧
    rd (Nn.assignEnergies (setupModelWorkspace (sampleHeap ℝ) (sampleWorkspace ℝ 3)).2
        { enthalpies := [0, 0, 0, 0, 0, 0, 0, 0] } [1, 2, 3, 4, 5, 6, 7, 8]).1.energies 6
      = 8 :=
  ⟨by decide, rfl, by decide,
    ((nn_assignEnergies (sampleHeap ℝ) (sampleWorkspace ℝ 1) (by decide)
      { enthalpies := [0, 0] } rfl [1, 2, 3, 4, 5, 6, 7, 8] 0 (by decide)).1).trans (by
        have hc : rd2 (setupModelWorkspace (sampleHeap ℝ) (sampleWorkspace ℝ 1)).2.configs 0 0
            = 0 := by decide
        show (∑ j in Finset.range 1, _) = (0 : ℝ)
        rw [Finset.sum_range_one, hc]
        simp),
    by decide,
    by
      have T := (nn_assignEnergies (sampleHeap ℝ) (sampleWorkspace ℝ 3) (by decide)
        { enthalpies := [0, 0, 0, 0, 0, 0, 0, 0] } rfl [1, 2, 3, 4, 5, 6, 7, 8] 6
        (by decide)).1
      have c0 : rd2 (setupModelWorkspace (sampleHeap ℝ) (sampleWorkspace ℝ 3)).2.configs 6 0
          = 1 := by decide
      have c1 : rd2 (setupModelWorkspace (sampleHeap ℝ) (sampleWorkspace ℝ 3)).2.configs 6 1
          = 1 := by decide
      have c2 : rd2 (setupModelWorkspace (sampleHeap ℝ) (sampleWorkspace ℝ 3)).2.configs 6 2
          = 0 := by decide
      have hs : (sampleWorkspace ℝ 3).size = 3 := rfl
      rw [T, hs]
      simp only [Finset.sum_range_succ, Finset.sum_range_zero]
      norm_num [c0, c1, c2, rd]⟩

end NnModel

/-! ## The function `permute` of the hybrid and jump2 models -/

section HybridPermute

/-- C17 fails on the code.  For a ring of `4` sites and site `0`, the left neighbour
`permute (0 - 1, 4)` of `energies_hybrid.c` and `energies_jump2.c` is `-2`, not
`(0 - 1) mod 4 = 3`: the index is negative, outside the row.  The same happens for
the offsets `-2` and `-3` of jump2, and for every ring size `n + 1 ≥ 1` the value
`permute (-1, n + 1)` is negative. -/
theorem hybrid_permute_negative :
    Hybrid.permute ((0 : Int) - 1) 4 = -2 ∧ ((0 : Int) - 1) % 4 = 3 ∧
    ¬ (0 ≤ Hybrid.permute ((0 : Int) - 1) 4) ∧
    Hybrid.permute ((0 : Int) - 2) 4 = -4 ∧ Hybrid.permute ((0 : Int) - 3) 4 = -6 ∧
    (∀ n : Nat, Hybrid.permute ((0 : Int) - 1) ((n : Int) + 1) < 0) := by
  refine ⟨by decide, by decide, by decide, by decide, by decide, ?_⟩
  intro n
  unfold Hybrid.permute
  rw [if_pos (by omega)]
  have h1 : Int.tmod ((0 : Int) - 1) ((n : Int) + 1) ≤ 0 := by
    show -((1 % (n + 1) : Nat) : Int) ≤ 0
    omega
  omega

end HybridPermute

/-! ## What the neighbour models read and write -/

section Overwrite

variable {α : Type} [Field α]

/-- The arrays computed by the shared loops depend on the workspaces only through
`size`, `configs`, the lengths of the two arrays and their entries from `2 ^ size`
on. -/
theorem accum_arrays_congr (gE gH : List (List Int) → Nat → Nat → Nat → α)
    (w v : mWorkspace α) (sim tim : sWorkspace α)
    (hsize : v.size = w.size) (hcf : v.configs = w.configs)
    (hl : v.energies.length = w.energies.length)
    (ht : ∀ i, 2 ^ w.size ≤ i → rd v.energies i = rd w.energies i)
    (hl2 : tim.enthalpies.length = sim.enthalpies.length)
    (ht2 : ∀ i, 2 ^ w.size ≤ i → rd tim.enthalpies i = rd sim.enthalpies i) :
    (accumEnergies gE gH v tim).1.energies = (accumEnergies gE gH w sim).1.energies ∧
    (accumEnergies gE gH v tim).2.enthalpies = (accumEnergies gE gH w sim).2.enthalpies := by
  obtain ⟨_, a2, a3, a4, a5, a6, a7⟩ := accumEnergies_spec gE gH w sim
  obtain ⟨_, b2, b3, b4, b5, b6, b7⟩ := accumEnergies_spec gE gH v tim
  rw [hsize] at b4 b5 b6 b7
  rw [hcf] at b4 b6
  refine ⟨?_, ?_⟩
  · apply list_ext_rd _ _ (by rw [b2, a2, hl])
    intro i hi
    rw [b2] at hi
    by_cases hlt : i < 2 ^ w.size
    · rw [b4 i hlt hi, a4 i hlt (by rw [← hl]; exact hi)]
    · rw [b5 i (Nat.le_of_not_lt hlt), a5 i (Nat.le_of_not_lt hlt), ht i (Nat.le_of_not_lt hlt)]
  · apply list_ext_rd _ _ (by rw [b3, a3, hl2])
    intro i hi
    rw [b3] at hi
    by_cases hlt : i < 2 ^ w.size
    · rw [b6 i hlt hi, a6 i hlt (by rw [← hl2]; exact hi)]
    · rw [b7 i (Nat.le_of_not_lt hlt), a7 i (Nat.le_of_not_lt hlt), ht2 i (Nat.le_of_not_lt hlt)]

/-- The shared loops do not read `cyclic`. -/
theorem accum_cyclic (gE gH : List (List Int) → Nat → Nat → Nat → α)
    (w : mWorkspace α) (sim : sWorkspace α) (c1 c2 : Int) :
    (accumEnergies gE gH { w with cyclic := c1 } sim).1.energies
      = (accumEnergies gE gH { w with cyclic := c2 } sim).1.energies ∧
    (accumEnergies gE gH { w with cyclic := c1 } sim).2.enthalpies
      = (accumEnergies gE gH { w with cyclic := c2 } sim).2.enthalpies :=
  accum_arrays_congr gE gH { w with cyclic := c2 } { w with cyclic := c1 } sim sim rfl rfl rfl
    (fun _ _ => rfl) rfl (fun _ _ => rfl)

/-- Running the shared loops with the terms `gE`, `gH` on the result of a run with
other terms gives what a run with `gE`, `gH` alone gives. -/
theorem accum_override (fE fH gE gH : List (List Int) → Nat → Nat → Nat → α)
    (w : mWorkspace α) (sim : sWorkspace α) :
    accumEnergies gE gH (accumEnergies fE fH w sim).1 (accumEnergies fE fH w sim).2
      = accumEnergies gE gH w sim := by
  obtain ⟨a1, a2, a3, _, a5, _, a7⟩ := accumEnergies_spec fE fH w sim
  obtain ⟨b1, _⟩ := accumEnergies_spec gE gH w sim
  obtain ⟨c1, _⟩ := accumEnergies_spec gE gH (accumEnergies fE fH w sim).1
    (accumEnergies fE fH w sim).2
  have hsize : (accumEnergies fE fH w sim).1.size = w.size := by rw [a1]
  have hcf : (accumEnergies fE fH w sim).1.configs = w.configs := by rw [a1]
  obtain ⟨d1, d2⟩ := accum_arrays_congr gE gH w (accumEnergies fE fH w sim).1 sim
    (accumEnergies fE fH w sim).2 hsize hcf a2 a5 a3 a7
  apply Prod.ext
  · rw [c1, b1, d1]
    exact frame_set_energies _ w _ a1
  · cases hx : (accumEnergies gE gH (accumEnergies fE fH w sim).1 (accumEnergies fE fH w sim).2).2
    cases hy : (accumEnergies gE gH w sim).2
    rw [hx, hy] at d2
    simp only at d2
    rw [d2]

theorem rd_of_le (xs : List α) (i : Nat) (h : xs.length ≤ i) : rd xs i = 0 := by
  unfold rd
  exact List.getD_eq_default xs 0 h

/-- When both arrays have `2 ^ size` entries, their previous contents do not matter
to the shared loops. -/
theorem accum_replace (gE gH : List (List Int) → Nat → Nat → Nat → α)
    (w : mWorkspace α) (sim : sWorkspace α) (hE : w.energies.length = 2 ^ w.size)
    (hH : sim.enthalpies.length = 2 ^ w.size) (E H : List α)
    (hE2 : E.length = 2 ^ w.size) (hH2 : H.length = 2 ^ w.size) :
    accumEnergies gE gH { w with energies := E } { enthalpies := H }
      = accumEnergies gE gH w sim := by
  obtain ⟨b1, _⟩ := accumEnergies_spec gE gH w sim
  obtain ⟨c1, _⟩ := accumEnergies_spec gE gH { w with energies := E } { enthalpies := H }
  obtain ⟨d1, d2⟩ := accum_arrays_congr gE gH w { w with energies := E } sim
    { enthalpies := H } rfl rfl (hE2.trans hE.symm)
    (fun i hi => by
      rw [rd_of_le w.energies i (by rw [hE]; exact hi)]
      exact rd_of_le E i (by rw [hE2]; exact hi))
    (hH2.trans hH.symm)
    (fun i hi => by
      rw [rd_of_le sim.enthalpies i (by rw [hH]; exact hi)]
      exact rd_of_le H i (by rw [hH2]; exact hi))
  apply Prod.ext
  · rw [c1, b1, d1]
  · cases hx : (accumEnergies gE gH { w with energies := E } { enthalpies := H }).2
    cases hy : (accumEnergies gE gH w sim).2
    rw [hx, hy] at d2
    simp only at d2
    rw [d2]

/-- C18 fails on the code.  On the lattice of four sites, with
`(Ga, Gb, Gc) = (1, 2, 3)` and `(Ha, Hb, Hc) = (10, 20, 30)`, `assignEnergies` of the
additive 3-parameter model run with `cyclic = 1` and with `cyclic = 0` produces the
same array `energies`: no configuration gets different energies. -/
theorem sk_cyclic_same :
    (2 : ℝ) ≠ 3 ∧
    (Sk.assignEnergies
        { (setupModelWorkspace (sampleHeap ℝ) (sampleWorkspace ℝ 4)).2 with cyclic := 1 }
        (setupSimWorkspace (sampleHeap ℝ) 20
          (setupModelWorkspace (sampleHeap ℝ) (sampleWorkspace ℝ 4)).2).2
        1 2 3 10 20 30).1.energies
      = (Sk.assignEnergies
        { (setupModelWorkspace (sampleHeap ℝ) (sampleWorkspace ℝ 4)).2 with cyclic := 0 }
        (setupSimWorkspace (sampleHeap ℝ) 20
          (setupModelWorkspace (sampleHeap ℝ) (sampleWorkspace ℝ 4)).2).2
        1 2 3 10 20 30).1.energies := by
  have key : ∀ (W : mWorkspace ℝ) (S : sWorkspace ℝ),
      (Sk.assignEnergies { W with cyclic := 1 } S 1 2 3 10 20 30).1.energies
        = (Sk.assignEnergies { W with cyclic := 0 } S 1 2 3 10 20 30).1.energies := by
    intro W S
    rw [sk_eq_accum, sk_eq_accum]
    exact (accum_cyclic _ _ W S 1 0).1
  refine ⟨by norm_num, ?_⟩
  generalize (setupSimWorkspace (sampleHeap ℝ) 20
      (setupModelWorkspace (sampleHeap ℝ) (sampleWorkspace ℝ 4)).2).2 = S
  generalize (setupModelWorkspace (sampleHeap ℝ) (sampleWorkspace ℝ 4)).2 = W
  exact key W S

/-- C18, amended.  For every workspace (in particular every lattice of four sites)
and all parameters, `assignEnergies` of the additive 3-parameter model does not read
`cyclic`: run on two workspaces that differ only in `cyclic` it produces the same
arrays `energies` and `enthalpies`; the neighbour lookup always wraps.  The same
holds for `assignEnergies` of `energies_ian.c`. -/
theorem sk_ignores_cyclic (w : mWorkspace α) (sim : sWorkspace α)
    (Ga Gb Gc Ha Hb Hc : α) (c1 c2 : Int) :
    (Sk.assignEnergies { w with cyclic := c1 } sim Ga Gb Gc Ha Hb Hc).1.energies
      = (Sk.assignEnergies { w with cyclic := c2 } sim Ga Gb Gc Ha Hb Hc).1.energies ∧
    (Sk.assignEnergies { w with cyclic := c1 } sim Ga Gb Gc Ha Hb Hc).2.enthalpies
      = (Sk.assignEnergies { w with cyclic := c2 } sim Ga Gb Gc Ha Hb Hc).2.enthalpies ∧
    (Ian.assignEnergies { w with cyclic := c1 } sim Ga Gb Gc Ha Hb Hc).1.energies
      = (Ian.assignEnergies { w with cyclic := c2 } sim Ga Gb Gc Ha Hb Hc).1.energies ∧
    (Ian.assignEnergies { w with cyclic := c1 } sim Ga Gb Gc Ha Hb Hc).2.enthalpies
      = (Ian.assignEnergies { w with cyclic := c2 } sim Ga Gb Gc Ha Hb Hc).2.enthalpies := by
  rw [sk_eq_accum, sk_eq_accum, ian_eq_accum, ian_eq_accum]
  exact ⟨(accum_cyclic _ _ w sim c1 c2).1, (accum_cyclic _ _ w sim c1 c2).2,
    (accum_cyclic _ _ w sim c1 c2).1, (accum_cyclic _ _ w sim c1 c2).2⟩

/-- C20. For the additive 3-parameter model, the IK model and the NN model, on
every workspace whose arrays `energies` and `enthalpies` have `2 ^ size` entries:
`assignEnergies` changes no field of the model workspace but `energies` (so
`configs`, `bound`, `probs`, `size`, `cyclic`, `temp`, `Ptot`, `Ltot`, `Lfree` stay);
every `energies[i]`, `enthalpies[i]` with `i < 2 ^ size` is a sum over the occupied
sites that is computed from `configs`, `size` and the parameters alone; the result
is the same when the two arrays held other contents before; and a run with the
parameters `q` after a run with the parameters `p` gives what the run with `q`
alone gives (with `q = p`: twice is once). -/
theorem ring_models_overwrite (w : mWorkspace α) (sim : sWorkspace α)
    (hE : w.energies.length = 2 ^ w.size) (hH : sim.enthalpies.length = 2 ^ w.size)
    (Ga Gb Gc Ha Hb Hc Ga2 Gb2 Gc2 Ha2 Hb2 Hc2 : α) (p q : List α) (E H : List α)
    (hE2 : E.length = 2 ^ w.size) (hH2 : H.length = 2 ^ w.size) :
    ((Sk.assignEnergies w sim Ga Gb Gc Ha Hb Hc).1
        = { w with energies := (Sk.assignEnergies w sim Ga Gb Gc Ha Hb Hc).1.energies } ∧
      (∀ i, i < 2 ^ w.size →
        rd (Sk.assignEnergies w sim Ga Gb Gc Ha Hb Hc).1.energies i
          = siteSum (skTerm Ga Gb Gc) w.configs w.size i ∧
        rd (Sk.assignEnergies w sim Ga Gb Gc Ha Hb Hc).2.enthalpies i
          = siteSum (skTerm Ha Hb Hc) w.configs w.size i) ∧
      Sk.assignEnergies { w with energies := E } { enthalpies := H } Ga Gb Gc Ha Hb Hc
        = Sk.assignEnergies w sim Ga Gb Gc Ha Hb Hc ∧
      Sk.assignEnergies (Sk.assignEnergies w sim Ga Gb Gc Ha Hb Hc).1
          (Sk.assignEnergies w sim Ga Gb Gc Ha Hb Hc).2 Ga2 Gb2 Gc2 Ha2 Hb2 Hc2
        = Sk.assignEnergies w sim Ga2 Gb2 Gc2 Ha2 Hb2 Hc2) ∧
    ((Ik.assignEnergies w sim p).1
        = { w with energies := (Ik.assignEnergies w sim p).1.energies } ∧
      (∀ i, i < 2 ^ w.size →
        rd (Ik.assignEnergies w sim p).1.energies i
          = siteSum (ikTerm (rd p 0) (rd p 1) (rd p 2)) w.configs w.size i ∧
        rd (Ik.assignEnergies w sim p).2.enthalpies i
          = siteSum (ikTerm (rd p 3) (rd p 4) (rd p 5)) w.configs w.size i) ∧
      Ik.assignEnergies { w with energies := E } { enthalpies := H } p
        = Ik.assignEnergies w sim p ∧
      Ik.assignEnergies (Ik.assignEnergies w sim p).1 (Ik.assignEnergies w sim p).2 q
        = Ik.assignEnergies w sim q) ∧
    ((Nn.assignEnergies w sim p).1
        = { w with energies := (Nn.assignEnergies w sim p).1.energies } ∧
      (∀ i, i < 2 ^ w.size →
        rd (Nn.assignEnergies w sim p).1.energies i
          = siteSum (nnTerm (rd p 0) (rd p 1) (rd p 2) (rd p 3)) w.configs w.size i ∧
        rd (Nn.assignEnergies w sim p).2.enthalpies i
          = siteSum (nnTerm (rd p 4) (rd p 5) (rd p 6) (rd p 7)) w.configs w.size i) ∧
      Nn.assignEnergies { w with energies := E } { enthalpies := H } p
        = Nn.assignEnergies w sim p ∧
      Nn.assignEnergies (Nn.assignEnergies w sim p).1 (Nn.assignEnergies w sim p).2 q
        = Nn.assignEnergies w sim q) := by
  refine ⟨?_, ?_, ?_⟩
  · simp only [sk_eq_accum]
    obtain ⟨a1, _, _, a4, _, a6, _⟩ := accumEnergies_spec (skTerm Ga Gb Gc) (skTerm Ha Hb Hc)
      w sim
    exact ⟨a1, fun i hi => ⟨a4 i hi (by rw [hE]; exact hi), a6 i hi (by rw [hH]; exact hi)⟩,
      accum_replace _ _ w sim hE hH E H hE2 hH2, accum_override _ _ _ _ w sim⟩
  · simp only [ik_eq_accum]
    obtain ⟨a1, _, _, a4, _, a6, _⟩ := accumEnergies_spec (ikTerm (rd p 0) (rd p 1) (rd p 2))
      (ikTerm (rd p 3) (rd p 4) (rd p 5)) w sim
    exact ⟨a1, fun i hi => ⟨a4 i hi (by rw [hE]; exact hi), a6 i hi (by rw [hH]; exact hi)⟩,
      accum_replace _ _ w sim hE hH E H hE2 hH2, accum_override _ _ _ _ w sim⟩
  · simp only [nn_eq_accum]
    obtain ⟨a1, _, _, a4, _, a6, _⟩ := accumEnergies_spec
      (nnTerm (rd p 0) (rd p 1) (rd p 2) (rd p 3)) (nnTerm (rd p 4) (rd p 5) (rd p 6) (rd p 7))
      w sim
    exact ⟨a1, fun i hi => ⟨a4 i hi (by rw [hE]; exact hi), a6 i hi (by rw [hH]; exact hi)⟩,
      accum_replace _ _ w sim hE hH E H hE2 hH2, accum_override _ _ _ _ w sim⟩

/-- A witness of C20: the lattice of one site, arrays holding `7, 8` and `9, 9`
replaced by arrays holding zeros. -/
theorem ring_models_overwrite_witness :
    ({ (setupModelWorkspace (sampleHeap ℝ) (sampleWorkspace ℝ 1)).2 with
        energies := [7, 8] } : mWorkspace ℝ).energies.length
      = 2 ^ ({ (setupModelWorkspace (sampleHeap ℝ) (sampleWorkspace ℝ 1)).2 with
        energies := [7, 8] } : mWorkspace ℝ).size ∧
    ({ enthalpies := [9, 9] } : sWorkspace ℝ).enthalpies.length
      = 2 ^ ({ (setupModelWorkspace (sampleHeap ℝ) (sampleWorkspace ℝ 1)).2 with
        energies := [7, 8] } : mWorkspace ℝ).size ∧
    Nn.assignEnergies
        ({ ({ (setupModelWorkspace (sampleHeap ℝ) (sampleWorkspace ℝ 1)).2 with
            energies := [7, 8] } : mWorkspace ℝ) with energies := [0, 0] })
        { enthalpies := [0, 0] } [1, 2, 3, 4, 5, 6, 7, 8]
      = Nn.assignEnergies
        ({ (setupModelWorkspace (sampleHeap ℝ) (sampleWorkspace ℝ 1)).2 with
            energies := [7, 8] } : mWorkspace ℝ)
        { enthalpies := [9, 9] } [1, 2, 3, 4, 5, 6, 7, 8] :=
  ⟨by decide, by decide,
    (ring_models_overwrite
      ({ (setupModelWorkspace (sampleHeap ℝ) (sampleWorkspace ℝ 1)).2 with
          energies := [7, 8] } : mWorkspace ℝ)
      { enthalpies := [9, 9] } (by decide) (by decide) 1 2 3 10 20 30 1 2 3 10 20 30
      [1, 2, 3, 4, 5, 6, 7, 8] [1, 2, 3, 4, 5, 6, 7, 8] [0, 0] [0, 0]
      (by decide) (by decide)).2.2.2.2.1⟩

end Overwrite

/-! ## The scenario of one site -/

section OneSite

/-- The residual and the heat of the scenario of one site at the trial value `x ≥ 0`,
with `K = exp (5000 / (8.3144621 * 298.15))`. -/
theorem oneSite_formulas (x : ℝ) (hx : 0 ≤ x) :
    (getFree Real.exp x (oneSiteScenario ℝ).1).1
      = 5e-6 - (1e-6 * (Real.exp (5000 / (8.3144621 * 298.15)) * x
          / (1 + Real.exp (5000 / (8.3144621 * 298.15)) * x)) + x) ∧
    getQ (oneSiteScenario ℝ).2 (getFree Real.exp x (oneSiteScenario ℝ).1).2
      = -8000 * (Real.exp (5000 / (8.3144621 * 298.15)) * x
          / (1 + Real.exp (5000 / (8.3144621 * 298.15)) * x)) := by
  have hsize : (oneSiteScenario ℝ).1.size = 1 := by decide
  have hlen : 2 ^ (oneSiteScenario ℝ).1.size ≤ (oneSiteScenario ℝ).1.probs.length := by decide
  have hb0 : rd (oneSiteScenario ℝ).1.bound 0 = 0 := by decide
  have hb1 : rd (oneSiteScenario ℝ).1.bound 1 = 1 := by decide
  have hT : (oneSiteScenario ℝ).1.temp = 298.15 := by
    show (29815 / 100 : ℝ) = 298.15
    norm_num
  have hP : (oneSiteScenario ℝ).1.Ptot = 1e-6 := by
    show (1 / 1000000 : ℝ) = 1e-6
    norm_num
  have hL : (oneSiteScenario ℝ).1.Ltot = 5e-6 := by
    show (5 / 1000000 : ℝ) = 5e-6
    norm_num
  have he0 : rd (oneSiteScenario ℝ).1.energies 0 = 0 := rfl
  have he1 : rd (oneSiteScenario ℝ).1.energies 1 = -5000 := by
    show (0 : ℝ) + -5000 = -5000
    norm_num
  have hh0 : rd (oneSiteScenario ℝ).2.enthalpies 0 = 0 := rfl
  have hh1 : rd (oneSiteScenario ℝ).2.enthalpies 1 = -8000 := by
    show (0 : ℝ) + -8000 = -8000
    norm_num
  have hK : 0 < Real.exp (5000 / (8.3144621 * 298.15)) := Real.exp_pos _
  have hden : 0 < 1 + Real.exp (5000 / (8.3144621 * 298.15)) * x := by positivity
  refine ⟨?_, ?_⟩
  · rw [getFree_formula (oneSiteScenario ℝ).1 hlen (by
      intro i hi
      rw [hsize] at hi
      interval_cases i
      · rw [hb0]
      · rw [hb1]; decide) x]
    rw [hsize, hL, hP]
    simp only [pow_one, Finset.sum_range_succ, Finset.sum_range_zero, hb0, hb1, he0, he1, hT]
    norm_num
  · rw [getQ_sum]
    obtain ⟨_, hp⟩ := setProbabilities_spec Real.exp { (oneSiteScenario ℝ).1 with Lfree := x } hlen
    have hq : (getFree Real.exp x (oneSiteScenario ℝ).1).2
        = setProbabilities Real.exp { (oneSiteScenario ℝ).1 with Lfree := x } := rfl
    have hsz : (getFree Real.exp x (oneSiteScenario ℝ).1).2.size = 1 := hsize
    rw [hsz]
    simp only [pow_one, Finset.sum_range_succ, Finset.sum_range_zero]
    rw [hh0, hh1, hq, hp 1 (by rw [show ({ (oneSiteScenario ℝ).1 with Lfree := x } : mWorkspace ℝ).size = 1 from hsize]; norm_num)]
    rw [show ({ (oneSiteScenario ℝ).1 with Lfree := x } : mWorkspace ℝ).size = 1 from hsize]
    simp only [pow_one, Finset.sum_range_succ, Finset.sum_range_zero, weight_real, hb0, hb1,
      he0, he1, hT, zpow_zero, zpow_one, zero_mul, zero_add]
    rw [neg_neg, neg_zero, zero_div, Real.exp_zero, mul_one]

/-- In the scenario of one site the residual has a root strictly inside the bracket. -/
theorem oneSite_root_exists :
    ∃ x : ℝ, 0 < x ∧ x < 5e-6 ∧ (getFree Real.exp x (oneSiteScenario ℝ).1).1 = 0 := by
  have hK : 0 < Real.exp (5000 / (8.3144621 * 298.15)) := Real.exp_pos _
  have hcont : ContinuousOn (fun x : ℝ => 5e-6 - (1e-6 * (Real.exp (5000 / (8.3144621 * 298.15)) * x
          / (1 + Real.exp (5000 / (8.3144621 * 298.15)) * x)) + x)) (Set.Icc 0 5e-6) := by
    apply ContinuousOn.sub continuousOn_const
    apply ContinuousOn.add _ continuousOn_id
    apply ContinuousOn.mul continuousOn_const
    apply ContinuousOn.div
    · exact (continuousOn_const.mul continuousOn_id)
    · exact (continuousOn_const.add (continuousOn_const.mul continuousOn_id))
    · intro x hx
      have : 0 ≤ x := hx.1
      positivity
  have h0 : (0 : ℝ) ∈ Set.Icc
      ((fun x : ℝ => 5e-6 - (1e-6 * (Real.exp (5000 / (8.3144621 * 298.15)) * x
          / (1 + Real.exp (5000 / (8.3144621 * 298.15)) * x)) + x)) 5e-6)
      ((fun x : ℝ => 5e-6 - (1e-6 * (Real.exp (5000 / (8.3144621 * 298.15)) * x
          / (1 + Real.exp (5000 / (8.3144621 * 298.15)) * x)) + x)) 0) := by
    constructor
    · show 5e-6 - (1e-6 * (Real.exp (5000 / (8.3144621 * 298.15)) * 5e-6
          / (1 + Real.exp (5000 / (8.3144621 * 298.15)) * 5e-6)) + 5e-6) ≤ (0 : ℝ)
      have : 0 ≤ Real.exp (5000 / (8.3144621 * 298.15)) * 5e-6
          / (1 + Real.exp (5000 / (8.3144621 * 298.15)) * 5e-6) := by positivity
      nlinarith
    · show (0 : ℝ) ≤ 5e-6 - (1e-6 * (Real.exp (5000 / (8.3144621 * 298.15)) * 0
          / (1 + Real.exp (5000 / (8.3144621 * 298.15)) * 0)) + 0)
      norm_num
  obtain ⟨x, hx, hfx⟩ := intermediate_value_Icc' (by norm_num : (0 : ℝ) ≤ 5e-6) hcont h0
  have hroot : (getFree Real.exp x (oneSiteScenario ℝ).1).1 = 0 := by
    rw [(oneSite_formulas x hx.1).1]
    exact hfx
  have hx0 : x ≠ 0 := by
    intro h
    rw [h] at hfx
    norm_num at hfx
  have hxL : x ≠ 5e-6 := by
    intro h
    rw [h] at hfx
    have : 0 < Real.exp (5000 / (8.3144621 * 298.15)) * 5e-6
          / (1 + Real.exp (5000 / (8.3144621 * 298.15)) * 5e-6) := by positivity
    simp only at hfx
    nlinarith
  exact ⟨x, lt_of_le_of_ne hx.1 (Ne.symm hx0), lt_of_le_of_ne hx.2 hxL, hroot⟩

/-- In the scenario of one site the residual has at most one root at `x ≥ 0`. -/
theorem oneSite_root_unique (x y : ℝ) (hx : 0 ≤ x) (hy : 0 ≤ y)
    (fx : (getFree Real.exp x (oneSiteScenario ℝ).1).1 = 0)
    (fy : (getFree Real.exp y (oneSiteScenario ℝ).1).1 = 0) : x = y := by
  obtain ⟨d1, _, _⟩ := getFree_decreasing (oneSiteScenario ℝ).1 (by decide)
    (by
      intro i hi
      rw [show (oneSiteScenario ℝ).1.size = 1 from by decide] at hi
      interval_cases i
      · decide
      · decide)
    (by decide)
    (by show (0 : ℝ) ≤ 1 / 1000000; norm_num)
  rcases lt_trichotomy x y with h | h | h
  · have := d1 x y hx h
    rw [fx, fy] at this
    exact absurd this (lt_irrefl _)
  · exact h
  · have := d1 y x hy h
    rw [fx, fy] at this
    exact absurd this (lt_irrefl _)

/-- At a root of the residual inside the bracket, the heat of the scenario of one
site is at least `8000 * 1e-6` and less than `8000` in magnitude. -/
theorem oneSite_heat_at_root (x : ℝ) (hx0 : 0 < x) (_hxL : x < 5e-6)
    (fx : (getFree Real.exp x (oneSiteScenario ℝ).1).1 = 0) :
    8000 * 1e-6 ≤ |getQ (oneSiteScenario ℝ).2 (getFree Real.exp x (oneSiteScenario ℝ).1).2| ∧
    |getQ (oneSiteScenario ℝ).2 (getFree Real.exp x (oneSiteScenario ℝ).1).2| < 8000 := by
  obtain ⟨hf, hq⟩ := oneSite_formulas x hx0.le
  rw [hf] at fx
  rw [hq]
  have hK1 : 1 ≤ Real.exp (5000 / (8.3144621 * 298.15)) := by
    apply Real.one_le_exp
    positivity
  generalize Real.exp (5000 / (8.3144621 * 298.15)) = K at *
  have hden : 0 < 1 + K * x := by positivity
  have hp0 : 0 < K * x / (1 + K * x) := by positivity
  have hp1 : K * x / (1 + K * x) < 1 := by
    rw [div_lt_one hden]
    linarith
  have hx4 : 4e-6 < x := by
    norm_num at fx ⊢
    linarith
  have hpl : 1e-6 ≤ K * x / (1 + K * x) := by
    rw [le_div_iff₀ hden]
    have : x ≤ K * x := by nlinarith
    norm_num at hx4 ⊢
    nlinarith
  rw [abs_mul, abs_of_pos hp0]
  norm_num
  constructor
  · norm_num at hpl
    linarith
  · linarith

/-- C19 fails on the code.  In the scenario of one site (`Gbind = -5000`,
`Hbind = -8000`, `T = 298.15`, `Ptot = 1e-6`, `Ltot = 5e-6`) the residual has a root
in the open interval `(0, 5e-6)` at which the heat returned by `getQ` is at least
`8000 * 1e-6` in magnitude, and no root in that interval has a heat below
`8000 * 1e-6` in magnitude. -/
theorem oneSite_heat_above_bound :
    (∃ x : ℝ, 0 < x ∧ x < 5e-6 ∧ (getFree Real.exp x (oneSiteScenario ℝ).1).1 = 0 ∧
      8000 * 1e-6
        ≤ |getQ (oneSiteScenario ℝ).2 (getFree Real.exp x (oneSiteScenario ℝ).1).2|) ∧
    ¬ ∃ x : ℝ, 0 < x ∧ x < 5e-6 ∧ (getFree Real.exp x (oneSiteScenario ℝ).1).1 = 0 ∧
      |getQ (oneSiteScenario ℝ).2 (getFree Real.exp x (oneSiteScenario ℝ).1).2|
        < 8000 * 1e-6 := by
  refine ⟨?_, ?_⟩
  · obtain ⟨x, hx0, hxL, fx⟩ := oneSite_root_exists
    exact ⟨x, hx0, hxL, fx, (oneSite_heat_at_root x hx0 hxL fx).1⟩
  · rintro ⟨x, hx0, hxL, fx, hq⟩
    exact absurd hq (not_lt.mpr (oneSite_heat_at_root x hx0 hxL fx).1)

/-- C19, amended.  In the scenario of one site the residual `getFree` has exactly
one root in the open interval `(0, 5e-6)`; with the probabilities at that root the
heat returned by `getQ`, a molar enthalpy, is strictly between `0` and `8000` in
magnitude, and it is its product with `Ptot = 1e-6` that is strictly between `0` and
`8000 * 1e-6`. -/
theorem oneSite_root_and_heat :
    (∃! x : ℝ, 0 < x ∧ x < 5e-6 ∧ (getFree Real.exp x (oneSiteScenario ℝ).1).1 = 0) ∧
    ∃ x : ℝ, 0 < x ∧ x < 5e-6 ∧ (getFree Real.exp x (oneSiteScenario ℝ).1).1 = 0 ∧
      0 < |getQ (oneSiteScenario ℝ).2 (getFree Real.exp x (oneSiteScenario ℝ).1).2| ∧
      |getQ (oneSiteScenario ℝ).2 (getFree Real.exp x (oneSiteScenario ℝ).1).2| < 8000 ∧
      0 < 1e-6 * |getQ (oneSiteScenario ℝ).2 (getFree Real.exp x (oneSiteScenario ℝ).1).2| ∧
      1e-6 * |getQ (oneSiteScenario ℝ).2 (getFree Real.exp x (oneSiteScenario ℝ).1).2|
        < 8000 * 1e-6 := by
  obtain ⟨x, hx0, hxL, fx⟩ := oneSite_root_exists
  obtain ⟨q1, q2⟩ := oneSite_heat_at_root x hx0 hxL fx
  have qpos : 0 < |getQ (oneSiteScenario ℝ).2 (getFree Real.exp x (oneSiteScenario ℝ).1).2| :=
    lt_of_lt_of_le (by norm_num) q1
  refine ⟨⟨x, ⟨hx0, hxL, fx⟩, ?_⟩, x, hx0, hxL, fx, qpos, q2, ?_, ?_⟩
  · rintro y ⟨hy0, _, fy⟩
    exact oneSite_root_unique y x hy0.le hx0.le fy fx
  · exact mul_pos (by norm_num) qpos
  · generalize |getQ (oneSiteScenario ℝ).2 (getFree Real.exp x (oneSiteScenario ℝ).1).2| = q
      at q2
    norm_num
    linarith

end OneSite

/-! ## Normalisation without a guard -/

section Unguarded

variable {α : Type} [Field α]

/-- The second loop of `setProbabilities`, whatever the division does. -/
theorem divideLoopWith_spec (divf : α → α → α) (sum : α) (q : List α) :
    ∀ (n : Nat), n ≤ q.length →
    (forLoop n (fun i (probs : List α) => probs.set i (divf (rd probs i) sum)) q).length
      = q.length ∧
    (∀ i, i < n →
      rd (forLoop n (fun i (probs : List α) => probs.set i (divf (rd probs i) sum)) q) i
        = divf (rd q i) sum) ∧
    (∀ i, n ≤ i →
      rd (forLoop n (fun i (probs : List α) => probs.set i (divf (rd probs i) sum)) q) i
        = rd q i) := by
  intro n
  induction n with
  | zero =>
    intro _
    exact ⟨rfl, fun i hi => absurd hi (Nat.not_lt_zero i), fun _ _ => rfl⟩
  | succ m ih =>
    intro hm
    obtain ⟨h1, h2, h3⟩ := ih (Nat.le_of_succ_le hm)
    rw [forLoop_succ]
    refine ⟨by rw [List.length_set, h1], ?_, ?_⟩
    · intro i hi
      by_cases him : i = m
      · subst him
        rw [rd_set_self _ _ _ (by rw [h1]; exact hm), h3 i (Nat.le_refl i)]
      · rw [rd_set_ne _ _ _ _ (Ne.symm him)]
        exact h2 i (by omega)
    · intro i hi
      rw [rd_set_ne _ _ _ _ (by omega)]
      exact h3 i (by omega)

/-- The array `probs` after `setProbabilities`, whatever the division does: the
result of dividing every weight by the sum of all weights. -/
theorem setProbabilitiesWith_spec (expf : α → α) (divf : α → α → α) (w : mWorkspace α)
    (hlen : 2 ^ w.size ≤ w.probs.length) :
    (setProbabilitiesWith expf divf w).probs.length = w.probs.length ∧
    (∀ i, i < 2 ^ w.size → rd (setProbabilitiesWith expf divf w).probs i
      = divf (weight expf w i) (∑ k in Finset.range (2 ^ w.size), weight expf w k)) := by
  obtain ⟨h1, h2, h3⟩ := weightLoop_spec (weight expf w) w.probs (2 ^ w.size) hlen
  obtain ⟨g1, g2, _⟩ := divideLoopWith_spec divf
    (forLoop (2 ^ w.size) (fun i (s : List α × α) =>
      ((s.1.set i (weight expf w i)), s.2 + rd (s.1.set i (weight expf w i)) i)) (w.probs, 0)).2
    (forLoop (2 ^ w.size) (fun i (s : List α × α) =>
      ((s.1.set i (weight expf w i)), s.2 + rd (s.1.set i (weight expf w i)) i)) (w.probs, 0)).1
    (2 ^ w.size) (by rw [h1]; exact hlen)
  refine ⟨?_, ?_⟩
  · exact g1.trans h1
  · intro i hi
    exact (g2 i hi).trans (by rw [h2 i hi, h3])

end Unguarded

section UnguardedReal

/-- The weights of the lattice of one site with energies `0` at `Lfree = -1`. -/
theorem negLigand_weights :
    weight Real.exp (conditions (setupModelWorkspace (sampleHeap ℝ) (sampleWorkspace ℝ 1)).2
      [0, 0] 298.15 0 0 (-1)) 0 = 1 ∧
    weight Real.exp (conditions (setupModelWorkspace (sampleHeap ℝ) (sampleWorkspace ℝ 1)).2
      [0, 0] 298.15 0 0 (-1)) 1 = -1 := by
  have hb0 : rd (conditions (setupModelWorkspace (sampleHeap ℝ) (sampleWorkspace ℝ 1)).2
      [0, 0] 298.15 0 0 (-1)).bound 0 = 0 := by decide
  have hb1 : rd (conditions (setupModelWorkspace (sampleHeap ℝ) (sampleWorkspace ℝ 1)).2
      [0, 0] 298.15 0 0 (-1)).bound 1 = 1 := by decide
  have he0 : rd (conditions (setupModelWorkspace (sampleHeap ℝ) (sampleWorkspace ℝ 1)).2
      [0, 0] 298.15 0 0 (-1)).energies 0 = 0 := rfl
  have he1 : rd (conditions (setupModelWorkspace (sampleHeap ℝ) (sampleWorkspace ℝ 1)).2
      [0, 0] 298.15 0 0 (-1)).energies 1 = 0 := rfl
  have hL : (conditions (setupModelWorkspace (sampleHeap ℝ) (sampleWorkspace ℝ 1)).2
      [0, 0] 298.15 0 0 (-1)).Lfree = -1 := rfl
  refine ⟨?_, ?_⟩
  · rw [weight_real, hb0, he0, hL]
    norm_num
  · rw [weight_real, hb1, he1, hL]
    norm_num

/-- C21 fails on the code.  On the lattice of one site with energies `0`,
`T = 298.15` and `Lfree = -1` the weights are `1` and `-1` and their sum is `0`;
`setProbabilities` has no other outcome than a workspace, and it divides both
weights by that sum: run with a division that yields `777` for a zero divisor, it
leaves `probs = [777, 777]`. -/
theorem setProbabilities_divides_by_zero :
    (∑ k in Finset.range (2 ^ (conditions
        (setupModelWorkspace (sampleHeap ℝ) (sampleWorkspace ℝ 1)).2
        [0, 0] 298.15 0 0 (-1)).size),
      weight Real.exp (conditions (setupModelWorkspace (sampleHeap ℝ) (sampleWorkspace ℝ 1)).2
        [0, 0] 298.15 0 0 (-1)) k) = 0 ∧
    (setProbabilitiesWith Real.exp markedDiv
      (conditions (setupModelWorkspace (sampleHeap ℝ) (sampleWorkspace ℝ 1)).2
        [0, 0] 298.15 0 0 (-1))).probs = [777, 777] ∧
    setProbabilities Real.exp
      (conditions (setupModelWorkspace (sampleHeap ℝ) (sampleWorkspace ℝ 1)).2
        [0, 0] 298.15 0 0 (-1))
      = setProbabilitiesWith Real.exp (fun a b => a / b)
        (conditions (setupModelWorkspace (sampleHeap ℝ) (sampleWorkspace ℝ 1)).2
          [0, 0] 298.15 0 0 (-1)) := by
  obtain ⟨w0, w1⟩ := negLigand_weights
  have hsz : (conditions (setupModelWorkspace (sampleHeap ℝ) (sampleWorkspace ℝ 1)).2
      [0, 0] 298.15 0 0 (-1)).size = 1 := by decide
  have hsum : (∑ k in Finset.range (2 ^ (conditions
        (setupModelWorkspace (sampleHeap ℝ) (sampleWorkspace ℝ 1)).2
        [0, 0] 298.15 0 0 (-1)).size),
      weight Real.exp (conditions (setupModelWorkspace (sampleHeap ℝ) (sampleWorkspace ℝ 1)).2
        [0, 0] 298.15 0 0 (-1)) k) = 0 := by
    rw [hsz]
    simp only [pow_one, Finset.sum_range_succ, Finset.sum_range_zero]
    rw [w0, w1]
    norm_num
  obtain ⟨g1, g2⟩ := setProbabilitiesWith_spec Real.exp markedDiv
    (conditions (setupModelWorkspace (sampleHeap ℝ) (sampleWorkspace ℝ 1)).2
      [0, 0] 298.15 0 0 (-1)) (by decide)
  refine ⟨hsum, ?_, rfl⟩
  have hl : (conditions (setupModelWorkspace (sampleHeap ℝ) (sampleWorkspace ℝ 1)).2
      [0, 0] 298.15 0 0 (-1)).probs.length = 2 := by decide
  apply list_ext_rd
  · rw [g1, hl]
    rfl
  · intro i hi
    rw [g1, hl] at hi
    rw [g2 i (by rw [hsz]; exact hi), hsum]
    interval_cases i
    · simp [rd, markedDiv]
    · simp [rd, markedDiv]

/-- C21, amended.  For every workspace whose array `probs` has `2 ^ size` entries or
more, also one whose weights sum to zero, and whatever the division yields:
`setProbabilities` changes no field but `probs` and leaves in every `probs[i]`,
`i < 2 ^ size`, the result of dividing the weight of configuration `i` by the sum of
all weights; it has no failure path. -/
theorem setProbabilities_unguarded {β : Type} [Field β] (expf : β → β) (divf : β → β → β)
    (w : mWorkspace β) (hlen : 2 ^ w.size ≤ w.probs.length) :
    setProbabilities expf w = setProbabilitiesWith expf (fun a b => a / b) w ∧
    setProbabilitiesWith expf divf w
      = { w with probs := (setProbabilitiesWith expf divf w).probs } ∧
    (setProbabilitiesWith expf divf w).probs.length = w.probs.length ∧
    (∀ i, i < 2 ^ w.size → rd (setProbabilitiesWith expf divf w).probs i
      = divf (weight expf w i) (∑ k in Finset.range (2 ^ w.size), weight expf w k)) := by
  obtain ⟨g1, g2⟩ := setProbabilitiesWith_spec expf divf w hlen
  refine ⟨?_, ?_, g1, g2⟩
  · unfold setProbabilities setProbabilitiesWith
    rfl
  · unfold setProbabilitiesWith
    rfl

/-- A witness of C21: the lattice of one site at `Lfree = -1`, where the sum of the
weights is zero. -/
theorem setProbabilities_unguarded_witness :
    2 ^ (conditions (setupModelWorkspace (sampleHeap ℝ) (sampleWorkspace ℝ 1)).2
        [0, 0] 298.15 0 0 (-1)).size
      ≤ (conditions (setupModelWorkspace (sampleHeap ℝ) (sampleWorkspace ℝ 1)).2
        [0, 0] 298.15 0 0 (-1)).probs.length ∧
    rd (setProbabilitiesWith Real.exp markedDiv
      (conditions (setupModelWorkspace (sampleHeap ℝ) (sampleWorkspace ℝ 1)).2
        [0, 0] 298.15 0 0 (-1))).probs 1
      = markedDiv
        (weight Real.exp (conditions (setupModelWorkspace (sampleHeap ℝ) (sampleWorkspace ℝ 1)).2
          [0, 0] 298.15 0 0 (-1)) 1)
        (∑ k in Finset.range (2 ^ (conditions
            (setupModelWorkspace (sampleHeap ℝ) (sampleWorkspace ℝ 1)).2
            [0, 0] 298.15 0 0 (-1)).size),
          weight Real.exp (conditions (setupModelWorkspace (sampleHeap ℝ) (sampleWorkspace ℝ 1)).2
            [0, 0] 298.15 0 0 (-1)) k) :=
  ⟨by decide,
    (setProbabilities_unguarded Real.exp markedDiv
      (conditions (setupModelWorkspace (sampleHeap ℝ) (sampleWorkspace ℝ 1)).2
        [0, 0] 298.15 0 0 (-1)) (by decide)).2.2.2 1 (by decide)⟩

end UnguardedReal

/-! ## The lattice-building entry point -/

section Setup

variable {α : Type} [Zero α]

/-- The function `setup` returns `0` on each of its three paths. -/
theorem setup_status (h : Heap α) (model : mWorkspace α) (sim : sWorkspace α)
    (size : Nat) (cyclic : Int) : (setup h model sim size cyclic).1 = 0 := by
  unfold setup
  dsimp only
  split_ifs <;> rfl

/-- The status of `setupModelWorkspace` is `0` or `1`. -/
theorem setupModelWorkspace_status (h : Heap α) (w : mWorkspace α) :
    (setupModelWorkspace h w).1 = 0 ∨ (setupModelWorkspace h w).1 = 1 := by
  unfold setupModelWorkspace
  split
  · exact Or.inr rfl
  · dsimp only
    split
    · exact Or.inr rfl
    · split
      · exact Or.inr rfl
      · split
        · exact Or.inr rfl
        · split
          · exact Or.inr rfl
          · exact Or.inl rfl

/-- When one of the `4 + 2 ^ size` calls of `malloc` that `setupModelWorkspace` can
make fails, its status is `1`. -/
theorem setupModelWorkspace_failure (h : Heap α) (w : mWorkspace α) (k : Nat)
    (hk : k < 4 + 2 ^ w.size) (hf : h.ok k = false) : (setupModelWorkspace h w).1 = 1 := by
  rcases setupModelWorkspace_status h w with h0 | h1
  · obtain ⟨_, _, _, _, _, _, _, _, _, _, _, _, _, _, hok⟩ := setupModelWorkspace_success h w h0
    rw [hok k hk] at hf
    exact absurd hf (by decide)
  · exact h1

/-- When its call of `malloc` fails, the status of `setupSimWorkspace` is `1`. -/
theorem setupSimWorkspace_failure (h : Heap α) (k : Nat) (model : mWorkspace α)
    (hf : h.ok k = false) : (setupSimWorkspace h k model).1 = 1 := by
  unfold setupSimWorkspace malloc
  rw [hf]
  rfl

/-- C22 fails on the code.  For one site: with an allocator whose first call of
`malloc` fails, `setupModelWorkspace` returns `1` and `setup` returns `0`; with an
allocator whose call number `6`, the one of `setupSimWorkspace`, fails,
`setupModelWorkspace` returns `0`, `setupSimWorkspace` returns `1` and `setup`
returns `0`; and `setup` returns `0` on every input. -/
theorem setup_hides_failure :
    (setupModelWorkspace (heapFailingAt ℝ 0)
      { sampleWorkspace ℝ 0 with size := 1, cyclic := 0 }).1 = 1 ∧
    (setup (heapFailingAt ℝ 0) (sampleWorkspace ℝ 0) { enthalpies := [] } 1 0).1 = 0 ∧
    (setupModelWorkspace (heapFailingAt ℝ 6)
      { sampleWorkspace ℝ 0 with size := 1, cyclic := 0 }).1 = 0 ∧
    (setupSimWorkspace (heapFailingAt ℝ 6) (4 + 2 ^ 1)
      (setupModelWorkspace (heapFailingAt ℝ 6)
        { sampleWorkspace ℝ 0 with size := 1, cyclic := 0 }).2).1 = 1 ∧
    (setup (heapFailingAt ℝ 6) (sampleWorkspace ℝ 0) { enthalpies := [] } 1 0).1 = 0 ∧
    (∀ (h : Heap ℝ) (model : mWorkspace ℝ) (sim : sWorkspace ℝ) (size : Nat) (cyclic : Int),
      (setup h model sim size cyclic).1 = 0) := by
  refine ⟨by decide, by decide, by decide, by decide, by decide, ?_⟩
  intro h model sim size cyclic
  exact setup_status h model sim size cyclic

end Setup

/-! ## The combined model of `energies_.c` -/

section CombinedModel

variable {α : Type} [Field α]

/-- A loop whose passes either add to entry `i` of both arrays or do nothing adds up
what its passes contribute. -/
theorem bumpLoop (P : List (List Int) → Nat → Prop) [∀ cf j, Decidable (P cf j)]
    (e h : List (List Int) → Nat → α) (i : Nat) (t0 : mWorkspace α × sWorkspace α) :
    ∀ k : Nat,
    forLoop k (fun j (t : mWorkspace α × sWorkspace α) =>
      if P t.1.configs j then bump i (e t.1.configs j) (h t.1.configs j) t else t) t0
    = bump i (∑ j in Finset.range k, if P t0.1.configs j then e t0.1.configs j else 0)
        (∑ j in Finset.range k, if P t0.1.configs j then h t0.1.configs j else 0) t0 := by
  intro k
  induction k with
  | zero => simp [forLoop, bump_zero]
  | succ k ih =>
    rw [forLoop_succ, ih, Finset.sum_range_succ, Finset.sum_range_succ]
    have hc : ∀ (x y : α), (bump i x y t0).1.configs = t0.1.configs := fun _ _ => rfl
    simp only [hc]
    by_cases hocc : P t0.1.configs k
    · simp only [hocc, if_true]
      rw [bump_bump]
    · simp only [hocc, if_false, add_zero]

/-- One pass of the outer loop of `energies_.c` stores both totals at index `i`. -/
theorem combinedBody (Gbind Ga Gb Gc Hnone Ha Hb Hc : α) (i : Nat)
    (s : mWorkspace α × sWorkspace α) :
    (let w1 := { s.1 with energies := s.1.energies.set i 0 }
     let sim1 : sWorkspace α := { enthalpies := s.2.enthalpies.set i 0 }
     let t := forFrom 1 (w1.size - 1) (fun j (t : mWorkspace α × sWorkspace α) =>
       if rd2 t.1.configs i j > 0 then
         let tmp := Combined.couple Gbind Ga Gb Gc Hnone Ha Hb Hc
           (decide (rd2 t.1.configs i (j + 1) > 0)) (decide (rd2 t.1.configs i (j - 1) > 0))
         addEnthalpy i tmp.2 (addEnergy i tmp.1 t)
       else t) (w1, sim1)
     if t.1.cyclic > 0 then
       let t :=
         if rd2 t.1.configs i 0 > 0 then
           let tmp := Combined.couple Gbind Ga Gb Gc Hnone Ha Hb Hc
             (decide (rd2 t.1.configs i 1 > 0))
             (decide (rdI t.1.configs i ((t.1.size : Int) - 1) > 0))
           addEnthalpy i tmp.2 (addEnergy i tmp.1 t)
         else t
       if rdI t.1.configs i ((t.1.size : Int) - 1) > 0 then
         let tmp := Combined.couple Gbind Ga Gb Gc Hnone Ha Hb Hc
           (decide (rd2 t.1.configs i 0 ≠ 0))
           (decide (rdI t.1.configs i ((t.1.size : Int) - 2) > 0))
         addEnthalpy i tmp.2 (addEnergy i tmp.1 t)
       else t
     else t)
    = ({ s.1 with energies := s.1.energies.set i (combinedTotal
            (fun r l => (Combined.couple Gbind Ga Gb Gc Hnone Ha Hb Hc r l).1)
            s.1.configs s.1.size s.1.cyclic i) },
       { enthalpies := s.2.enthalpies.set i (combinedTotal
            (fun r l => (Combined.couple Gbind Ga Gb Gc Hnone Ha Hb Hc r l).2)
            s.1.configs s.1.size s.1.cyclic i) }) := by
  have hloop := bumpLoop (fun cf k => rd2 cf i (1 + k) > 0)
    (fun cf k => (Combined.couple Gbind Ga Gb Gc Hnone Ha Hb Hc
      (decide (rd2 cf i (1 + k + 1) > 0)) (decide (rd2 cf i (1 + k - 1) > 0))).1)
    (fun cf k => (Combined.couple Gbind Ga Gb Gc Hnone Ha Hb Hc
      (decide (rd2 cf i (1 + k + 1) > 0)) (decide (rd2 cf i (1 + k - 1) > 0))).2) i
    ({ s.1 with energies := s.1.energies.set i 0 }, { enthalpies := s.2.enthalpies.set i 0 })
    (s.1.size - 1 - 1)
  simp only [forFrom, addEnthalpy_addEnergy]
  rw [hloop]
  simp only [bump_configs, bump_size]
  have hcy : ∀ (x y : α) (t : mWorkspace α × sWorkspace α), (bump i x y t).1.cyclic = t.1.cyclic :=
    fun _ _ _ => rfl
  simp only [hcy]
  unfold combinedTotal
  by_cases hc : s.1.cyclic > 0
  · by_cases h0 : rd2 s.1.configs i 0 > 0 <;>
    by_cases h1 : rdI s.1.configs i ((s.1.size : Int) - 1) > 0 <;>
    simp only [hc, h0, h1, if_true, if_false, bump_bump, bump_configs, bump_size, add_zero,
      zero_add] <;>
    simp only [bump_eq] <;>
    rw [set_set_rd, set_set_rd, zero_add, zero_add]
    · rw [add_assoc, add_assoc]
  · simp only [hc, if_false, add_zero]
    simp only [bump_eq]
    rw [set_set_rd, set_set_rd, zero_add, zero_add]

/-- A loop over the configurations whose pass `i` stores at index `i` of both arrays
values computed from `configs`, `size` and `cyclic`: the state after `m` passes. -/
theorem storeLoop_prefix (B : Nat → mWorkspace α × sWorkspace α → mWorkspace α × sWorkspace α)
    (E H : List (List Int) → Nat → Int → Nat → α)
    (hB : ∀ i s, B i s
      = ({ s.1 with energies := s.1.energies.set i (E s.1.configs s.1.size s.1.cyclic i) },
         { enthalpies := s.2.enthalpies.set i (H s.1.configs s.1.size s.1.cyclic i) }))
    (w : mWorkspace α) (sim : sWorkspace α) : ∀ m : Nat,
    (forLoop m B (w, sim)).1 = { w with energies := (forLoop m B (w, sim)).1.energies } ∧
    (forLoop m B (w, sim)).1.energies.length = w.energies.length ∧
    (forLoop m B (w, sim)).2.enthalpies.length = sim.enthalpies.length ∧
    (∀ i, i < m → i < w.energies.length →
      rd (forLoop m B (w, sim)).1.energies i = E w.configs w.size w.cyclic i) ∧
    (∀ i, m ≤ i → rd (forLoop m B (w, sim)).1.energies i = rd w.energies i) ∧
    (∀ i, i < m → i < sim.enthalpies.length →
      rd (forLoop m B (w, sim)).2.enthalpies i = H w.configs w.size w.cyclic i) ∧
    (∀ i, m ≤ i → rd (forLoop m B (w, sim)).2.enthalpies i = rd sim.enthalpies i) := by
  intro m
  induction m with
  | zero =>
    exact ⟨rfl, rfl, rfl, fun i hi => absurd hi (Nat.not_lt_zero i), fun _ _ => rfl,
      fun i hi => absurd hi (Nat.not_lt_zero i), fun _ _ => rfl⟩
  | succ m ih =>
    rw [forLoop_succ]
    generalize forLoop m B (w, sim) = s at ih
    obtain ⟨f1, l1, l2, e1, e2, h1, h2⟩ := ih
    have hcf : s.1.configs = w.configs := by rw [f1]
    have hsz : s.1.size = w.size := by rw [f1]
    have hcy : s.1.cyclic = w.cyclic := by rw [f1]
    rw [hB m s]
    refine ⟨?_, ?_, ?_, ?_, ?_, ?_, ?_⟩
    · exact frame_set_energies s.1 w _ f1
    · show (List.set _ _ _).length = _
      rw [List.length_set, l1]
    · show (List.set _ _ _).length = _
      rw [List.length_set, l2]
    · intro i hi hil
      show rd (List.set _ _ _) i = _
      by_cases him : i = m
      · subst him
        rw [rd_set_self _ _ _ (by rw [l1]; exact hil), hcf, hsz, hcy]
      · rw [rd_set_ne _ _ _ _ (Ne.symm him)]
        exact e1 i (by omega) hil
    · intro i hi
      show rd (List.set _ _ _) i = _
      rw [rd_set_ne _ _ _ _ (by omega)]
      exact e2 i (by omega)
    · intro i hi hil
      show rd (List.set _ _ _) i = _
      by_cases him : i = m
      · subst him
        rw [rd_set_self _ _ _ (by rw [l2]; exact hil), hcf, hsz, hcy]
      · rw [rd_set_ne _ _ _ _ (Ne.symm him)]
        exact h1 i (by omega) hil
    · intro i hi
      show rd (List.set _ _ _) i = _
      rw [rd_set_ne _ _ _ _ (by omega)]
      exact h2 i (by omega)

/-- What `assignEnergies` of `energies_.c` leaves behind: only `energies` and
`enthalpies` change, and every entry below `2 ^ size` is the total of its
configuration. -/
theorem combined_spec (w : mWorkspace α) (sim : sWorkspace α)
    (Gbind Ga Gb Gc Hnone Ha Hb Hc : α) :
    (Combined.assignEnergies w sim Gbind Ga Gb Gc Hnone Ha Hb Hc).1
      = { w with energies :=
          (Combined.assignEnergies w sim Gbind Ga Gb Gc Hnone Ha Hb Hc).1.energies } ∧
    (∀ i, i < 2 ^ w.size → i < w.energies.length →
      rd (Combined.assignEnergies w sim Gbind Ga Gb Gc Hnone Ha Hb Hc).1.energies i
        = combinedTotal (fun r l => (Combined.couple Gbind Ga Gb Gc Hnone Ha Hb Hc r l).1)
            w.configs w.size w.cyclic i) ∧
    (∀ i, i < 2 ^ w.size → i < sim.enthalpies.length →
      rd (Combined.assignEnergies w sim Gbind Ga Gb Gc Hnone Ha Hb Hc).2.enthalpies i
        = combinedTotal (fun r l => (Combined.couple Gbind Ga Gb Gc Hnone Ha Hb Hc r l).2)
            w.configs w.size w.cyclic i) := by
  obtain ⟨a1, _, _, a4, _, a6, _⟩ := storeLoop_prefix _
    (combinedTotal (fun r l => (Combined.couple Gbind Ga Gb Gc Hnone Ha Hb Hc r l).1))
    (combinedTotal (fun r l => (Combined.couple Gbind Ga Gb Gc Hnone Ha Hb Hc r l).2))
    (combinedBody Gbind Ga Gb Gc Hnone Ha Hb Hc) w sim (2 ^ w.size)
  exact ⟨a1, a4, a6⟩

/-- The two values `couple` leaves in `tmp1` and `tmp2`, as products with the factor
of the pair of neighbours. -/
theorem couple_pairFactor (Gbind Ga Gb Gc Hnone Ha Hb Hc : α) (r l : Int) :
    (Combined.couple Gbind Ga Gb Gc Hnone Ha Hb Hc (decide (r > 0)) (decide (l > 0))).1
      = Gbind * pairFactor Ga Gb Gc r l ∧
    (Combined.couple Gbind Ga Gb Gc Hnone Ha Hb Hc (decide (r > 0)) (decide (l > 0))).2
      = Hnone * pairFactor Ha Hb Hc r l := by
  unfold Combined.couple pairFactor
  by_cases hr : r > 0 <;> by_cases hl : l > 0 <;> simp [hr, hl, mul_assoc]

end CombinedModel

section CombinedSums

variable {α : Type} [Field α]

/-- Without `cyclic`, the total of a configuration is the sum over its occupied
interior sites. -/
theorem combinedTotal_linear (g : Bool → Bool → α) (cf : List (List Int)) (n : Nat) (c : Int)
    (i : Nat) (hc : ¬ c > 0) :
    combinedTotal g cf n c i
      = ∑ j in Finset.Ico 1 (n - 1),
          if rd2 cf i j > 0 then
            g (decide (rd2 cf i (j + 1) > 0)) (decide (rd2 cf i (j - 1) > 0))
          else 0 := by
  unfold combinedTotal
  rw [if_neg hc, add_zero, Finset.sum_Ico_eq_sum_range]

/-- With `cyclic > 0`, on a row of at least two sites whose first entry is not
negative, the total of a configuration is the sum over all its occupied sites, the
neighbours taken around the ring. -/
theorem combinedTotal_ring (g : Bool → Bool → α) (cf : List (List Int)) (n : Nat) (c : Int)
    (i : Nat) (hc : c > 0) (hn : 2 ≤ n) (h0 : 0 ≤ rd2 cf i 0) :
    combinedTotal g cf n c i
      = ∑ j in Finset.range n,
          if rd2 cf i j > 0 then
            g (decide (rd2 cf i ((j + 1) % n) > 0)) (decide (rd2 cf i ((j + n - 1) % n) > 0))
          else 0 := by
  obtain ⟨m, rfl⟩ : ∃ m, n = m + 2 := ⟨n - 2, by omega⟩
  unfold combinedTotal
  rw [if_pos hc, Finset.sum_range_succ, Finset.sum_range_succ']
  have e1 : ((m + 2 : Nat) : Int) - 1 = ((m + 1 : Nat) : Int) := by push_cast; ring
  have e2 : ((m + 2 : Nat) : Int) - 2 = ((m : Nat) : Int) := by push_cast; ring
  rw [e1, e2, rdI_natCast, rdI_natCast]
  have i1 : m + 2 - 1 - 1 = m := by omega
  have i2 : (0 + 1) % (m + 2) = 1 := Nat.mod_eq_of_lt (by omega)
  have i3 : (0 + (m + 2) - 1) % (m + 2) = m + 1 := by
    rw [show 0 + (m + 2) - 1 = m + 1 by omega]
    exact Nat.mod_eq_of_lt (by omega)
  have i4 : (m + 1 + 1) % (m + 2) = 0 := Nat.mod_self _
  have i5 : (m + 1 + (m + 2) - 1) % (m + 2) = m := by
    rw [show m + 1 + (m + 2) - 1 = m + (m + 2) by omega, Nat.add_mod_right]
    exact Nat.mod_eq_of_lt (by omega)
  have hne : decide (rd2 cf i 0 ≠ 0) = decide (rd2 cf i 0 > 0) := by
    by_cases hz : rd2 cf i 0 = 0
    · simp [hz]
    · have : rd2 cf i 0 > 0 := by omega
      simp [hz, this]
  rw [i1, i2, i3, i4, i5, hne]
  have hmid : (∑ k in Finset.range m,
      if rd2 cf i (1 + k) > 0 then
        g (decide (rd2 cf i (1 + k + 1) > 0)) (decide (rd2 cf i (1 + k - 1) > 0))
      else 0)
      = ∑ k in Finset.range m,
          if rd2 cf i (k + 1) > 0 then
            g (decide (rd2 cf i ((k + 1 + 1) % (m + 2)) > 0))
              (decide (rd2 cf i ((k + 1 + (m + 2) - 1) % (m + 2)) > 0))
          else 0 := by
    apply Finset.sum_congr rfl
    intro k hk
    have hk2 : k < m := Finset.mem_range.mp hk
    have j1 : (k + 1 + 1) % (m + 2) = 1 + k + 1 := by
      rw [Nat.mod_eq_of_lt (by omega)]
      omega
    have j2 : (k + 1 + (m + 2) - 1) % (m + 2) = 1 + k - 1 := by
      rw [show k + 1 + (m + 2) - 1 = k + (m + 2) by omega, Nat.add_mod_right,
        Nat.mod_eq_of_lt (by omega)]
      omega
    rw [j1, j2, Nat.add_comm 1 k]
  rw [hmid]
  ring

end CombinedSums

section CombinedClaim

variable {α : Type} [Field α]

/-- With `cyclic > 0` the total is the total without `cyclic` plus the terms of the
two end sites. -/
theorem combinedTotal_split (g : Bool → Bool → α) (cf : List (List Int)) (n : Nat) (c : Int)
    (i : Nat) (hc : c > 0) (hn : 2 ≤ n) (h0 : 0 ≤ rd2 cf i 0) :
    combinedTotal g cf n c i
      = combinedTotal g cf n 0 i
        + (if rd2 cf i 0 > 0 then
            g (decide (rd2 cf i 1 > 0)) (decide (rd2 cf i (n - 1) > 0)) else 0)
        + (if rd2 cf i (n - 1) > 0 then
            g (decide (rd2 cf i 0 > 0)) (decide (rd2 cf i (n - 2) > 0)) else 0) := by
  obtain ⟨m, rfl⟩ : ∃ m, n = m + 2 := ⟨n - 2, by omega⟩
  unfold combinedTotal
  rw [if_pos hc, if_neg (show ¬ ((0 : Int) > 0) by decide)]
  have e1 : ((m + 2 : Nat) : Int) - 1 = ((m + 1 : Nat) : Int) := by push_cast; ring
  have e2 : ((m + 2 : Nat) : Int) - 2 = ((m : Nat) : Int) := by push_cast; ring
  have hne : decide (rd2 cf i 0 ≠ 0) = decide (rd2 cf i 0 > 0) := by
    by_cases hz : rd2 cf i 0 = 0
    · simp [hz]
    · have : rd2 cf i 0 > 0 := by omega
      simp [hz, this]
  rw [e1, e2, rdI_natCast, rdI_natCast, hne]
  rw [show m + 2 - 1 = m + 1 by omega, show m + 2 - 2 = m by omega]
  ring

/-- The arrays after `assignEnergies` of `energies_.c` on a workspace whose flag
`cyclic` has been set to `c`. -/
theorem combined_onRow (w : mWorkspace α) (sim : sWorkspace α)
    (Gbind Ga Gb Gc Hnone Ha Hb Hc : α) (c : Int) (i : Nat) (hi : i < 2 ^ w.size)
    (hiE : i < w.energies.length) (hiH : i < sim.enthalpies.length) :
    rd (Combined.assignEnergies { w with cyclic := c } sim
        Gbind Ga Gb Gc Hnone Ha Hb Hc).1.energies i
      = combinedTotal (fun r l => (Combined.couple Gbind Ga Gb Gc Hnone Ha Hb Hc r l).1)
          w.configs w.size c i ∧
    rd (Combined.assignEnergies { w with cyclic := c } sim
        Gbind Ga Gb Gc Hnone Ha Hb Hc).2.enthalpies i
      = combinedTotal (fun r l => (Combined.couple Gbind Ga Gb Gc Hnone Ha Hb Hc r l).2)
          w.configs w.size c i := by
  obtain ⟨_, a2, a3⟩ := combined_spec { w with cyclic := c } sim Gbind Ga Gb Gc Hnone Ha Hb Hc
  exact ⟨a2 i hi hiE, a3 i hi hiH⟩

/-- In the big-endian lattice, configuration `2 ^ (n - 1)` has site `0` occupied
and no other site. -/
theorem firstSite_bits (n j : Nat) (hj : j < n) :
    2 ^ (n - 1) / 2 ^ (n - 1 - j) % 2 = if j = 0 then 1 else 0 := by
  rw [Nat.pow_div (by omega) (by decide), show n - 1 - (n - 1 - j) = j by omega]
  cases j with
  | zero => simp
  | succ k => simp [Nat.pow_succ]

/-- C23. In a lattice of `size ≥ 2` sites built by `setupModelWorkspace`, for every
configuration `i`, `assignEnergies` of `energies_.c` run with `cyclic = 0` leaves in
`energies[i]` the sum over the occupied interior sites `j = 1 .. size - 2` of `Gbind`
times the factor of the neighbours `j + 1`, `j - 1` (`Gc` when both are occupied,
otherwise `Gb` or `Ga` for each of them), so that a configuration without occupied
interior site gets `0`, for example configuration `2 ^ (size - 1)` in which only
site `0` is occupied; run with `cyclic = c > 0` it leaves the sum over all occupied
sites with the neighbours `(j + 1) mod size`, `(j - 1) mod size`, which is the former
sum plus the terms of the occupied end sites.  The same holds for `enthalpies[i]`
with `Hnone`, `Ha`, `Hb`, `Hc`. -/
theorem combined_assignEnergies (h : Heap α) (w0 : mWorkspace α)
    (hs : (setupModelWorkspace h w0).1 = 0) (hn : 2 ≤ w0.size) (sim : sWorkspace α)
    (hsim : sim.enthalpies.length = 2 ^ w0.size) (Gbind Ga Gb Gc Hnone Ha Hb Hc : α)
    (c : Int) (hc : 0 < c) :
    (∀ i, i < 2 ^ w0.size →
      rd (Combined.assignEnergies { (setupModelWorkspace h w0).2 with cyclic := 0 } sim
          Gbind Ga Gb Gc Hnone Ha Hb Hc).1.energies i
        = (∑ j in Finset.Ico 1 (w0.size - 1),
            if rd2 (setupModelWorkspace h w0).2.configs i j > 0 then
              Gbind * pairFactor Ga Gb Gc (rd2 (setupModelWorkspace h w0).2.configs i (j + 1))
                (rd2 (setupModelWorkspace h w0).2.configs i (j - 1))
            else 0) ∧
      rd (Combined.assignEnergies { (setupModelWorkspace h w0).2 with cyclic := 0 } sim
          Gbind Ga Gb Gc Hnone Ha Hb Hc).2.enthalpies i
        = (∑ j in Finset.Ico 1 (w0.size - 1),
            if rd2 (setupModelWorkspace h w0).2.configs i j > 0 then
              Hnone * pairFactor Ha Hb Hc (rd2 (setupModelWorkspace h w0).2.configs i (j + 1))
                (rd2 (setupModelWorkspace h w0).2.configs i (j - 1))
            else 0) ∧
      ((∀ j, 1 ≤ j → j < w0.size - 1 → rd2 (setupModelWorkspace h w0).2.configs i j = 0) →
        rd (Combined.assignEnergies { (setupModelWorkspace h w0).2 with cyclic := 0 } sim
            Gbind Ga Gb Gc Hnone Ha Hb Hc).1.energies i = 0 ∧
        rd (Combined.assignEnergies { (setupModelWorkspace h w0).2 with cyclic := 0 } sim
            Gbind Ga Gb Gc Hnone Ha Hb Hc).2.enthalpies i = 0) ∧
      rd (Combined.assignEnergies { (setupModelWorkspace h w0).2 with cyclic := c } sim
          Gbind Ga Gb Gc Hnone Ha Hb Hc).1.energies i
        = (∑ j in Finset.range w0.size,
            if rd2 (setupModelWorkspace h w0).2.configs i j > 0 then
              Gbind * pairFactor Ga Gb Gc
                (rd2 (setupModelWorkspace h w0).2.configs i ((j + 1) % w0.size))
                (rd2 (setupModelWorkspace h w0).2.configs i ((j + w0.size - 1) % w0.size))
            else 0) ∧
      rd (Combined.assignEnergies { (setupModelWorkspace h w0).2 with cyclic := c } sim
          Gbind Ga Gb Gc Hnone Ha Hb Hc).2.enthalpies i
        = (∑ j in Finset.range w0.size,
            if rd2 (setupModelWorkspace h w0).2.configs i j > 0 then
              Hnone * pairFactor Ha Hb Hc
                (rd2 (setupModelWorkspace h w0).2.configs i ((j + 1) % w0.size))
                (rd2 (setupModelWorkspace h w0).2.configs i ((j + w0.size - 1) % w0.size))
            else 0) ∧
      rd (Combined.assignEnergies { (setupModelWorkspace h w0).2 with cyclic := c } sim
          Gbind Ga Gb Gc Hnone Ha Hb Hc).1.energies i
        = rd (Combined.assignEnergies { (setupModelWorkspace h w0).2 with cyclic := 0 } sim
            Gbind Ga Gb Gc Hnone Ha Hb Hc).1.energies i
          + (if rd2 (setupModelWorkspace h w0).2.configs i 0 > 0 then
              Gbind * pairFactor Ga Gb Gc (rd2 (setupModelWorkspace h w0).2.configs i 1)
                (rd2 (setupModelWorkspace h w0).2.configs i (w0.size - 1))
            else 0)
          + (if rd2 (setupModelWorkspace h w0).2.configs i (w0.size - 1) > 0 then
              Gbind * pairFactor Ga Gb Gc (rd2 (setupModelWorkspace h w0).2.configs i 0)
                (rd2 (setupModelWorkspace h w0).2.configs i (w0.size - 2))
            else 0) ∧
      rd (Combined.assignEnergies { (setupModelWorkspace h w0).2 with cyclic := c } sim
          Gbind Ga Gb Gc Hnone Ha Hb Hc).2.enthalpies i
        = rd (Combined.assignEnergies { (setupModelWorkspace h w0).2 with cyclic := 0 } sim
            Gbind Ga Gb Gc Hnone Ha Hb Hc).2.enthalpies i
          + (if rd2 (setupModelWorkspace h w0).2.configs i 0 > 0 then
              Hnone * pairFactor Ha Hb Hc (rd2 (setupModelWorkspace h w0).2.configs i 1)
                (rd2 (setupModelWorkspace h w0).2.configs i (w0.size - 1))
            else 0)
          + (if rd2 (setupModelWorkspace h w0).2.configs i (w0.size - 1) > 0 then
              Hnone * pairFactor Ha Hb Hc (rd2 (setupModelWorkspace h w0).2.configs i 0)
                (rd2 (setupModelWorkspace h w0).2.configs i (w0.size - 2))
            else 0)) ∧
    rd2 (setupModelWorkspace h w0).2.configs (2 ^ (w0.size - 1)) 0 = 1 ∧
    (∀ j, 1 ≤ j → j < w0.size →
      rd2 (setupModelWorkspace h w0).2.configs (2 ^ (w0.size - 1)) j = 0) ∧
    rd (Combined.assignEnergies { (setupModelWorkspace h w0).2 with cyclic := 0 } sim
        Gbind Ga Gb Gc Hnone Ha Hb Hc).1.energies (2 ^ (w0.size - 1)) = 0 ∧
    rd (Combined.assignEnergies { (setupModelWorkspace h w0).2 with cyclic := 0 } sim
        Gbind Ga Gb Gc Hnone Ha Hb Hc).2.enthalpies (2 ^ (w0.size - 1)) = 0 := by
  obtain ⟨s1, _, _, _, _, _, _, _, _, _, _, s12, s13⟩ := setupModelWorkspace_spec h w0 hs
  have hrow : ∀ (k : Int) (i : Nat), i < 2 ^ w0.size →
      rd (Combined.assignEnergies { (setupModelWorkspace h w0).2 with cyclic := k } sim
          Gbind Ga Gb Gc Hnone Ha Hb Hc).1.energies i
        = combinedTotal (fun r l => (Combined.couple Gbind Ga Gb Gc Hnone Ha Hb Hc r l).1)
            (setupModelWorkspace h w0).2.configs w0.size k i ∧
      rd (Combined.assignEnergies { (setupModelWorkspace h w0).2 with cyclic := k } sim
          Gbind Ga Gb Gc Hnone Ha Hb Hc).2.enthalpies i
        = combinedTotal (fun r l => (Combined.couple Gbind Ga Gb Gc Hnone Ha Hb Hc r l).2)
            (setupModelWorkspace h w0).2.configs w0.size k i := by
    intro k i hi
    obtain ⟨a, b⟩ := combined_onRow (setupModelWorkspace h w0).2 sim
      Gbind Ga Gb Gc Hnone Ha Hb Hc k i
      (by rw [s1]; exact hi) (by rw [s12]; exact hi) (by rw [hsim]; exact hi)
    exact ⟨a.trans (by rw [s1]), b.trans (by rw [s1])⟩
  have hnn : ∀ i, i < 2 ^ w0.size → 0 ≤ rd2 (setupModelWorkspace h w0).2.configs i 0 := by
    intro i hi
    rw [(s13 i hi).1 0 (by omega)]
    exact Int.natCast_nonneg _
  have hlinE : ∀ i, i < 2 ^ w0.size →
      rd (Combined.assignEnergies { (setupModelWorkspace h w0).2 with cyclic := 0 } sim
          Gbind Ga Gb Gc Hnone Ha Hb Hc).1.energies i
        = (∑ j in Finset.Ico 1 (w0.size - 1),
            if rd2 (setupModelWorkspace h w0).2.configs i j > 0 then
              Gbind * pairFactor Ga Gb Gc (rd2 (setupModelWorkspace h w0).2.configs i (j + 1))
                (rd2 (setupModelWorkspace h w0).2.configs i (j - 1))
            else 0) := by
    intro i hi
    rw [(hrow 0 i hi).1, combinedTotal_linear _ _ _ _ _ (by decide)]
    apply Finset.sum_congr rfl
    intro j _
    simp only [(couple_pairFactor Gbind Ga Gb Gc Hnone Ha Hb Hc _ _).1]
  have hlinH : ∀ i, i < 2 ^ w0.size →
      rd (Combined.assignEnergies { (setupModelWorkspace h w0).2 with cyclic := 0 } sim
          Gbind Ga Gb Gc Hnone Ha Hb Hc).2.enthalpies i
        = (∑ j in Finset.Ico 1 (w0.size - 1),
            if rd2 (setupModelWorkspace h w0).2.configs i j > 0 then
              Hnone * pairFactor Ha Hb Hc (rd2 (setupModelWorkspace h w0).2.configs i (j + 1))
                (rd2 (setupModelWorkspace h w0).2.configs i (j - 1))
            else 0) := by
    intro i hi
    rw [(hrow 0 i hi).2, combinedTotal_linear _ _ _ _ _ (by decide)]
    apply Finset.sum_congr rfl
    intro j _
    simp only [(couple_pairFactor Gbind Ga Gb Gc Hnone Ha Hb Hc _ _).2]
  have hzero : ∀ i, i < 2 ^ w0.size →
      (∀ j, 1 ≤ j → j < w0.size - 1 → rd2 (setupModelWorkspace h w0).2.configs i j = 0) →
      rd (Combined.assignEnergies { (setupModelWorkspace h w0).2 with cyclic := 0 } sim
          Gbind Ga Gb Gc Hnone Ha Hb Hc).1.energies i = 0 ∧
      rd (Combined.assignEnergies { (setupModelWorkspace h w0).2 with cyclic := 0 } sim
          Gbind Ga Gb Gc Hnone Ha Hb Hc).2.enthalpies i = 0 := by
    intro i hi hz
    rw [hlinE i hi, hlinH i hi]
    refine ⟨?_, ?_⟩
    · apply Finset.sum_eq_zero
      intro j hj
      rw [hz j (Finset.mem_Ico.mp hj).1 (Finset.mem_Ico.mp hj).2]
      simp
    · apply Finset.sum_eq_zero
      intro j hj
      rw [hz j (Finset.mem_Ico.mp hj).1 (Finset.mem_Ico.mp hj).2]
      simp
  have hp : 2 ^ (w0.size - 1) < 2 ^ w0.size := Nat.pow_lt_pow_right (by decide) (by omega)
  have hfirst : ∀ j, j < w0.size →
      rd2 (setupModelWorkspace h w0).2.configs (2 ^ (w0.size - 1)) j
        = if j = 0 then 1 else 0 := by
    intro j hj
    rw [(s13 _ hp).1 j hj, firstSite_bits w0.size j hj]
    split <;> rfl
  refine ⟨?_, ?_, ?_, ?_, ?_⟩
  · intro i hi
    refine ⟨hlinE i hi, hlinH i hi, hzero i hi, ?_, ?_, ?_, ?_⟩
    · rw [(hrow c i hi).1, combinedTotal_ring _ _ _ _ _ hc hn (hnn i hi)]
      apply Finset.sum_congr rfl
      intro j _
      simp only [(couple_pairFactor Gbind Ga Gb Gc Hnone Ha Hb Hc _ _).1]
    · rw [(hrow c i hi).2, combinedTotal_ring _ _ _ _ _ hc hn (hnn i hi)]
      apply Finset.sum_congr rfl
      intro j _
      simp only [(couple_pairFactor Gbind Ga Gb Gc Hnone Ha Hb Hc _ _).2]
    · rw [(hrow c i hi).1, (hrow 0 i hi).1, combinedTotal_split _ _ _ _ _ hc hn (hnn i hi)]
      simp only [(couple_pairFactor Gbind Ga Gb Gc Hnone Ha Hb Hc _ _).1]
    · rw [(hrow c i hi).2, (hrow 0 i hi).2, combinedTotal_split _ _ _ _ _ hc hn (hnn i hi)]
      simp only [(couple_pairFactor Gbind Ga Gb Gc Hnone Ha Hb Hc _ _).2]
  · rw [hfirst 0 (by omega)]
    rfl
  · intro j h1 hj
    rw [hfirst j hj, if_neg (by omega)]
  · exact (hzero _ hp (fun j h1 hj => by rw [hfirst j (by omega), if_neg (by omega)])).1
  · exact (hzero _ hp (fun j h1 hj => by rw [hfirst j (by omega), if_neg (by omega)])).2

/-- A witness of C23: three sites, configuration `4` in which only site `0` is
occupied. -/
theorem combined_assignEnergies_witness :
    (setupModelWorkspace (sampleHeap ℝ) (sampleWorkspace ℝ 3)).1 = 0 ∧
    2 ≤ (sampleWorkspace ℝ 3).size ∧
    ({ enthalpies := [0, 0, 0, 0, 0, 0, 0, 0] } : sWorkspace ℝ).enthalpies.length
      = 2 ^ (sampleWorkspace ℝ 3).size ∧
    (0 : Int) < 1 ∧
    rd (Combined.assignEnergies
        { (setupModelWorkspace (sampleHeap ℝ) (sampleWorkspace ℝ 3)).2 with cyclic := 0 }
        { enthalpies := [0, 0, 0, 0, 0, 0, 0, 0] } 2 3 5 7 11 13 17 19).1.energies
      (2 ^ ((sampleWorkspace ℝ 3).size - 1)) = 0 :=
  ⟨by decide, by decide, rfl, by decide,
    (combined_assignEnergies (sampleHeap ℝ) (sampleWorkspace ℝ 3) (by decide) (by decide)
      { enthalpies := [0, 0, 0, 0, 0, 0, 0, 0] } rfl 2 3 5 7 11 13 17 19 1
      (by decide)).2.2.2.1⟩

end CombinedClaim

/-! ## Overflow in `setProbabilities` -/

section Overflow

end Overflow

end Itcsim
